import Mathlib

/-!
# ticket_box: booking, payment and settlement

A shallow embedding of the booking service (`booking/booking.go`), the payment
service (`payment/payment.go`), the queue service (`internal/queue/queue.go`),
the event service (`event/event.go`), the GORM repositories they call, the
booking HTTP handlers (`internal/rest/booking.go`) and the pagination
middleware (`internal/rest/middleware/pagination.go`).

Conventions of the embedding

* The record store and the Redis server are explicit state (`World`); every
  operation takes the world and the clock reading `now` (one reading for the
  whole call) and returns the new world with its result.  Writes made before
  a failure stay in the world that is returned.
* The store answers every command: a repository read fails only when the
  record is absent, a write does not fail.  The Redis server answers every
  command but `RPUSH` and `SET`, the two commands of the enqueue step, which
  it refuses with the error carried by `Redis.rpushErr` and `Redis.setErr`
  when it is unavailable.
* Go `uint` identifiers are `Nat`, Go `int` is `Int` with results of `+=` and
  `-=` wrapped to 64 bits by `wrapInt`, `float64` is `Float`, `time.Time` is an
  instant in nanoseconds (`Time`).
* Status types are Go string types, so they are strings here.
* A nil interface or nil pointer receiver that is dereferenced is the outcome
  `Outcome.crash`.
* Logging is not modelled.
* Calls are atomic in the model.  Where two calls overlap, `CreateBooking` is
  taken apart into its reads (`CreateBooking_read`) and its writes
  (`CreateBooking_write`), each store command being one step.
-/

namespace TicketBox

/-! ## Basic types -/

/-- An instant of `time.Time`, in nanoseconds since the zero time; `IsZero` is `= 0`. -/
abbrev Time := Int

/-- The value a Go `int` (64-bit, two's complement) holds after an arithmetic result `x`. -/
def wrapInt (x : Int) : Int :=
  (x + 9223372036854775808) % 18446744073709551616 - 9223372036854775808

/-- Result of a call: a value, a returned `error`, or a run-time panic on a nil dereference. -/
inductive Outcome (α : Type) where
  | ok (val : α)
  | error (msg : String)
  | crash (msg : String)
deriving Repr

/-! ## domain -/

abbrev EventStatus := String
abbrev BookingStatus := String
abbrev PaymentStatus := String

abbrev EventStatusActive : EventStatus := "ACTIVE"
abbrev EventStatusInactive : EventStatus := "INACTIVE"

abbrev BookingStatusPending : BookingStatus := "PENDING"
abbrev BookingStatusConfirmed : BookingStatus := "CONFIRMED"
abbrev BookingStatusCancelled : BookingStatus := "CANCELLED"

abbrev PaymentStatusPending : PaymentStatus := "PENDING"
abbrev PaymentStatusCompleted : PaymentStatus := "COMPLETED"
abbrev PaymentStatusFailed : PaymentStatus := "FAILED"

/-- The struct `domain.User`; the has-many relation `Bookings` is never loaded and is left out. -/
structure User where
  ID : Nat := 0
  Email : String := ""
  Password : String := ""
  CreatedAt : Time := 0
  UpdatedAt : Time := 0
deriving Repr, Inhabited

/-- The struct `domain.Event`; `TotalTickets` is the counter that booking creation debits and
cancellation credits.  The has-many relation `Bookings` is always omitted and is left out. -/
structure Event where
  ID : Nat := 0
  Name : String := ""
  Description : String := ""
  StartDate : Time := 0
  EndDate : Time := 0
  TotalTickets : Int := 0
  TicketPrice : Float := 0
  CreatedAt : Time := 0
  UpdatedAt : Time := 0
  Status : EventStatus := ""
deriving Repr, Inhabited

/-- The struct `domain.Booking`, with its preloaded `User` and `Event`. -/
structure Booking where
  ID : Nat := 0
  UserID : Nat := 0
  EventID : Nat := 0
  Quantity : Int := 0
  TotalPrice : Float := 0
  Status : BookingStatus := ""
  CreatedAt : Time := 0
  UpdatedAt : Time := 0
  User : User := {}
  Event : Event := {}
deriving Repr, Inhabited

/-- The struct `domain.Payment`; its relation `Booking` is never loaded and is left out. -/
structure Payment where
  ID : Nat := 0
  BookingID : Nat := 0
  Amount : Float := 0
  Status : PaymentStatus := ""
  CreatedAt : Time := 0
  UpdatedAt : Time := 0
deriving Repr, Inhabited

/-- The struct `queue.PaymentJob`. -/
structure PaymentJob where
  BookingID : Nat := 0
  Amount : Float := 0
deriving Repr, Inhabited

/-! ## The record store -/

/-- First row of a table whose primary key is `id`. -/
def findRow {α : Type} (idOf : α → Nat) (id : Nat) : List α → Option α
  | [] => none
  | r :: rs => if idOf r = id then some r else findRow idOf id rs

/-- Overwrite the row that has the primary key of `row`. -/
def replaceRow {α : Type} (idOf : α → Nat) (row : α) : List α → List α
  | [] => []
  | r :: rs => if idOf r = idOf row then row :: rs else r :: replaceRow idOf row rs

/-- What `db.Save` does for a row with a non-zero key: update it, insert it when absent. -/
def upsertRow {α : Type} (idOf : α → Nat) (row : α) (rows : List α) : List α :=
  match findRow idOf (idOf row) rows with
  | some _ => replaceRow idOf row rows
  | none => rows ++ [row]

/-- The tables of the record store and the next value of each auto-increment key. -/
structure DB where
  users : List User := []
  events : List Event := []
  bookings : List Booking := []
  payments : List Payment := []
  nextEventID : Nat := 1
  nextBookingID : Nat := 1
  nextPaymentID : Nat := 1
deriving Repr, Inhabited

/-- A key of the Redis server with its value and the instant at which it expires. -/
structure RedisEntry where
  key : String
  value : String
  expireAt : Time
deriving Repr, DecidableEq

/-- The Redis handle and server: `client` tells whether the client pointer is non-nil, `lists`
holds the list stored under each name (a job stands for its JSON encoding), `entries` the
string keys; `rpushErr` and `setErr` are the errors with which the server, when it is
unavailable, answers the commands `RPUSH` and `SET`. -/
structure Redis where
  client : Bool := true
  lists : List (String × List PaymentJob) := []
  entries : List RedisEntry := []
  rpushErr : Option String := none
  setErr : Option String := none
deriving Repr, Inhabited

/-- Record store and Redis together. -/
structure World where
  db : DB := {}
  redis : Redis := {}
deriving Repr, Inhabited

/-! ### internal/repository/user -/

/-- The method `GormUserRepository.FindById`. -/
def UserRepository.FindById (db : DB) (id : Nat) : Except String User :=
  match findRow User.ID id db.users with
  | some u => .ok u
  | none => .error "record not found"

/-! ### internal/repository/event -/

/-- The method `GormEventRepository.FindById`. -/
def EventRepository.FindById (db : DB) (id : Nat) : Except String Event :=
  match findRow Event.ID id db.events with
  | some e => .ok e
  | none => .error "record not found"

/-- The method `GormEventRepository.Update`, a `db.Save`: a zero key inserts under the next
key, any other key updates or inserts that row; `UpdatedAt` becomes `now`. -/
def EventRepository.Update (now : Time) (db : DB) (event : Event) : DB × Event :=
  if event.ID = 0 then
    let e : Event := { event with ID := db.nextEventID, UpdatedAt := now,
                                  CreatedAt := if event.CreatedAt = 0 then now else event.CreatedAt }
    ({ db with events := db.events ++ [e], nextEventID := db.nextEventID + 1 }, e)
  else
    let e : Event := { event with UpdatedAt := now }
    ({ db with events := upsertRow Event.ID e db.events }, e)

/-! ### internal/repository/booking -/

/-- The columns of a booking: the struct without its loaded associations. -/
def Booking.row (b : Booking) : Booking := { b with User := {}, Event := {} }

/-- The method `GormBookingRepository.Create` for a booking whose associations are not loaded:
the row gets the next key and, where they are zero, the time stamps and the default status. -/
def BookingRepository.Create (now : Time) (db : DB) (booking : Booking) : DB × Booking :=
  let b : Booking :=
    { booking with
      ID := if booking.ID = 0 then db.nextBookingID else booking.ID
      Status := if booking.Status = "" then "PENDING" else booking.Status
      CreatedAt := if booking.CreatedAt = 0 then now else booking.CreatedAt
      UpdatedAt := if booking.UpdatedAt = 0 then now else booking.UpdatedAt }
  ({ db with bookings := db.bookings ++ [b.row], nextBookingID := db.nextBookingID + 1 }, b)

/-- The method `GormBookingRepository.FindById`, with `User` and `Event` preloaded (an
association without a row stays the zero value). -/
def BookingRepository.FindById (db : DB) (id : Nat) : Except String Booking :=
  match findRow Booking.ID id db.bookings with
  | none => .error "record not found"
  | some b =>
    .ok { b with
          User := (findRow User.ID b.UserID db.users).getD {}
          Event := (findRow Event.ID b.EventID db.events).getD {} }

/-- The method `GormBookingRepository.Update`, a `db.Save` of the booking's columns; loaded
associations are inserted only when absent, so existing user and event rows are untouched. -/
def BookingRepository.Update (now : Time) (db : DB) (booking : Booking) : DB × Booking :=
  if booking.ID = 0 then
    BookingRepository.Create now db booking
  else
    let b : Booking := { booking with UpdatedAt := now }
    ({ db with bookings := upsertRow Booking.ID b.row db.bookings }, b)

/-! ### internal/repository/payment -/

/-- The method `GormPaymentRepository.Create`. -/
def PaymentRepository.Create (now : Time) (db : DB) (payment : Payment) : DB × Payment :=
  let p : Payment :=
    { payment with
      ID := if payment.ID = 0 then db.nextPaymentID else payment.ID
      Status := if payment.Status = "" then "PENDING" else payment.Status
      CreatedAt := if payment.CreatedAt = 0 then now else payment.CreatedAt
      UpdatedAt := if payment.UpdatedAt = 0 then now else payment.UpdatedAt }
  ({ db with payments := db.payments ++ [p], nextPaymentID := db.nextPaymentID + 1 }, p)

/-- The method `GormPaymentRepository.FindById`. -/
def PaymentRepository.FindById (db : DB) (id : Nat) : Except String Payment :=
  match findRow Payment.ID id db.payments with
  | some p => .ok p
  | none => .error "record not found"

/-- The method `GormPaymentRepository.FindByBookingID`: the first payment of the booking. -/
def PaymentRepository.FindByBookingID (db : DB) (bookingID : Nat) : Except String Payment :=
  match findRow Payment.BookingID bookingID db.payments with
  | some p => .ok p
  | none => .error "record not found"

/-- The method `GormPaymentRepository.UpdatePayment`, a `db.Save`. -/
def PaymentRepository.UpdatePayment (now : Time) (db : DB) (payment : Payment) : DB × Payment :=
  if payment.ID = 0 then
    PaymentRepository.Create now db payment
  else
    let p : Payment := { payment with UpdatedAt := now }
    ({ db with payments := upsertRow Payment.ID p db.payments }, p)

/-! ## internal/redis: the commands the queue service issues -/

/-- Append a value to the list stored under `name`, creating the list when absent. -/
def rpushList (name : String) (v : PaymentJob) :
    List (String × List PaymentJob) → List (String × List PaymentJob)
  | [] => [(name, [v])]
  | (n, vs) :: rest =>
    if n = name then (n, vs ++ [v]) :: rest else (n, vs) :: rpushList name v rest

/-- The list stored under `name` (empty when there is none). -/
def Redis.list (r : Redis) (name : String) : List PaymentJob :=
  (r.lists.lookup name).getD []

/-- Command `RPUSH name v`. -/
def Redis.RPush (r : Redis) (name : String) (v : PaymentJob) : Redis :=
  { r with lists := rpushList name v r.lists }

/-- Command `SET key value` with expiry `ttl`, issued at `now`. -/
def Redis.Set (r : Redis) (now : Time) (key value : String) (ttl : Int) : Redis :=
  { r with entries := r.entries.filter (fun e => e.key ≠ key) ++ [⟨key, value, now + ttl⟩] }

/-- The keys that have not expired at `now`. -/
def Redis.live (r : Redis) (now : Time) : List RedisEntry :=
  r.entries.filter (fun e => now < e.expireAt)

/-- Command `EXISTS key` at `now`. -/
def Redis.Exists (r : Redis) (now : Time) (key : String) : Bool :=
  (r.live now).any (fun e => e.key = key)

/-- Command `KEYS pre*` at `now`: the live keys that start with `pre`. -/
def Redis.Keys (r : Redis) (now : Time) (pre : String) : List String :=
  ((r.live now).filter (fun e => pre.toList.isPrefixOf e.key.toList)).map (fun e => e.key)

/-- Command `DEL key`. -/
def Redis.Del (r : Redis) (key : String) : Redis :=
  { r with entries := r.entries.filter (fun e => e.key ≠ key) }

/-! ## payment/payment.go -/

/-- The struct `paymentService`; its `paymentRepo` is the record store of the world. -/
structure paymentService where
deriving Repr, Inhabited

/-- The method `paymentService.CreatePayment`. -/
def paymentService.CreatePayment (_s : paymentService) (now : Time) (db : DB)
    (payment : Payment) : DB × Outcome Payment :=
  let res := PaymentRepository.Create now db payment
  (res.1, .ok res.2)

/-- The method `paymentService.ConfirmPayment`: the argument is replaced by the row that has
its `ID`, which is stored again as Completed. -/
def paymentService.ConfirmPayment (_s : paymentService) (now : Time) (db : DB)
    (payment : Payment) : DB × Outcome Unit :=
  match PaymentRepository.FindById db payment.ID with
  | .error _ => (db, .error "payment not found")
  | .ok payment =>
    let payment : Payment := { payment with Status := PaymentStatusCompleted, UpdatedAt := now }
    ((PaymentRepository.UpdatePayment now db payment).1, .ok ())

/-- The method `paymentService.CancelPayment`. -/
def paymentService.CancelPayment (_s : paymentService) (now : Time) (db : DB)
    (payment : Payment) : DB × Outcome Unit :=
  match PaymentRepository.FindByBookingID db payment.BookingID with
  | .error _ => (db, .error "payment not found")
  | .ok payment => ((PaymentRepository.UpdatePayment now db payment).1, .ok ())

/-- The method `paymentService.FindByBookingID`. -/
def paymentService.FindByBookingID (_s : paymentService) (db : DB) (bookingID : Nat) :
    Except String Payment :=
  PaymentRepository.FindByBookingID db bookingID

/-! ## internal/queue/queue.go -/

abbrev QueueName : String := "payment_queue"

/-- The constant `PaymentTimeout`, 15 minutes in nanoseconds. -/
abbrev PaymentTimeout : Int := 15 * 60 * 1000000000

/-- The struct `QueueService`.  `redis` tells whether the pointer to the Redis handle is
non-nil.  `eventFindByBookingID` is the method `FindByBookingID` of its `eventRepo`: the
answer of the record store to `First(&event, "bookings.id = ?", id)` on the events table, a
condition on a table the query does not select from, so the answer is left to the store. -/
structure QueueService where
  redis : Bool := true
  eventFindByBookingID : DB → Nat → Except String Event

/-- The key `fmt.Sprintf("payment:timeout:%d", bookingID)`. -/
def timeoutKey (bookingID : Nat) : String :=
  "payment:timeout:" ++ toString bookingID

/-- The method `QueueService.EnqueuePayment`.  `json.Marshal` of a job fails only on an
amount that is NaN or infinite, which a product of an `int` and a `decimal(10,2)` price is
not; it is taken to succeed.  The commands `RPUSH` and `SET` return the error the server
answers with, `SET` after the job was pushed. -/
def QueueService.EnqueuePayment (s : QueueService) (now : Time) (r : Redis)
    (job : PaymentJob) : Redis × Outcome Unit :=
  if s.redis = false then (r, .error "QueueService redis instance is nil")
  else if r.client = false then (r, .error "Redis client is nil")
  else
    match r.rpushErr with
    | some e => (r, .error e)
    | none =>
      let r1 := r.RPush QueueName job
      match r.setErr with
      | some e => (r1, .error e)
      | none => (r1.Set now (timeoutKey job.BookingID) "pending" PaymentTimeout, .ok ())

/-- Whether Redis takes the two commands of the enqueue step: the client is set and the
server refuses neither `RPUSH` nor `SET`. -/
def Redis.ready (r : Redis) : Bool :=
  r.client && r.rpushErr.isNone && r.setErr.isNone

/-- The method `QueueService.updateBookingStatus`. -/
def QueueService.updateBookingStatus (s : QueueService) (now : Time) (db : DB)
    (bookingID : Nat) (status : String) : DB × Outcome Unit :=
  match BookingRepository.FindById db bookingID with
  | .error e => (db, .error e)
  | .ok booking =>
    if booking.Status = "status" then (db, .ok ())
    else
      let booking : Booking := { booking with Status := "status" }
      let db1 : DB :=
        if status = "FAILED" then
          match s.eventFindByBookingID db booking.EventID with
          | .ok event =>
            (EventRepository.Update now db
              { event with TotalTickets := wrapInt (event.TotalTickets + booking.Quantity) }).1
          | .error _ => db
        else db
      ((BookingRepository.Update now db1 booking).1, .ok ())

/-- The method `QueueService.processPayment`: what the worker does with one job. -/
def QueueService.processPayment (s : QueueService) (now : Time) (w : World)
    (job : PaymentJob) : World × Outcome Unit :=
  match PaymentRepository.FindByBookingID w.db job.BookingID with
  | .error _ => (w, .error "payment not found or error")
  | .ok payment =>
    if payment.Status = PaymentStatusCompleted then
      match s.updateBookingStatus now w.db job.BookingID BookingStatusConfirmed with
      | (db1, .error e) => ({ w with db := db1 }, .error e)
      | (db1, .crash e) => ({ w with db := db1 }, .crash e)
      | (db1, .ok _) =>
        if s.redis = false then ({ w with db := db1 }, .error "Redis instance is nil")
        else if w.redis.client = false then
          ({ w with db := db1 }, .crash "nil pointer dereference")
        else ({ db := db1, redis := w.redis.Del (timeoutKey job.BookingID) }, .ok ())
    else if payment.Status = PaymentStatusFailed then
      match s.updateBookingStatus now w.db job.BookingID BookingStatusCancelled with
      | (db1, .error e) => ({ w with db := db1 }, .error e)
      | (db1, .crash e) => ({ w with db := db1 }, .crash e)
      | (db1, .ok _) =>
        if s.redis = false then ({ w with db := db1 }, .error "Redis instance is nil")
        else if w.redis.client = false then
          ({ w with db := db1 }, .crash "nil pointer dereference")
        else ({ db := db1, redis := w.redis.Del (timeoutKey job.BookingID) }, .ok ())
    else (w, .ok ())

/-- The call `strings.TrimPrefix(s, pre)`. -/
def TrimPrefix (s pre : String) : String :=
  if pre.toList.isPrefixOf s.toList then String.mk (s.toList.drop pre.length) else s

/-- The call `strconv.Atoi`: an optional sign and decimal digits, within the range of `int`. -/
def Atoi (s : String) : Option Int :=
  let signed : Bool × List Char :=
    match s.toList with
    | '-' :: rest => (true, rest)
    | '+' :: rest => (false, rest)
    | rest => (false, rest)
  if signed.2.isEmpty || !(signed.2.all Char.isDigit) then none
  else
    let n : Nat := signed.2.foldl (fun acc c => 10 * acc + (c.toNat - 48)) 0
    let v : Int := if signed.1 then -(n : Int) else (n : Int)
    if v < -9223372036854775808 ∨ 9223372036854775807 < v then none else some v

/-- The conversion `uint(n)` of an `int`. -/
def uintOfInt (n : Int) : Nat := (n % 18446744073709551616).toNat

/-- What the timeout checker does with one key of its listing. -/
def QueueService.checkTimeoutKey (s : QueueService) (now : Time) (w : World)
    (key : String) : World :=
  match Atoi (TrimPrefix key "payment:timeout:") with
  | none => w
  | some bookingID =>
    if w.redis.Exists now key then
      match PaymentRepository.FindByBookingID w.db (uintOfInt bookingID) with
      | .error _ =>
        { w with db := (s.updateBookingStatus now w.db (uintOfInt bookingID) "FAILED").1 }
      | .ok payment =>
        if payment.Status ≠ "PAID" then
          { w with db := (s.updateBookingStatus now w.db (uintOfInt bookingID) "FAILED").1 }
        else w
    else w

/-- One tick of `QueueService.StartTimeoutChecker`: list the keys `payment:timeout:*` and
handle them one after the other. -/
def QueueService.timeoutCheck (s : QueueService) (now : Time) (w : World) : World :=
  if s.redis = false then w
  else if w.redis.client = false then w
  else (w.redis.Keys now "payment:timeout:").foldl (fun w1 key => s.checkTimeoutKey now w1 key) w

/-! ## booking/booking.go -/

/-- The struct `bookingService`.  The three repositories are the record store of the world;
`paymentService` and `queueService` are `none` when the field is nil. -/
structure bookingService where
  paymentService : Option paymentService
  queueService : Option QueueService

/-- The constructor `NewBookingService`: it sets the three repositories only. -/
def NewBookingService : bookingService :=
  { paymentService := none, queueService := none }

/-- The method `bookingService.CreateBooking`.  The repositories return an error when the
record is absent, never a nil record without an error, so the two nil checks cannot fire. -/
def bookingService.CreateBooking (s : bookingService) (now : Time) (w : World)
    (userID eventID : Nat) (quantity : Int) : World × Outcome Booking :=
  match UserRepository.FindById w.db userID with
  | .error e => (w, .error e)
  | .ok _ =>
  match EventRepository.FindById w.db eventID with
  | .error e => (w, .error e)
  | .ok event =>
  if event.Status ≠ EventStatusActive then (w, .error "event is not active")
  else if event.TotalTickets < quantity then (w, .error "not enough tickets available")
  else if event.StartDate < now then (w, .error "event has already started")
  else
    let booking : Booking :=
      { UserID := userID, EventID := eventID, Quantity := quantity,
        TotalPrice := Float.ofInt quantity * event.TicketPrice,
        Status := BookingStatusPending }
    let created := BookingRepository.Create now w.db booking
    let booking := created.2
    let event : Event := { event with TotalTickets := wrapInt (event.TotalTickets - quantity) }
    let db2 := (EventRepository.Update now created.1 event).1
    let payment : Payment :=
      { BookingID := booking.ID, Amount := booking.TotalPrice, Status := PaymentStatusPending }
    match s.paymentService with
    | none => ({ w with db := db2 }, .crash "nil pointer dereference")
    | some ps =>
    match ps.CreatePayment now db2 payment with
    | (db3, .error e) => ({ w with db := db3 }, .error e)
    | (db3, .crash e) => ({ w with db := db3 }, .crash e)
    | (db3, .ok _) =>
    let paymentJob : PaymentJob := { BookingID := booking.ID, Amount := booking.TotalPrice }
    match s.queueService with
    | none => ({ w with db := db3 }, .crash "nil pointer dereference")
    | some qs =>
    match qs.EnqueuePayment now w.redis paymentJob with
    | (r1, .error e) => ({ db := db3, redis := r1 }, .error e)
    | (r1, .crash e) => ({ db := db3, redis := r1 }, .crash e)
    | (r1, .ok _) => ({ db := db3, redis := r1 }, .ok booking)

/-- The method `bookingService.CancelBooking`. -/
def bookingService.CancelBooking (s : bookingService) (now : Time) (w : World) (id : Nat) :
    World × Outcome Booking :=
  match BookingRepository.FindById w.db id with
  | .error e => (w, .error e)
  | .ok booking =>
  if booking.Status ≠ BookingStatusPending then (w, .error "booking is not pending")
  else
    let booking : Booking := { booking with Status := BookingStatusCancelled }
    let saved := BookingRepository.Update now w.db booking
    let booking := saved.2
    match s.paymentService with
    | none => ({ w with db := saved.1 }, .crash "nil pointer dereference")
    | some ps =>
    match ps.FindByBookingID saved.1 booking.ID with
    | .error e => ({ w with db := saved.1 }, .error e)
    | .ok payment =>
    let payment : Payment := { payment with Status := PaymentStatusFailed }
    match ps.ConfirmPayment now saved.1 payment with
    | (db2, .error e) => ({ w with db := db2 }, .error e)
    | (db2, .crash e) => ({ w with db := db2 }, .crash e)
    | (db2, .ok _) =>
      let event := booking.Event
      let event : Event :=
        { event with TotalTickets := wrapInt (event.TotalTickets + booking.Quantity) }
      ({ w with db := (EventRepository.Update now db2 event).1 }, .ok booking)

/-- The method `bookingService.ConfirmBooking`. -/
def bookingService.ConfirmBooking (s : bookingService) (now : Time) (w : World) (id : Nat) :
    World × Outcome Booking :=
  match BookingRepository.FindById w.db id with
  | .error e => (w, .error e)
  | .ok booking =>
  if booking.Status ≠ BookingStatusPending then (w, .error "booking is not pending")
  else
    let booking : Booking := { booking with Status := BookingStatusConfirmed }
    let saved := BookingRepository.Update now w.db booking
    let booking := saved.2
    match s.paymentService with
    | none => ({ w with db := saved.1 }, .crash "nil pointer dereference")
    | some ps =>
    match ps.FindByBookingID saved.1 booking.ID with
    | .error e => ({ w with db := saved.1 }, .error e)
    | .ok payment =>
    let payment : Payment := { payment with Status := PaymentStatusCompleted }
    match ps.ConfirmPayment now saved.1 payment with
    | (db2, .error e) => ({ w with db := db2 }, .error e)
    | (db2, .crash e) => ({ w with db := db2 }, .crash e)
    | (db2, .ok _) => ({ w with db := db2 }, .ok booking)

/-! ## internal/rest/booking.go: the booking-creation handler -/

/-- The method `GormUserRepository.FindByEmail`: no user and no error when the email is
unknown. -/
def UserRepository.FindByEmail (db : DB) (email : String) : Option User :=
  db.users.find? (fun u => u.Email = email)

/-- The struct `CreateBookingRequest`, the parsed request body. -/
structure CreateBookingRequest where
  EventID : Nat := 0
  Quantity : Int := 0
deriving Repr, DecidableEq

/-- What `validate.Struct` accepts for the tags `required` on `EventID` and `required,min=1`
on `Quantity`: `required` rejects the zero value. -/
def CreateBookingRequest.valid (req : CreateBookingRequest) : Bool :=
  decide (req.EventID ≠ 0) && decide (req.Quantity ≠ 0) && decide (1 ≤ req.Quantity)

/-- An HTTP response: the status code and, on 201, the booking it describes. -/
structure Response where
  status : Nat
  booking : Option Booking := none
deriving Repr

/-- The struct `BookingHandler`; its `authService` reads the users of the store. -/
structure BookingHandler where
  bookingService : bookingService

/-- The handler `BookingHandler.CreateBooking`.  `body` is the request body as `BodyParser`
reads it (`none` when it cannot), `email` the `email` claim of the token when it is a
string. -/
def BookingHandler.CreateBooking (h : BookingHandler) (now : Time) (w : World)
    (body : Option CreateBookingRequest) (email : Option String) : World × Outcome Response :=
  match body with
  | none => (w, .ok { status := 400 })
  | some req =>
  if req.valid = false then (w, .ok { status := 400 })
  else
    match email with
    | none => (w, .ok { status := 401 })
    | some email =>
    match UserRepository.FindByEmail w.db email with
    | none => (w, .crash "nil pointer dereference")
    | some userData =>
    match h.bookingService.CreateBooking now w userData.ID req.EventID req.Quantity with
    | (w1, .error _) => (w1, .ok { status := 500 })
    | (w1, .crash e) => (w1, .crash e)
    | (w1, .ok booking) => (w1, .ok { status := 201, booking := some booking })

/-! ## internal/rest/booking.go: the cancel and confirm handlers -/

/-- The call `strconv.ParseUint(s, 10, bitSize)`: decimal digits only, no sign, and a value
within `bitSize` bits. -/
def ParseUint (s : String) (bitSize : Nat) : Option Nat :=
  if s.toList.isEmpty || !(s.toList.all Char.isDigit) then none
  else
    let n : Nat := s.toList.foldl (fun acc c => 10 * acc + (c.toNat - 48)) 0
    if n < 2 ^ bitSize then some n else none

/-- The handler `BookingHandler.CancelBooking` of `PUT /bookings/:id/cancel`; `idParam` is the
path segment `id`. -/
def BookingHandler.CancelBooking (h : BookingHandler) (now : Time) (w : World)
    (idParam : String) : World × Outcome Response :=
  match ParseUint idParam 32 with
  | none => (w, .ok { status := 400 })
  | some id =>
    match h.bookingService.CancelBooking now w id with
    | (w1, .error _) => (w1, .ok { status := 400 })
    | (w1, .crash e) => (w1, .crash e)
    | (w1, .ok booking) => (w1, .ok { status := 200, booking := some booking })

/-- The handler `BookingHandler.ConfirmBooking` of `PUT /bookings/:id/confirm`. -/
def BookingHandler.ConfirmBooking (h : BookingHandler) (now : Time) (w : World)
    (idParam : String) : World × Outcome Response :=
  match ParseUint idParam 32 with
  | none => (w, .ok { status := 400 })
  | some id =>
    match h.bookingService.ConfirmBooking now w id with
    | (w1, .error _) => (w1, .ok { status := 400 })
    | (w1, .crash e) => (w1, .crash e)
    | (w1, .ok booking) => (w1, .ok { status := 200, booking := some booking })

/-! ## internal/rest/middleware/pagination.go -/

/-- The struct `Pagination`. -/
structure Pagination where
  Page : Int
  Limit : Int
  Offset : Int
  Total : Int := 0
deriving Repr, DecidableEq

/-- The call `c.Query(key, defaultValue)` for the raw value of the key, which is empty when
the key is absent. -/
def Query (value defaultValue : String) : String :=
  if value = "" then defaultValue else value

/-- The handler `PaginationMiddleware`: what it stores under `pagination` for a request with
the given method and raw `page` and `limit` query values; nothing for another method than
GET. -/
def PaginationMiddleware (method page limit : String) : Option Pagination :=
  if method ≠ "GET" then none
  else
    let page : Int :=
      match Atoi (Query page "1") with
      | none => 1
      | some p => if p < 1 then 1 else p
    let limit : Int :=
      match Atoi (Query limit "10") with
      | none => 10
      | some l => if l < 1 ∨ 100 < l then 10 else l
    some { Page := page, Limit := limit, Offset := wrapInt ((page - 1) * limit) }

/-! ## event/event.go -/

/-- The method `GormEventRepository.Create`: the row gets the next key and, where they are
zero, the time stamps and the default status. -/
def EventRepository.Create (now : Time) (db : DB) (event : Event) : DB × Event :=
  let e : Event :=
    { event with
      ID := if event.ID = 0 then db.nextEventID else event.ID
      Status := if event.Status = "" then "ACTIVE" else event.Status
      CreatedAt := if event.CreatedAt = 0 then now else event.CreatedAt
      UpdatedAt := if event.UpdatedAt = 0 then now else event.UpdatedAt }
  ({ db with events := db.events ++ [e], nextEventID := db.nextEventID + 1 }, e)

/-- The struct `eventService`; the struct `domain.Event` carries no `validate` tag, so its
validator accepts every event. -/
structure eventService where

/-- The method `eventService.CreateEvent`: a zero start date becomes the clock time, a zero
end date the start date plus thirty days. -/
def eventService.CreateEvent (_s : eventService) (now : Time) (db : DB) (event : Event) :
    DB × Outcome Event :=
  let event : Event := if event.StartDate = 0 then { event with StartDate := now } else event
  let event : Event :=
    if event.EndDate = 0 then
      { event with EndDate := event.StartDate + 30 * 24 * 3600000000000 }
    else event
  let created := EventRepository.Create now db event
  (created.1, .ok created.2)

/-! ## Sequences of calls -/

/-- One call of the booking service, one job handled by the worker, or one sweep of the
timeout checker. -/
inductive Op where
  | create (userID eventID : Nat) (quantity : Int)
  | cancel (id : Nat)
  | confirm (id : Nat)
  | process (job : PaymentJob)
  | sweep
deriving Repr

/-- The calls the booking endpoint lets through: a creation asks for at least one ticket. -/
def Op.admitted : Op → Bool
  | .create _ _ quantity => decide (0 < quantity)
  | _ => true

/-- The world after one call made at instant `c.1`, whatever the call returned. -/
def step (s : bookingService) (qs : QueueService) (w : World) (c : Time × Op) : World :=
  match c.2 with
  | .create userID eventID quantity => (s.CreateBooking c.1 w userID eventID quantity).1
  | .cancel id => (s.CancelBooking c.1 w id).1
  | .confirm id => (s.ConfirmBooking c.1 w id).1
  | .process job => (qs.processPayment c.1 w job).1
  | .sweep => qs.timeoutCheck c.1 w

/-- The store refuses the event lookup by booking: the query of the method
`GormEventRepository.FindByBookingID` puts its condition on `bookings.id` while it selects
from the events table alone, and the store answers such a query with an error. -/
def QueueService.lookupRefused (qs : QueueService) : Prop :=
  ∀ (db : DB) (id : Nat), ∃ msg, qs.eventFindByBookingID db id = .error msg

/-- The world after a sequence of calls, one after the other. -/
def run (s : bookingService) (qs : QueueService) (w : World) (calls : List (Time × Op)) :
    World :=
  calls.foldl (step s qs) w

/-- What a booking holds of the tickets of event `eid`: its quantity while it is Pending. -/
def heldBy (eid : Nat) (b : Booking) : Int :=
  if b.EventID = eid ∧ b.Status = BookingStatusPending then b.Quantity else 0

/-- The tickets of event `eid` held by Pending bookings. -/
def pendingQuantity (eid : Nat) : List Booking → Int
  | [] => 0
  | b :: bs => heldBy eid b + pendingQuantity eid bs

/-- The ledger invariant of event `eid` with total `T`: the event's count is not negative and,
with the tickets held by Pending bookings, does not exceed `T`; no booking holds a negative
number of tickets; the bookings of the event carry real keys. -/
structure Ledger (eid : Nat) (T : Int) (db : DB) : Prop where
  event : ∃ e, findRow Event.ID eid db.events = some e ∧ 0 ≤ e.TotalTickets ∧
    e.TotalTickets + pendingQuantity eid db.bookings ≤ T
  rows : ∀ b ∈ db.bookings, 0 ≤ heldBy eid b ∧ (b.EventID = eid → b.ID ≠ 0)
  seq : db.nextBookingID ≠ 0

/-! ## Overlapping calls -/

/-- The first part of `CreateBooking`: the two reads and the three checks; the event as it
was read, when the request passes. -/
def bookingService.CreateBooking_read (_s : bookingService) (now : Time) (w : World)
    (userID eventID : Nat) (quantity : Int) : Except String Event :=
  match UserRepository.FindById w.db userID with
  | .error e => .error e
  | .ok _ =>
  match EventRepository.FindById w.db eventID with
  | .error e => .error e
  | .ok event =>
  if event.Status ≠ EventStatusActive then .error "event is not active"
  else if event.TotalTickets < quantity then .error "not enough tickets available"
  else if event.StartDate < now then .error "event has already started"
  else .ok event

/-- The second part of `CreateBooking`, from the creation of the booking on: the writes, made
with the event that the first part read. -/
def bookingService.CreateBooking_write (s : bookingService) (now : Time) (w : World)
    (userID eventID : Nat) (quantity : Int) (event : Event) : World × Outcome Booking :=
  let booking : Booking :=
    { UserID := userID, EventID := eventID, Quantity := quantity,
      TotalPrice := Float.ofInt quantity * event.TicketPrice,
      Status := BookingStatusPending }
  let created := BookingRepository.Create now w.db booking
  let booking := created.2
  let event : Event := { event with TotalTickets := wrapInt (event.TotalTickets - quantity) }
  let db2 := (EventRepository.Update now created.1 event).1
  let payment : Payment :=
    { BookingID := booking.ID, Amount := booking.TotalPrice, Status := PaymentStatusPending }
  match s.paymentService with
  | none => ({ w with db := db2 }, .crash "nil pointer dereference")
  | some ps =>
  match ps.CreatePayment now db2 payment with
  | (db3, .error e) => ({ w with db := db3 }, .error e)
  | (db3, .crash e) => ({ w with db := db3 }, .crash e)
  | (db3, .ok _) =>
  let paymentJob : PaymentJob := { BookingID := booking.ID, Amount := booking.TotalPrice }
  match s.queueService with
  | none => ({ w with db := db3 }, .crash "nil pointer dereference")
  | some qs =>
  match qs.EnqueuePayment now w.redis paymentJob with
  | (r1, .error e) => ({ db := db3, redis := r1 }, .error e)
  | (r1, .crash e) => ({ db := db3, redis := r1 }, .crash e)
  | (r1, .ok _) => ({ db := db3, redis := r1 }, .ok booking)

/-- The quantity a call booked: its quantity when it returned a booking, nothing otherwise. -/
def Outcome.booked {α : Type} (quantity : Int) : Outcome α → Int
  | .ok _ => quantity
  | _ => 0

/-- The quantities booked by calls of `CreateBooking` for event `eventID` made one after the
other, each given by its instant, its user and its quantity. -/
def bookedQuantity (s : bookingService) (eventID : Nat) :
    World → List (Time × Nat × Int) → Int
  | _, [] => 0
  | w, c :: rest =>
    (s.CreateBooking c.1 w c.2.1 eventID c.2.2).2.booked c.2.2 +
      bookedQuantity s eventID (s.CreateBooking c.1 w c.2.1 eventID c.2.2).1 rest

/-! ## A concrete store -/

/-- A registered user. -/
def demoUser : User := { ID := 1, Email := "test@example.com" }

/-- An Active event with ten tickets left that starts at instant 1000. -/
def demoEvent : Event :=
  { ID := 1, Name := "Event", StartDate := 1000, EndDate := 2000, TotalTickets := 10,
    TicketPrice := 50, Status := EventStatusActive }

/-- A store with `demoUser` and `demoEvent` and no booking yet. -/
def demoWorld : World :=
  { db := { users := [demoUser], events := [demoEvent], nextEventID := 2 } }

/-- A queue service whose Redis handle is set and whose event lookup by booking is refused
by the store. -/
def demoQueue : QueueService :=
  { redis := true, eventFindByBookingID := fun _ _ => .error "missing FROM-clause entry" }

/-- A booking service with its payment and queue services set. -/
def demoService : bookingService :=
  { paymentService := some {}, queueService := some demoQueue }

/-- The booking that `CreateBooking` returns at instant 5 for three tickets of `demoEvent`. -/
def demoBooking : Booking :=
  { ID := 1, UserID := 1, EventID := 1, Quantity := 3,
    TotalPrice := Float.ofInt 3 * demoEvent.TicketPrice, Status := BookingStatusPending,
    CreatedAt := 5, UpdatedAt := 5 }

/-- The world after `demoBooking` was created. -/
def bookedWorld : World := (demoService.CreateBooking 5 demoWorld 1 1 3).1

/-- The payment that `CreateBooking` stored for `demoBooking`. -/
def demoPayment : Payment :=
  { ID := 1, BookingID := 1, Amount := demoBooking.TotalPrice, Status := PaymentStatusPending,
    CreatedAt := 5, UpdatedAt := 5 }

/-- The job that `CreateBooking` pushed for `demoBooking`. -/
def demoJob : PaymentJob := { BookingID := 1, Amount := demoBooking.TotalPrice }

/-- The world after `demoBooking` was confirmed at instant 6. -/
def confirmedWorld : World := (demoService.ConfirmBooking 6 bookedWorld 1).1

/-- The world `bookedWorld` once the payment of `demoBooking` is seen with `status`. -/
def settledWorld (status : PaymentStatus) : World :=
  { bookedWorld with
    db := { bookedWorld.db with payments := [{ demoPayment with Status := status }] } }

/-- An event lookup by booking as a store would answer it if the query reached the
bookings: the event of the booking of that key.  The store of the repository refuses the
query (`QueueService.lookupRefused`); what is shown with this lookup is what the code would
do with a query that is answered. -/
def eventOfBooking (db : DB) (bookingID : Nat) : Except String Event :=
  match findRow Booking.ID bookingID db.bookings with
  | none => .error "record not found"
  | some b => EventRepository.FindById db b.EventID

/-- A queue service whose event lookup by booking would be answered, see `eventOfBooking`;
the queue service of the program is `demoQueue`. -/
def answeringQueue : QueueService :=
  { redis := true, eventFindByBookingID := eventOfBooking }

/-- The world after `demoBooking` was cancelled at instant 6. -/
def cancelledWorld : World := (demoService.CancelBooking 6 bookedWorld 1).1

/-- The instant at which the timeout key of `demoBooking`, set at instant 5, expires. -/
def demoExpiry : Time := 5 + PaymentTimeout

/-- The store `demoWorld` while the Redis client is nil. -/
def downWorld : World := { demoWorld with redis := { client := false } }

/-- The world after `CreateBooking` for three tickets was tried at instant 5 on `downWorld`. -/
def orphanWorld : World := (demoService.CreateBooking 5 downWorld 1 1 3).1

/-- The world `orphanWorld` once the Redis client is set again. -/
def recoveredWorld : World := { orphanWorld with redis := { orphanWorld.redis with client := true } }

/-- The store `demoWorld` while the Redis server is unavailable and refuses `RPUSH`. -/
def refusedWorld : World :=
  { demoWorld with redis := { rpushErr := some "dial tcp: connection refused" } }

/-- The world after `CreateBooking` for three tickets was tried at instant 5 on
`refusedWorld`. -/
def strandedWorld : World := (demoService.CreateBooking 5 refusedWorld 1 1 3).1

/-- The world `strandedWorld` once the Redis server answers again. -/
def reconnectedWorld : World :=
  { strandedWorld with redis := { strandedWorld.redis with rpushErr := none } }

/-- A run on `demoWorld`: book three tickets, cancel, let the worker see the job, try to
confirm, book four tickets. -/
def demoCalls : List (Time × Op) :=
  [(5, .create 1 1 3), (6, .sweep), (7, .cancel 1), (8, .process demoJob), (9, .sweep),
   (10, .confirm 1), (11, .create 1 1 4), (12, .sweep)]

/-- The store `demoWorld` after `CreateEvent`, at instant 100, of an event with five tickets
and no dates. -/
def launchedWorld : World :=
  { demoWorld with
    db := (eventService.CreateEvent {} 100 demoWorld.db { Name := "Launch", TotalTickets := 5 }).1 }

/-- The world `bookedWorld` when the payment of `demoBooking` is not in the store. -/
def unpaidWorld : World := { bookedWorld with db := { bookedWorld.db with payments := [] } }

/-- The world after a first caller, having read `demoEvent` in `demoWorld`, made its writes
for six tickets at instant 5. -/
def firstWriterWorld : World := (demoService.CreateBooking_write 5 demoWorld 1 1 6 demoEvent).1

/-- The world after a second caller, having read `demoEvent` in `demoWorld` as well, made
its writes for six tickets at instant 6. -/
def secondWriterWorld : World :=
  (demoService.CreateBooking_write 6 firstWriterWorld 1 1 6 demoEvent).1

/-! ## Lemmas on the record store -/

theorem wrapInt_of_range (x : Int) (h0 : -9223372036854775808 ≤ x)
    (h1 : x < 9223372036854775808) : wrapInt x = x := by
  unfold wrapInt
  omega

theorem findRow_key {α : Type} (idOf : α → Nat) (id : Nat) (rows : List α) (r : α)
    (h : findRow idOf id rows = some r) : idOf r = id := by
  induction rows with
  | nil => simp [findRow] at h
  | cons x xs ih =>
    unfold findRow at h
    split at h
    · cases h; assumption
    · exact ih h

theorem findRow_replaceRow_self {α : Type} (idOf : α → Nat) (row : α) (rows : List α)
    (r : α) (h : findRow idOf (idOf row) rows = some r) :
    findRow idOf (idOf row) (replaceRow idOf row rows) = some row := by
  induction rows with
  | nil => simp [findRow] at h
  | cons x xs ih =>
    unfold findRow at h
    unfold replaceRow
    split at h
    · rename_i hx
      simp [hx, findRow]
    · rename_i hx
      simp [hx, findRow, ih h]

theorem findRow_append_none {α : Type} (idOf : α → Nat) (id : Nat) (rows : List α) (row : α)
    (h : findRow idOf id rows = none) :
    findRow idOf id (rows ++ [row]) = if idOf row = id then some row else none := by
  induction rows with
  | nil => simp [findRow]
  | cons x xs ih =>
    unfold findRow at h
    split at h
    · cases h
    · rename_i hx
      simp [findRow, hx, ih h]

theorem findRow_upsertRow_self {α : Type} (idOf : α → Nat) (row : α) (rows : List α) :
    findRow idOf (idOf row) (upsertRow idOf row rows) = some row := by
  unfold upsertRow
  cases h : findRow idOf (idOf row) rows with
  | none => simp [findRow_append_none idOf (idOf row) rows row h]
  | some r => simpa using findRow_replaceRow_self idOf row rows r h

theorem findRow_upsertRow_of_key {α : Type} (idOf : α → Nat) (id : Nat) (row : α)
    (rows : List α) (h : idOf row = id) :
    findRow idOf id (upsertRow idOf row rows) = some row := by
  subst h
  exact findRow_upsertRow_self idOf row rows

theorem eventUpdate_payments (now : Time) (db : DB) (ev : Event) :
    (EventRepository.Update now db ev).1.payments = db.payments := by
  unfold EventRepository.Update
  split <;> rfl

theorem eventUpdate_bookings (now : Time) (db : DB) (ev : Event) :
    (EventRepository.Update now db ev).1.bookings = db.bookings := by
  unfold EventRepository.Update
  split <;> rfl

theorem eventUpdate_users (now : Time) (db : DB) (ev : Event) :
    (EventRepository.Update now db ev).1.users = db.users := by
  unfold EventRepository.Update
  split <;> rfl

theorem findRow_replaceRow_other {α : Type} (f g : α → Nat) (b : Nat) (row p : α)
    (rows : List α) (hf : findRow f (f row) rows = some p) (hg : findRow g b rows = some p)
    (hgb : g row = b) : findRow g b (replaceRow f row rows) = some row := by
  induction rows with
  | nil => simp [findRow] at hf
  | cons x xs ih =>
    unfold findRow at hf hg
    unfold replaceRow
    by_cases hx : f x = f row
    · simp [hx, findRow, hgb]
    · simp only [hx, if_false] at hf ⊢
      have hfp : f p = f row := findRow_key f (f row) xs p hf
      by_cases hy : g x = b
      · simp only [hy, if_true, Option.some.injEq] at hg
        subst hg
        exact absurd hfp hx
      · simp only [hy, if_false] at hg
        simp [findRow, hy, ih hf hg]

theorem findRow_upsertRow_other {α : Type} (f g : α → Nat) (b : Nat) (row p : α)
    (rows : List α) (hf : findRow f (f row) rows = some p) (hg : findRow g b rows = some p)
    (hgb : g row = b) : findRow g b (upsertRow f row rows) = some row := by
  unfold upsertRow
  rw [hf]
  exact findRow_replaceRow_other f g b row p rows hf hg hgb

theorem eventUpdate_events (now : Time) (db : DB) (ev : Event) :
    (EventRepository.Update now db ev).1.events =
      if ev.ID = 0 then
        db.events ++ [{ ev with ID := db.nextEventID, UpdatedAt := now,
                                CreatedAt := if ev.CreatedAt = 0 then now else ev.CreatedAt }]
      else upsertRow Event.ID { ev with UpdatedAt := now } db.events := by
  unfold EventRepository.Update
  split <;> rfl

theorem eventUpdate_nextBookingID (now : Time) (db : DB) (ev : Event) :
    (EventRepository.Update now db ev).1.nextBookingID = db.nextBookingID := by
  unfold EventRepository.Update
  split <;> rfl

theorem lookup_rpushList (name : String) (v : PaymentJob)
    (ls : List (String × List PaymentJob)) :
    ((rpushList name v ls).lookup name).getD [] = (ls.lookup name).getD [] ++ [v] := by
  induction ls with
  | nil => simp [rpushList, List.lookup]
  | cons x xs ih =>
    obtain ⟨n, vs⟩ := x
    unfold rpushList
    by_cases hn : n = name
    · subst hn
      simp [List.lookup]
    · have hne : (name == n) = false := by
        simp only [beq_eq_false_iff_ne, ne_eq]
        exact fun h => hn h.symm
      simp [hn, List.lookup, hne, ih]

theorem redis_list_rpush (r : Redis) (name : String) (v : PaymentJob) :
    (r.RPush name v).list name = r.list name ++ [v] := by
  simp [Redis.RPush, Redis.list, lookup_rpushList]

/-! ## Booking creation -/

/-- What `CreateBooking` does on a booking service whose payment service and queue service
are set, with Redis there: for an existing user, an Active event that starts in the future
with remaining count `R`, and a quantity `0 < q ≤ R`, it returns a Pending booking of
quantity `q`, leaves the event with `R - q`, adds exactly one booking row, exactly one
Pending payment for that booking, exactly one job at the tail of the payment queue, and sets
the timeout key of the booking. -/
theorem createBooking_reserves (s : bookingService) (ps : paymentService) (qs : QueueService)
    (now : Time) (w : World) (userID eventID : Nat) (q R : Int) (u : User) (e : Event)
    (hps : s.paymentService = some ps) (hqs : s.queueService = some qs)
    (hredis : qs.redis = true) (hclient : w.redis.client = true)
    (hrpush : w.redis.rpushErr = none) (hset : w.redis.setErr = none)
    (hu : findRow User.ID userID w.db.users = some u)
    (he : findRow Event.ID eventID w.db.events = some e) (hkey : eventID ≠ 0)
    (hactive : e.Status = EventStatusActive) (hfuture : now < e.StartDate)
    (hR : e.TotalTickets = R) (hRmax : R < 9223372036854775808)
    (hq : 0 < q) (hqR : q ≤ R) :
    ∃ (b : Booking) (p : Payment) (e1 : Event),
      (s.CreateBooking now w userID eventID q).2 = .ok b ∧
      b.Status = BookingStatusPending ∧ b.Quantity = q ∧
      b.UserID = userID ∧ b.EventID = eventID ∧
      (s.CreateBooking now w userID eventID q).1.db.bookings = w.db.bookings ++ [b.row] ∧
      findRow Event.ID eventID (s.CreateBooking now w userID eventID q).1.db.events = some e1 ∧
      e1.TotalTickets = R - q ∧
      (s.CreateBooking now w userID eventID q).1.db.payments = w.db.payments ++ [p] ∧
      p.BookingID = b.ID ∧ p.Status = PaymentStatusPending ∧
      (s.CreateBooking now w userID eventID q).1.redis.list QueueName =
        w.redis.list QueueName ++ [{ BookingID := b.ID, Amount := b.TotalPrice }] ∧
      (s.CreateBooking now w userID eventID q).1.redis.entries =
        w.redis.entries.filter (fun x => x.key ≠ timeoutKey b.ID) ++
          [⟨timeoutKey b.ID, "pending", now + PaymentTimeout⟩] := by
  have hid : e.ID = eventID := findRow_key Event.ID eventID _ e he
  have hwrap : wrapInt (e.TotalTickets - q) = R - q := by
    rw [hR]
    exact wrapInt_of_range (R - q) (by omega) (by omega)
  have hlt : ¬ e.TotalTickets < q := by omega
  have hst : ¬ e.StartDate < now := Int.not_lt.mpr (Int.le_of_lt hfuture)
  have heid : ¬ e.ID = 0 := by rw [hid]; exact hkey
  refine ⟨{ ID := w.db.nextBookingID, UserID := userID, EventID := eventID, Quantity := q,
             TotalPrice := Float.ofInt q * e.TicketPrice, Status := BookingStatusPending,
             CreatedAt := now, UpdatedAt := now },
           { ID := w.db.nextPaymentID, BookingID := w.db.nextBookingID,
             Amount := Float.ofInt q * e.TicketPrice, Status := PaymentStatusPending,
             CreatedAt := now, UpdatedAt := now },
           { e with TotalTickets := R - q, UpdatedAt := now }, ?_⟩
  simp only [bookingService.CreateBooking, UserRepository.FindById, hu,
    EventRepository.FindById, he, hactive, hlt, hst, hps, hqs, ne_eq, not_true_eq_false,
    if_false, paymentService.CreatePayment, QueueService.EnqueuePayment, hredis, hclient,
    hrpush, hset, Bool.true_eq_false, EventRepository.Update, heid, hwrap, BookingRepository.Create,
    PaymentRepository.Create, Redis.Set, Redis.RPush, Redis.list, lookup_rpushList,
    if_true, BookingStatusPending, PaymentStatusPending]
  refine ⟨by simp, trivial, trivial, trivial, trivial, by simp, ?_, trivial, by simp, trivial,
    trivial, trivial, trivial⟩
  exact findRow_upsertRow_of_key Event.ID eventID _ _ hid

/-- Three tickets of the ten of `demoEvent`, on a fully wired service. -/
theorem createBooking_reserves_witness :
    ∃ (b : Booking) (p : Payment) (e1 : Event),
      (demoService.CreateBooking 5 demoWorld 1 1 3).2 = .ok b ∧
      b.Status = BookingStatusPending ∧ b.Quantity = 3 ∧
      b.UserID = 1 ∧ b.EventID = 1 ∧
      (demoService.CreateBooking 5 demoWorld 1 1 3).1.db.bookings =
        demoWorld.db.bookings ++ [b.row] ∧
      findRow Event.ID 1 (demoService.CreateBooking 5 demoWorld 1 1 3).1.db.events = some e1 ∧
      e1.TotalTickets = 10 - 3 ∧
      (demoService.CreateBooking 5 demoWorld 1 1 3).1.db.payments =
        demoWorld.db.payments ++ [p] ∧
      p.BookingID = b.ID ∧ p.Status = PaymentStatusPending ∧
      (demoService.CreateBooking 5 demoWorld 1 1 3).1.redis.list QueueName =
        demoWorld.redis.list QueueName ++ [{ BookingID := b.ID, Amount := b.TotalPrice }] ∧
      (demoService.CreateBooking 5 demoWorld 1 1 3).1.redis.entries =
        demoWorld.redis.entries.filter (fun x => x.key ≠ timeoutKey b.ID) ++
          [⟨timeoutKey b.ID, "pending", 5 + PaymentTimeout⟩] :=
  createBooking_reserves demoService {} demoQueue 5 demoWorld 1 1 3 10 demoUser demoEvent
    rfl rfl rfl rfl rfl rfl rfl rfl (by decide) rfl (by decide) rfl (by decide) (by decide)
    (by decide)

/-- C2: when `CreateBooking` succeeds with quantity `q` on an event of unit price `p`, the
booking's total price is the `float64` product of `q` and `p`, the payment it created has
that amount, and the job it pushed carries the booking's id and that amount. -/
theorem createBooking_price (s : bookingService) (now : Time) (w : World)
    (userID eventID : Nat) (q : Int) (e : Event) (b : Booking)
    (he : findRow Event.ID eventID w.db.events = some e)
    (hok : (s.CreateBooking now w userID eventID q).2 = .ok b) :
    b.TotalPrice = Float.ofInt q * e.TicketPrice ∧
    (∃ p : Payment,
      (s.CreateBooking now w userID eventID q).1.db.payments = w.db.payments ++ [p] ∧
      p.BookingID = b.ID ∧ p.Amount = b.TotalPrice) ∧
    (s.CreateBooking now w userID eventID q).1.redis.list QueueName =
      w.redis.list QueueName ++ [{ BookingID := b.ID, Amount := b.TotalPrice }] := by
  unfold bookingService.CreateBooking at hok ⊢
  simp only [EventRepository.FindById, he, UserRepository.FindById] at hok ⊢
  cases hu : findRow User.ID userID w.db.users with
  | none => simp [hu] at hok
  | some u =>
    simp only [hu] at hok ⊢
    split at hok
    · simp at hok
    split at hok
    · simp at hok
    split at hok
    · simp at hok
    rename_i h1 h2 h3
    simp only [h1, h2, h3, if_false] at hok ⊢
    cases hps : s.paymentService with
    | none => simp [hps] at hok
    | some ps =>
      cases hqs : s.queueService with
      | none => simp [hps, hqs, paymentService.CreatePayment] at hok
      | some qs =>
        by_cases hr : qs.redis = false
        · simp [hps, hqs, paymentService.CreatePayment, QueueService.EnqueuePayment, hr] at hok
        by_cases hc : w.redis.client = false
        · simp [hps, hqs, paymentService.CreatePayment, QueueService.EnqueuePayment, hr, hc]
            at hok
        cases hp : w.redis.rpushErr with
        | some e1 =>
          simp [hps, hqs, paymentService.CreatePayment, QueueService.EnqueuePayment, hr, hc, hp]
            at hok
        | none =>
          cases hs : w.redis.setErr with
          | some e2 =>
            simp [hps, hqs, paymentService.CreatePayment, QueueService.EnqueuePayment, hr, hc,
              hp, hs] at hok
          | none =>
            simp only [hps, hqs, paymentService.CreatePayment, QueueService.EnqueuePayment, hr,
              hc, hp, hs, if_false, Bool.true_eq_false, Outcome.ok.injEq] at hok ⊢
            subst hok
            simp [BookingRepository.Create, PaymentRepository.Create,
              eventUpdate_payments, Redis.list, Redis.RPush, Redis.Set, lookup_rpushList]

/-- Witness of C2: the price of three tickets of `demoEvent`. -/
theorem createBooking_price_witness :
    demoBooking.TotalPrice = Float.ofInt 3 * demoEvent.TicketPrice ∧
    (∃ p : Payment,
      (demoService.CreateBooking 5 demoWorld 1 1 3).1.db.payments =
        demoWorld.db.payments ++ [p] ∧
      p.BookingID = demoBooking.ID ∧ p.Amount = demoBooking.TotalPrice) ∧
    (demoService.CreateBooking 5 demoWorld 1 1 3).1.redis.list QueueName =
      demoWorld.redis.list QueueName ++
        [{ BookingID := demoBooking.ID, Amount := demoBooking.TotalPrice }] :=
  createBooking_price demoService 5 demoWorld 1 1 3 demoEvent demoBooking rfl rfl

/-- C3: when the quantity exceeds the event's remaining count `R`, `CreateBooking` returns an
error and the world is the one it started from: no booking, payment, job or timeout key is
added and the event keeps `R`.  For an existing user and an Active event the error is
"not enough tickets available". -/
theorem createBooking_insufficient (s : bookingService) (now : Time) (w : World)
    (userID eventID : Nat) (q R : Int) (e : Event)
    (he : findRow Event.ID eventID w.db.events = some e)
    (hR : e.TotalTickets = R) (hq : R < q) :
    (∃ msg, s.CreateBooking now w userID eventID q = (w, .error msg)) ∧
    ((∃ u, findRow User.ID userID w.db.users = some u) → e.Status = EventStatusActive →
      s.CreateBooking now w userID eventID q = (w, .error "not enough tickets available")) := by
  have hlt : e.TotalTickets < q := by omega
  unfold bookingService.CreateBooking
  simp only [EventRepository.FindById, he, UserRepository.FindById]
  cases hu : findRow User.ID userID w.db.users with
  | none => simp
  | some u =>
    by_cases hs : e.Status = EventStatusActive
    · simp [hs, hlt]
    · simp [hs]

/-- Witness of C3: eleven tickets of the ten of `demoEvent`. -/
theorem createBooking_insufficient_witness :
    (∃ msg, demoService.CreateBooking 5 demoWorld 1 1 11 = (demoWorld, .error msg)) ∧
    ((∃ u, findRow User.ID 1 demoWorld.db.users = some u) →
      demoEvent.Status = EventStatusActive →
      demoService.CreateBooking 5 demoWorld 1 1 11 =
        (demoWorld, .error "not enough tickets available")) :=
  createBooking_insufficient demoService 5 demoWorld 1 1 11 10 demoEvent rfl rfl (by decide)

/-- C4: for an event that is not Active, and for an event whose start time is before the
current time, `CreateBooking` returns an error and the world is the one it started from,
whatever the quantity. -/
theorem createBooking_fails_closed (s : bookingService) (now : Time) (w : World)
    (userID eventID : Nat) (q : Int) (e : Event)
    (he : findRow Event.ID eventID w.db.events = some e)
    (h : e.Status ≠ EventStatusActive ∨ e.StartDate < now) :
    ∃ msg, s.CreateBooking now w userID eventID q = (w, .error msg) := by
  unfold bookingService.CreateBooking
  simp only [EventRepository.FindById, he, UserRepository.FindById]
  cases hu : findRow User.ID userID w.db.users with
  | none => simp
  | some u =>
    by_cases hs : e.Status = EventStatusActive
    · by_cases hlt : e.TotalTickets < q
      · simp [hs, hlt]
      · have hst : e.StartDate < now := by
          rcases h with h | h
          · exact absurd hs h
          · exact h
        simp [hs, hlt, hst]
    · simp [hs]

/-- Witness of C4: `demoEvent` after it has started. -/
theorem createBooking_fails_closed_witness :
    ∃ msg, demoService.CreateBooking 1001 demoWorld 1 1 3 = (demoWorld, .error msg) :=
  createBooking_fails_closed demoService 1001 demoWorld 1 1 3 demoEvent rfl
    (Or.inr (by decide))

/-! ## Manual cancellation and confirmation -/

/-- C7: on a booking whose status is not Pending, `CancelBooking` and `ConfirmBooking` each
return the error "booking is not pending" and the world is the one they started from. -/
theorem cancel_confirm_not_pending (s : bookingService) (now : Time) (w : World) (id : Nat)
    (b : Booking) (hb : findRow Booking.ID id w.db.bookings = some b)
    (hst : b.Status ≠ BookingStatusPending) :
    s.CancelBooking now w id = (w, .error "booking is not pending") ∧
    s.ConfirmBooking now w id = (w, .error "booking is not pending") := by
  constructor
  · simp only [bookingService.CancelBooking, BookingRepository.FindById, hb]
    simp [hst]
  · simp only [bookingService.ConfirmBooking, BookingRepository.FindById, hb]
    simp [hst]

/-- The success path of `ConfirmBooking`, as one equation. -/
theorem confirmBooking_eq (s : bookingService) (ps : paymentService) (now : Time)
    (w : World) (id : Nat) (b : Booking) (p : Payment)
    (hps : s.paymentService = some ps)
    (hb : findRow Booking.ID id w.db.bookings = some b) (hid : id ≠ 0)
    (hst : b.Status = BookingStatusPending)
    (hp : findRow Payment.BookingID id w.db.payments = some p)
    (hpkey : findRow Payment.ID p.ID w.db.payments = some p) (hpid : p.ID ≠ 0) :
    s.ConfirmBooking now w id =
      ({ w with db := { w.db with
            bookings := upsertRow Booking.ID
              (Booking.row { b with Status := BookingStatusConfirmed, UpdatedAt := now })
              w.db.bookings
            payments := upsertRow Payment.ID
              { p with Status := PaymentStatusCompleted, UpdatedAt := now } w.db.payments } },
       .ok { b with Status := BookingStatusConfirmed, UpdatedAt := now,
                    User := (findRow User.ID b.UserID w.db.users).getD {},
                    Event := (findRow Event.ID b.EventID w.db.events).getD {} }) := by
  have hbid : b.ID = id := findRow_key Booking.ID id _ b hb
  have hbid0 : ¬ b.ID = 0 := by rw [hbid]; exact hid
  simp only [bookingService.ConfirmBooking, BookingRepository.FindById, hb, hst, hps,
    ne_eq, not_true_eq_false, if_false, BookingRepository.Update, hbid0]
  simp only [hbid, paymentService.FindByBookingID, PaymentRepository.FindByBookingID, hp,
    paymentService.ConfirmPayment, PaymentRepository.FindById, hpkey,
    PaymentRepository.UpdatePayment, hpid, if_false, Booking.row]

/-- What `ConfirmBooking` does on a booking service whose payment service is set: on a
Pending booking with a Pending payment it returns the booking as Confirmed, stores it as
Confirmed, stores its payment as Completed, and leaves the events table as it was. -/
theorem confirmBooking_confirms (s : bookingService) (ps : paymentService) (now : Time)
    (w : World) (id : Nat) (b : Booking) (p : Payment)
    (hps : s.paymentService = some ps)
    (hb : findRow Booking.ID id w.db.bookings = some b) (hid : id ≠ 0)
    (hst : b.Status = BookingStatusPending)
    (hp : findRow Payment.BookingID id w.db.payments = some p)
    (hpkey : findRow Payment.ID p.ID w.db.payments = some p) (hpid : p.ID ≠ 0)
    (_hpst : p.Status = PaymentStatusPending) :
    (∃ b1, (s.ConfirmBooking now w id).2 = .ok b1 ∧ b1.ID = id ∧
      b1.Status = BookingStatusConfirmed) ∧
    findRow Booking.ID id (s.ConfirmBooking now w id).1.db.bookings =
      some (Booking.row { b with Status := BookingStatusConfirmed, UpdatedAt := now }) ∧
    findRow Payment.BookingID id (s.ConfirmBooking now w id).1.db.payments =
      some { p with Status := PaymentStatusCompleted, UpdatedAt := now } ∧
    (s.ConfirmBooking now w id).1.db.events = w.db.events := by
  have hbid : b.ID = id := findRow_key Booking.ID id _ b hb
  have hpb : p.BookingID = id := findRow_key Payment.BookingID id _ p hp
  rw [confirmBooking_eq s ps now w id b p hps hb hid hst hp hpkey hpid]
  refine ⟨⟨_, rfl, hbid, rfl⟩, ?_, ?_, rfl⟩
  · exact findRow_upsertRow_of_key Booking.ID id _ _ hbid
  · exact findRow_upsertRow_other Payment.ID Payment.BookingID id _ p w.db.payments hpkey hp hpb

/-- What `CreateBooking` leaves in the store, on every path: nothing, or one new Pending
booking row of the requested quantity together with the debit of the event. -/
theorem createBooking_effect (s : bookingService) (now : Time) (w : World)
    (userID eventID : Nat) (q : Int) :
    (s.CreateBooking now w userID eventID q).1.db = w.db ∨
    ∃ ev, findRow Event.ID eventID w.db.events = some ev ∧
      ev.Status = EventStatusActive ∧ q ≤ ev.TotalTickets ∧
      (s.CreateBooking now w userID eventID q).1.db.bookings = w.db.bookings ++
        [Booking.row { ID := w.db.nextBookingID, UserID := userID, EventID := eventID,
                       Quantity := q, TotalPrice := Float.ofInt q * ev.TicketPrice,
                       Status := BookingStatusPending, CreatedAt := now, UpdatedAt := now }] ∧
      (s.CreateBooking now w userID eventID q).1.db.events =
        (EventRepository.Update now w.db
          { ev with TotalTickets := wrapInt (ev.TotalTickets - q) }).1.events ∧
      (s.CreateBooking now w userID eventID q).1.db.nextBookingID = w.db.nextBookingID + 1 := by
  unfold bookingService.CreateBooking
  simp only [UserRepository.FindById, EventRepository.FindById]
  cases hu : findRow User.ID userID w.db.users with
  | none => left; rfl
  | some usr =>
    cases he : findRow Event.ID eventID w.db.events with
    | none => left; rfl
    | some ev =>
      by_cases h1 : ev.Status = EventStatusActive
      · by_cases h2 : ev.TotalTickets < q
        · left; simp [h1, h2]
        · by_cases h3 : ev.StartDate < now
          · left; simp [h1, h2, h3]
          · right
            refine ⟨ev, rfl, h1, by omega, ?_⟩
            simp only [h1, h2, h3, ne_eq, not_true_eq_false, if_false,
              paymentService.CreatePayment, QueueService.EnqueuePayment]
            cases hps : s.paymentService with
            | none =>
              simp [BookingRepository.Create, eventUpdate_bookings,
                eventUpdate_events, eventUpdate_nextBookingID]
            | some ps =>
              cases hqs : s.queueService with
              | none =>
                simp [BookingRepository.Create, PaymentRepository.Create,
                  eventUpdate_bookings, eventUpdate_events,
                  eventUpdate_nextBookingID]
              | some qs =>
                cases hr : qs.redis <;> cases hc : w.redis.client <;>
                  cases hp : w.redis.rpushErr <;> cases hs : w.redis.setErr <;>
                  simp [hr, hc, hp, hs, BookingRepository.Create, PaymentRepository.Create,
                    eventUpdate_bookings, eventUpdate_events,
                    eventUpdate_nextBookingID]
      · left; simp [h1]

/-- Witness of C7: `demoBooking` after it was confirmed. -/
theorem cancel_confirm_not_pending_witness :
    demoService.CancelBooking 7 confirmedWorld 1 =
      (confirmedWorld, .error "booking is not pending") ∧
    demoService.ConfirmBooking 7 confirmedWorld 1 =
      (confirmedWorld, .error "booking is not pending") :=
  cancel_confirm_not_pending demoService 7 confirmedWorld 1
    { demoBooking with Status := BookingStatusConfirmed, UpdatedAt := 6 } rfl (by decide)

/-- The booking `demoBooking` confirmed at instant 6 on a fully wired service. -/
theorem confirmBooking_confirms_witness :
    (∃ b1, (demoService.ConfirmBooking 6 bookedWorld 1).2 = .ok b1 ∧ b1.ID = 1 ∧
      b1.Status = BookingStatusConfirmed) ∧
    findRow Booking.ID 1 (demoService.ConfirmBooking 6 bookedWorld 1).1.db.bookings =
      some (Booking.row { demoBooking with Status := BookingStatusConfirmed, UpdatedAt := 6 }) ∧
    findRow Payment.BookingID 1 (demoService.ConfirmBooking 6 bookedWorld 1).1.db.payments =
      some { demoPayment with Status := PaymentStatusCompleted, UpdatedAt := 6 } ∧
    (demoService.ConfirmBooking 6 bookedWorld 1).1.db.events = bookedWorld.db.events :=
  confirmBooking_confirms demoService {} 6 bookedWorld 1 demoBooking demoPayment
    rfl rfl (by decide) rfl rfl rfl (by decide) rfl

/-- The success path of `CancelBooking`, as one equation: the payment is stored as Completed,
whatever status was set on the copy handed to `ConfirmPayment`. -/
theorem cancelBooking_eq (s : bookingService) (ps : paymentService) (now : Time)
    (w : World) (id : Nat) (b : Booking) (p : Payment)
    (hps : s.paymentService = some ps)
    (hb : findRow Booking.ID id w.db.bookings = some b) (hid : id ≠ 0)
    (hst : b.Status = BookingStatusPending)
    (hp : findRow Payment.BookingID id w.db.payments = some p)
    (hpkey : findRow Payment.ID p.ID w.db.payments = some p) (hpid : p.ID ≠ 0) :
    s.CancelBooking now w id =
      ({ w with db := (EventRepository.Update now
            { w.db with
              bookings := upsertRow Booking.ID
                (Booking.row { b with Status := BookingStatusCancelled, UpdatedAt := now })
                w.db.bookings
              payments := upsertRow Payment.ID
                { p with Status := PaymentStatusCompleted, UpdatedAt := now } w.db.payments }
            { (findRow Event.ID b.EventID w.db.events).getD {} with
              TotalTickets := wrapInt
                (((findRow Event.ID b.EventID w.db.events).getD {}).TotalTickets +
                  b.Quantity) }).1 },
       .ok { b with Status := BookingStatusCancelled, UpdatedAt := now,
                    User := (findRow User.ID b.UserID w.db.users).getD {},
                    Event := (findRow Event.ID b.EventID w.db.events).getD {} }) := by
  have hbid : b.ID = id := findRow_key Booking.ID id _ b hb
  have hbid0 : ¬ b.ID = 0 := by rw [hbid]; exact hid
  simp only [bookingService.CancelBooking, BookingRepository.FindById, hb, hst, hps,
    ne_eq, not_true_eq_false, if_false, BookingRepository.Update, hbid0]
  simp only [hbid, paymentService.FindByBookingID, PaymentRepository.FindByBookingID, hp,
    paymentService.ConfirmPayment, PaymentRepository.FindById, hpkey,
    PaymentRepository.UpdatePayment, hpid, if_false, Booking.row]

/-- C8, on the code: `bookedWorld` holds the Pending `demoBooking` of three tickets with its
Pending `demoPayment`; after `CancelBooking` the booking is Cancelled and the event is back
at ten tickets, but the payment is stored as Completed, not Failed. -/
theorem cancelBooking_payment_completed :
    findRow Booking.ID 1 bookedWorld.db.bookings = some demoBooking ∧
    demoBooking.Status = BookingStatusPending ∧
    findRow Payment.BookingID 1 bookedWorld.db.payments = some demoPayment ∧
    demoPayment.Status = PaymentStatusPending ∧
    bookedWorld.db.events.map (fun e => e.TotalTickets) = [7] ∧
    (demoService.CancelBooking 6 bookedWorld 1).1.db.bookings.map (fun b => b.Status) =
      [BookingStatusCancelled] ∧
    (demoService.CancelBooking 6 bookedWorld 1).1.db.events.map (fun e => e.TotalTickets) =
      [10] ∧
    (demoService.CancelBooking 6 bookedWorld 1).1.db.payments.map (fun p => p.Status) =
      [PaymentStatusCompleted] ∧
    PaymentStatusCompleted ≠ PaymentStatusFailed := by
  refine ⟨rfl, rfl, rfl, rfl, ?_, ?_, ?_, ?_, ?_⟩ <;> decide

/-! ## The settlement worker -/

/-- C10, on the code: `demoBooking` is Pending; when the worker handles its job while the
payment is seen as Completed, and likewise as Failed, the booking is stored with the
status "status", neither Confirmed nor Cancelled. -/
theorem processPayment_status_literal :
    findRow Booking.ID 1 (settledWorld PaymentStatusCompleted).db.bookings = some demoBooking ∧
    findRow Booking.ID 1 (settledWorld PaymentStatusFailed).db.bookings = some demoBooking ∧
    demoBooking.Status = BookingStatusPending ∧
    (demoQueue.processPayment 7 (settledWorld PaymentStatusCompleted) demoJob).1.db.bookings.map
      (fun b => b.Status) = ["status"] ∧
    (demoQueue.processPayment 7 (settledWorld PaymentStatusFailed) demoJob).1.db.bookings.map
      (fun b => b.Status) = ["status"] ∧
    "status" ≠ BookingStatusConfirmed ∧ "status" ≠ BookingStatusCancelled := by
  refine ⟨rfl, rfl, rfl, ?_, ?_, ?_, ?_⟩ <;> decide

/-! ## Quantity validation -/

/-- C6, as stated, fails: called with quantity `-5` on `demoEvent`, `CreateBooking` returns a
booking of quantity `-5`, stores it, and raises the event's count from 10 to 15. -/
theorem createBooking_accepts_nonpositive :
    (demoService.CreateBooking 5 demoWorld 1 1 (-5)).2 =
      .ok { ID := 1, UserID := 1, EventID := 1, Quantity := -5,
            TotalPrice := Float.ofInt (-5) * demoEvent.TicketPrice,
            Status := BookingStatusPending, CreatedAt := 5, UpdatedAt := 5 } ∧
    (demoService.CreateBooking 5 demoWorld 1 1 (-5)).1.db.bookings.map (fun b => b.Quantity) =
      [-5] ∧
    demoWorld.db.events.map (fun e => e.TotalTickets) = [10] ∧
    (demoService.CreateBooking 5 demoWorld 1 1 (-5)).1.db.events.map
      (fun e => e.TotalTickets) = [15] := by
  refine ⟨rfl, ?_, ?_, ?_⟩ <;> decide

/-- C6, amended: the quantity is validated by the booking-creation handler.  For a request
with quantity `q ≤ 0` the handler answers 400 and the world is the one it started from;
and whatever the request, every booking row the handler adds has a quantity above zero. -/
theorem handler_rejects_nonpositive (h : BookingHandler) (now : Time) (w : World)
    (req : CreateBookingRequest) (email : Option String) (hq : req.Quantity ≤ 0) :
    h.CreateBooking now w (some req) email = (w, .ok { status := 400 }) ∧
    ∀ (body : Option CreateBookingRequest) (mail : Option String),
      ∀ x ∈ (h.CreateBooking now w body mail).1.db.bookings,
        x ∈ w.db.bookings ∨ 0 < x.Quantity := by
  constructor
  · have hv : req.valid = false := by
      unfold CreateBookingRequest.valid
      have : ¬ (1 ≤ req.Quantity) := by omega
      simp [this]
    simp [BookingHandler.CreateBooking, hv]
  · intro body mail x hx
    unfold BookingHandler.CreateBooking at hx
    cases body with
    | none => exact Or.inl hx
    | some r =>
      by_cases hv : r.valid = false
      · simp only [hv, if_true] at hx
        exact Or.inl hx
      · simp only [hv, if_false, Bool.true_eq_false] at hx
        have hpos : 0 < r.Quantity := by
          unfold CreateBookingRequest.valid at hv
          simp only [Bool.and_eq_false_imp, not_forall, Bool.not_eq_false,
            Bool.and_eq_true, decide_eq_true_eq] at hv
          by_contra hneg
          simp at hv
          omega
        cases mail with
        | none => exact Or.inl hx
        | some m =>
          cases hu : UserRepository.FindByEmail w.db m with
          | none =>
            simp only [hu] at hx
            exact Or.inl hx
          | some usr =>
            simp only [hu] at hx
            have hdb : (match h.bookingService.CreateBooking now w usr.ID r.EventID r.Quantity
                with
                | (w1, Outcome.error _) => (w1, Outcome.ok ({ status := 500 } : Response))
                | (w1, Outcome.crash e) => (w1, Outcome.crash e)
                | (w1, Outcome.ok booking) =>
                  (w1, Outcome.ok { status := 201, booking := some booking })).1 =
                (h.bookingService.CreateBooking now w usr.ID r.EventID r.Quantity).1 := by
              split <;> simp_all
            rw [hdb] at hx
            rcases createBooking_effect h.bookingService now w usr.ID r.EventID r.Quantity
              with heq | ⟨ev, _, _, _, hbk, _, _⟩
            · rw [heq] at hx
              exact Or.inl hx
            · rw [hbk] at hx
              rcases List.mem_append.mp hx with hx | hx
              · exact Or.inl hx
              · right
                simp only [List.mem_singleton] at hx
                subst hx
                exact hpos

/-- Witness of C6, amended: a request for no ticket at all. -/
theorem handler_rejects_nonpositive_witness :
    BookingHandler.CreateBooking ⟨demoService⟩ 5 demoWorld
        (some { EventID := 1, Quantity := 0 }) (some "test@example.com") =
      (demoWorld, .ok { status := 400 }) ∧
    ∀ (body : Option CreateBookingRequest) (mail : Option String),
      ∀ x ∈ (BookingHandler.CreateBooking ⟨demoService⟩ 5 demoWorld body mail).1.db.bookings,
        x ∈ demoWorld.db.bookings ∨ 0 < x.Quantity :=
  handler_rejects_nonpositive ⟨demoService⟩ 5 demoWorld { EventID := 1, Quantity := 0 }
    (some "test@example.com") (by decide)

/-! ## The ledger invariant -/

theorem findRow_mem {α : Type} (idOf : α → Nat) (id : Nat) (rows : List α) (r : α)
    (h : findRow idOf id rows = some r) : r ∈ rows := by
  induction rows with
  | nil => simp [findRow] at h
  | cons x xs ih =>
    unfold findRow at h
    split at h
    · cases h; exact List.mem_cons_self _ _
    · exact List.mem_cons_of_mem _ (ih h)

theorem findRow_append_some {α : Type} (idOf : α → Nat) (id : Nat) (rows more : List α)
    (r : α) (h : findRow idOf id rows = some r) : findRow idOf id (rows ++ more) = some r := by
  induction rows with
  | nil => simp [findRow] at h
  | cons x xs ih =>
    unfold findRow at h
    by_cases hx : idOf x = id
    · simpa [findRow, hx] using h
    · simp only [hx, if_false] at h
      simp [findRow, hx, ih h]

theorem findRow_replaceRow_ne {α : Type} (idOf : α → Nat) (id : Nat) (row : α)
    (rows : List α) (hne : idOf row ≠ id) :
    findRow idOf id (replaceRow idOf row rows) = findRow idOf id rows := by
  induction rows with
  | nil => rfl
  | cons x xs ih =>
    unfold replaceRow
    by_cases hx : idOf x = idOf row
    · have hxid : ¬ idOf x = id := by rw [hx]; exact hne
      simp [hx, findRow, hne, hxid]
    · rw [if_neg hx]
      by_cases hy : idOf x = id
      · simp [findRow, hy]
      · simp [findRow, hy, ih]

theorem findRow_upsertRow_ne {α : Type} (idOf : α → Nat) (id : Nat) (row r : α)
    (rows : List α) (hne : idOf row ≠ id) (h : findRow idOf id rows = some r) :
    findRow idOf id (upsertRow idOf row rows) = some r := by
  unfold upsertRow
  split
  · rw [findRow_replaceRow_ne idOf id row rows hne]; exact h
  · exact findRow_append_some idOf id rows [row] r h

theorem mem_replaceRow {α : Type} (idOf : α → Nat) (row x : α) (rows : List α)
    (h : x ∈ replaceRow idOf row rows) : x = row ∨ x ∈ rows := by
  induction rows with
  | nil => simp [replaceRow] at h
  | cons y ys ih =>
    unfold replaceRow at h
    split at h
    · rcases List.mem_cons.mp h with h | h
      · exact Or.inl h
      · exact Or.inr (List.mem_cons_of_mem _ h)
    · rcases List.mem_cons.mp h with h | h
      · exact Or.inr (h ▸ List.mem_cons_self _ _)
      · rcases ih h with h | h
        · exact Or.inl h
        · exact Or.inr (List.mem_cons_of_mem _ h)

theorem mem_upsertRow {α : Type} (idOf : α → Nat) (row x : α) (rows : List α)
    (h : x ∈ upsertRow idOf row rows) : x = row ∨ x ∈ rows := by
  unfold upsertRow at h
  split at h
  · exact mem_replaceRow idOf row x rows h
  · rcases List.mem_append.mp h with h | h
    · exact Or.inr h
    · exact Or.inl (List.mem_singleton.mp h)

theorem pendingQuantity_append (eid : Nat) (xs ys : List Booking) :
    pendingQuantity eid (xs ++ ys) = pendingQuantity eid xs + pendingQuantity eid ys := by
  induction xs with
  | nil => simp [pendingQuantity]
  | cons x xs ih => simp [pendingQuantity, ih, add_assoc]

theorem pendingQuantity_nonneg (eid : Nat) (bs : List Booking)
    (h : ∀ b ∈ bs, 0 ≤ heldBy eid b) : 0 ≤ pendingQuantity eid bs := by
  induction bs with
  | nil => simp [pendingQuantity]
  | cons x xs ih =>
    have h1 := h x (List.mem_cons_self _ _)
    have h2 := ih (fun b hb => h b (List.mem_cons_of_mem _ hb))
    simp only [pendingQuantity]
    omega

theorem pendingQuantity_replaceRow (eid : Nat) (row b : Booking) (bs : List Booking)
    (h : findRow Booking.ID row.ID bs = some b) :
    pendingQuantity eid (replaceRow Booking.ID row bs) =
      pendingQuantity eid bs - heldBy eid b + heldBy eid row := by
  induction bs with
  | nil => simp [findRow] at h
  | cons x xs ih =>
    unfold findRow at h
    unfold replaceRow
    by_cases hx : x.ID = row.ID
    · simp only [hx, if_true, Option.some.injEq] at h
      subst h
      simp only [hx, if_true, pendingQuantity]
      omega
    · simp only [hx, if_false] at h
      simp only [hx, if_false, pendingQuantity, ih h]
      omega

theorem heldBy_of_status (eid : Nat) (b : Booking) (h : b.Status ≠ BookingStatusPending) :
    heldBy eid b = 0 := by
  simp [heldBy, h]

theorem heldBy_of_event (eid : Nat) (b : Booking) (h : b.EventID ≠ eid) :
    heldBy eid b = 0 := by
  simp [heldBy, h]

theorem bookingUpdate_events (now : Time) (db : DB) (bk : Booking) :
    (BookingRepository.Update now db bk).1.events = db.events := by
  unfold BookingRepository.Update BookingRepository.Create
  split <;> rfl

theorem confirmPayment_frame (ps : paymentService) (now : Time) (db : DB)
    (p : Payment) :
    (ps.ConfirmPayment now db p).1.events = db.events ∧
    (ps.ConfirmPayment now db p).1.bookings = db.bookings ∧
    (ps.ConfirmPayment now db p).1.nextBookingID = db.nextBookingID ∧
    (ps.ConfirmPayment now db p).1.nextEventID = db.nextEventID := by
  unfold paymentService.ConfirmPayment PaymentRepository.FindById
  cases findRow Payment.ID p.ID db.payments with
  | none => exact ⟨rfl, rfl, rfl, rfl⟩
  | some p1 =>
    simp only [PaymentRepository.UpdatePayment, PaymentRepository.Create]
    split <;> exact ⟨rfl, rfl, rfl, rfl⟩

theorem bookingUpdate_nextEventID (now : Time) (db : DB) (bk : Booking) :
    (BookingRepository.Update now db bk).1.nextEventID = db.nextEventID := by
  unfold BookingRepository.Update BookingRepository.Create
  split <;> rfl

theorem bookingUpdate_kept (now : Time) (db : DB) (bk : Booking) :
    (BookingRepository.Update now db bk).2.Event = bk.Event ∧
    (BookingRepository.Update now db bk).2.Quantity = bk.Quantity := by
  unfold BookingRepository.Update BookingRepository.Create
  split <;> exact ⟨rfl, rfl⟩

theorem eventUpdate_events_congr (now : Time) (db db1 : DB) (ev : Event)
    (h1 : db1.events = db.events) (h2 : db1.nextEventID = db.nextEventID) :
    (EventRepository.Update now db1 ev).1.events = (EventRepository.Update now db ev).1.events := by
  rw [eventUpdate_events, eventUpdate_events, h1, h2]

theorem confirmPayment_result {ps : paymentService} {now : Time} {db db2 : DB}
    {p : Payment} {out : Outcome Unit} (h : ps.ConfirmPayment now db p = (db2, out)) :
    db2.events = db.events ∧ db2.bookings = db.bookings ∧
    db2.nextBookingID = db.nextBookingID ∧ db2.nextEventID = db.nextEventID := by
  have hf := confirmPayment_frame ps now db p
  rw [h] at hf
  exact hf

/-- Storing a booking with a status other than Pending keeps the events, and takes what the
booking held out of the tickets held for event `eid`. -/
theorem ledger_bookingUpdate {eid : Nat} {T : Int} {db : DB} (hL : Ledger eid T db)
    (now : Time) (b bk : Booking) (hb : findRow Booking.ID bk.ID db.bookings = some b)
    (hev : bk.EventID = b.EventID) (hst : bk.Status ≠ BookingStatusPending) :
    (BookingRepository.Update now db bk).1.nextBookingID ≠ 0 ∧
    (∀ x ∈ (BookingRepository.Update now db bk).1.bookings,
      0 ≤ heldBy eid x ∧ (x.EventID = eid → x.ID ≠ 0)) ∧
    pendingQuantity eid (BookingRepository.Update now db bk).1.bookings =
      pendingQuantity eid db.bookings - heldBy eid b := by
  have hbmem : b ∈ db.bookings := findRow_mem Booking.ID bk.ID _ b hb
  have hbid : b.ID = bk.ID := findRow_key Booking.ID bk.ID _ b hb
  unfold BookingRepository.Update
  by_cases h0 : bk.ID = 0
  · have hne : b.EventID ≠ eid := fun h => (hL.rows b hbmem).2 h (by rw [hbid]; exact h0)
    have hne1 : bk.EventID ≠ eid := by rw [hev]; exact hne
    simp only [h0, if_true, BookingRepository.Create, pendingQuantity_append]
    refine ⟨by omega, ?_, ?_⟩
    · intro x hx
      rcases List.mem_append.mp hx with hx | hx
      · exact hL.rows x hx
      · simp only [List.mem_singleton] at hx
        subst hx
        exact ⟨by simp [heldBy, Booking.row, hne1], fun h => absurd h hne1⟩
    · simp [pendingQuantity, heldBy, Booking.row, hne1, hne]
  · simp only [h0, if_false]
    have hrow : (Booking.row { bk with UpdatedAt := now }).ID = bk.ID := rfl
    have hheld : heldBy eid (Booking.row { bk with UpdatedAt := now }) = 0 := by
      simp [heldBy, Booking.row, hst]
    have hfind : findRow Booking.ID (Booking.row { bk with UpdatedAt := now }).ID db.bookings =
        some b := hb
    refine ⟨hL.seq, ?_, ?_⟩
    · intro x hx
      rcases mem_upsertRow Booking.ID _ x db.bookings hx with hx | hx
      · subst hx
        exact ⟨by rw [hheld], fun _ => h0⟩
      · exact hL.rows x hx
    · unfold upsertRow
      rw [hfind]
      simp only []
      rw [pendingQuantity_replaceRow eid _ b db.bookings hfind, hheld]
      omega

/-- What `ConfirmBooking` leaves in the store, on every path. -/
theorem confirmBooking_effect (s : bookingService) (now : Time) (w : World) (id : Nat) :
    (s.ConfirmBooking now w id).1.db = w.db ∨
    ∃ b bk : Booking, findRow Booking.ID id w.db.bookings = some b ∧
      bk.ID = b.ID ∧ bk.EventID = b.EventID ∧ bk.Status = BookingStatusConfirmed ∧
      (s.ConfirmBooking now w id).1.db.events = w.db.events ∧
      (s.ConfirmBooking now w id).1.db.bookings =
        (BookingRepository.Update now w.db bk).1.bookings ∧
      (s.ConfirmBooking now w id).1.db.nextBookingID =
        (BookingRepository.Update now w.db bk).1.nextBookingID := by
  unfold bookingService.ConfirmBooking
  simp only [BookingRepository.FindById]
  cases hb : findRow Booking.ID id w.db.bookings with
  | none => left; rfl
  | some b =>
    by_cases hst : b.Status = BookingStatusPending
    · right
      refine ⟨b, { b with Status := BookingStatusConfirmed,
                          User := (findRow User.ID b.UserID w.db.users).getD {},
                          Event := (findRow Event.ID b.EventID w.db.events).getD {} },
        rfl, rfl, rfl, rfl, ?_⟩
      simp only [hst, ne_eq, not_true_eq_false, if_false]
      cases hps : s.paymentService with
      | none => simp [bookingUpdate_events]
      | some ps =>
        simp only []
        split
        · simp [bookingUpdate_events]
        · split
          all_goals
            rename_i heq
            have hf := confirmPayment_result heq
            simp [hf, bookingUpdate_events]
    · left; simp [hst]

/-- What `CancelBooking` leaves in the store, on every path. -/
theorem cancelBooking_effect (s : bookingService) (now : Time) (w : World) (id : Nat) :
    (s.CancelBooking now w id).1.db = w.db ∨
    ∃ b bk : Booking, findRow Booking.ID id w.db.bookings = some b ∧
      b.Status = BookingStatusPending ∧
      bk.ID = b.ID ∧ bk.EventID = b.EventID ∧ bk.Status = BookingStatusCancelled ∧
      (s.CancelBooking now w id).1.db.bookings =
        (BookingRepository.Update now w.db bk).1.bookings ∧
      (s.CancelBooking now w id).1.db.nextBookingID =
        (BookingRepository.Update now w.db bk).1.nextBookingID ∧
      ((s.CancelBooking now w id).1.db.events = w.db.events ∨
       (s.CancelBooking now w id).1.db.events =
        (EventRepository.Update now w.db
          { (findRow Event.ID b.EventID w.db.events).getD {} with
            TotalTickets := wrapInt
              (((findRow Event.ID b.EventID w.db.events).getD {}).TotalTickets +
                b.Quantity) }).1.events) := by
  unfold bookingService.CancelBooking
  simp only [BookingRepository.FindById]
  cases hb : findRow Booking.ID id w.db.bookings with
  | none => left; rfl
  | some b =>
    by_cases hst : b.Status = BookingStatusPending
    · right
      refine ⟨b, { b with Status := BookingStatusCancelled,
                          User := (findRow User.ID b.UserID w.db.users).getD {},
                          Event := (findRow Event.ID b.EventID w.db.events).getD {} },
        rfl, hst, rfl, rfl, rfl, ?_⟩
      simp only [hst, ne_eq, not_true_eq_false, if_false]
      cases hps : s.paymentService with
      | none => simp [bookingUpdate_events]
      | some ps =>
        simp only []
        split
        · simp [bookingUpdate_events]
        · split
          · rename_i heq
            have hf := confirmPayment_result heq
            simp [hf, bookingUpdate_events]
          · rename_i heq
            have hf := confirmPayment_result heq
            simp [hf, bookingUpdate_events]
          · rename_i heq
            have hf := confirmPayment_result heq
            refine ⟨?_, ?_, Or.inr ?_⟩
            · simp [hf, eventUpdate_bookings]
            · simp [hf, eventUpdate_nextBookingID]
            · simp only [bookingUpdate_kept]
              exact eventUpdate_events_congr now w.db _ _
                (by rw [hf.1, bookingUpdate_events])
                (by rw [hf.2.2.2, bookingUpdate_nextEventID])
    · left; simp [hst]

/-- What `updateBookingStatus` leaves in the store when the requested status is not "FAILED". -/
theorem updateBookingStatus_effect (qs : QueueService) (now : Time) (db : DB) (id : Nat)
    (status : String) (h : status ≠ "FAILED") :
    (qs.updateBookingStatus now db id status).1 = db ∨
    ∃ b bk : Booking, findRow Booking.ID id db.bookings = some b ∧
      bk.ID = b.ID ∧ bk.EventID = b.EventID ∧ bk.Status = "status" ∧
      (qs.updateBookingStatus now db id status).1 = (BookingRepository.Update now db bk).1 := by
  unfold QueueService.updateBookingStatus
  simp only [BookingRepository.FindById]
  cases hb : findRow Booking.ID id db.bookings with
  | none => left; rfl
  | some b =>
    by_cases hst : b.Status = "status"
    · left; simp [hst]
    · right
      refine ⟨b, { b with Status := "status",
                          User := (findRow User.ID b.UserID db.users).getD {},
                          Event := (findRow Event.ID b.EventID db.events).getD {} },
        rfl, rfl, rfl, rfl, ?_⟩
      simp [hst, h]

/-- What the worker leaves in the store after one job, on every path. -/
theorem processPayment_effect (qs : QueueService) (now : Time) (w : World) (job : PaymentJob) :
    (qs.processPayment now w job).1.db = w.db ∨
    ∃ b bk : Booking, findRow Booking.ID job.BookingID w.db.bookings = some b ∧
      bk.ID = b.ID ∧ bk.EventID = b.EventID ∧ bk.Status = "status" ∧
      (qs.processPayment now w job).1.db = (BookingRepository.Update now w.db bk).1 := by
  have key : ∀ status : String, status ≠ "FAILED" →
      ((match qs.updateBookingStatus now w.db job.BookingID status with
        | (db1, Outcome.error e) => (({ w with db := db1 } : World), (Outcome.error e : Outcome Unit))
        | (db1, Outcome.crash e) => ({ w with db := db1 }, Outcome.crash e)
        | (db1, Outcome.ok _) =>
          if qs.redis = false then ({ w with db := db1 }, Outcome.error "Redis instance is nil")
          else if w.redis.client = false then
            ({ w with db := db1 }, Outcome.crash "nil pointer dereference")
          else ({ db := db1, redis := w.redis.Del (timeoutKey job.BookingID) },
                Outcome.ok ())).1.db =
        (qs.updateBookingStatus now w.db job.BookingID status).1) := by
    intro status _
    split
    · rename_i heq; rw [heq]
    · rename_i heq; rw [heq]
    · rename_i heq; rw [heq]
      split
      · rfl
      · split <;> rfl
  unfold QueueService.processPayment
  cases hp : PaymentRepository.FindByBookingID w.db job.BookingID with
  | error e => left; rfl
  | ok payment =>
    simp only []
    by_cases h1 : payment.Status = PaymentStatusCompleted
    · rw [if_pos h1]
      rw [key BookingStatusConfirmed (by decide)]
      exact updateBookingStatus_effect qs now w.db job.BookingID _ (by decide)
    · by_cases h2 : payment.Status = PaymentStatusFailed
      · rw [if_neg h1, if_pos h2]
        rw [key BookingStatusCancelled (by decide)]
        exact updateBookingStatus_effect qs now w.db job.BookingID _ (by decide)
      · left; rw [if_neg h1, if_neg h2]

theorem findRow_eventUpdate_ne (now : Time) (db : DB) (ev e : Event) (eid : Nat)
    (hne : ev.ID ≠ eid) (h : findRow Event.ID eid db.events = some e) :
    findRow Event.ID eid (EventRepository.Update now db ev).1.events = some e := by
  rw [eventUpdate_events]
  split
  · exact findRow_append_some Event.ID eid db.events _ e h
  · exact findRow_upsertRow_ne Event.ID eid _ e db.events hne h

theorem findRow_eventUpdate_eq (now : Time) (db : DB) (ev : Event) (h0 : ev.ID ≠ 0) :
    findRow Event.ID ev.ID (EventRepository.Update now db ev).1.events =
      some { ev with UpdatedAt := now } := by
  rw [eventUpdate_events, if_neg h0]
  exact findRow_upsertRow_of_key Event.ID ev.ID _ db.events rfl

theorem findRow_eventUpdate_key (now : Time) (db : DB) (ev : Event) (eid : Nat)
    (hk : ev.ID = eid) (h0 : eid ≠ 0) :
    findRow Event.ID eid (EventRepository.Update now db ev).1.events =
      some { ev with UpdatedAt := now } := by
  subst hk
  exact findRow_eventUpdate_eq now db ev h0

/-- A store change that keeps the events and demotes one booking keeps the ledger. -/
theorem ledger_demote {eid : Nat} {T : Int} {db db1 : DB} (hL : Ledger eid T db)
    (now : Time) (id : Nat) (b bk : Booking) (hb : findRow Booking.ID id db.bookings = some b)
    (hid : bk.ID = b.ID) (hev : bk.EventID = b.EventID)
    (hst : bk.Status ≠ BookingStatusPending)
    (he : db1.events = db.events)
    (hbk : db1.bookings = (BookingRepository.Update now db bk).1.bookings)
    (hn : db1.nextBookingID = (BookingRepository.Update now db bk).1.nextBookingID) :
    Ledger eid T db1 ∧
    pendingQuantity eid db1.bookings = pendingQuantity eid db.bookings - heldBy eid b := by
  have hbid : b.ID = id := findRow_key Booking.ID id _ b hb
  have hb1 : findRow Booking.ID bk.ID db.bookings = some b := by rw [hid, hbid]; exact hb
  obtain ⟨h1, h2, h3⟩ := ledger_bookingUpdate hL now b bk hb1 hev hst
  obtain ⟨e, hfe, he0, heT⟩ := hL.event
  have hheld := (hL.rows b (findRow_mem Booking.ID id _ b hb)).1
  refine ⟨⟨⟨e, ?_, he0, ?_⟩, ?_, ?_⟩, ?_⟩
  · rw [he]; exact hfe
  · rw [hbk, h3]; omega
  · rw [hbk]; exact h2
  · rw [hn]; exact h1
  · rw [hbk]; exact h3

theorem ledger_confirmBooking {eid : Nat} {T : Int} (s : bookingService) (now : Time)
    (w : World) (id : Nat) (hL : Ledger eid T w.db) :
    Ledger eid T (s.ConfirmBooking now w id).1.db := by
  rcases confirmBooking_effect s now w id with h | ⟨b, bk, hb, hid, hev, hst, he, hbk, hn⟩
  · rw [h]; exact hL
  · exact (ledger_demote hL now id b bk hb hid hev (by rw [hst]; decide) he hbk hn).1

theorem ledger_processPayment {eid : Nat} {T : Int} (qs : QueueService) (now : Time)
    (w : World) (job : PaymentJob) (hL : Ledger eid T w.db) :
    Ledger eid T (qs.processPayment now w job).1.db := by
  rcases processPayment_effect qs now w job with h | ⟨b, bk, hb, hid, hev, hst, h⟩
  · rw [h]; exact hL
  · rw [h]
    exact (ledger_demote hL now job.BookingID b bk hb hid hev (by rw [hst]; decide)
      (bookingUpdate_events now w.db bk) rfl rfl).1

theorem ledger_cancelBooking {eid : Nat} {T : Int} (s : bookingService) (now : Time)
    (w : World) (id : Nat) (heid : eid ≠ 0) (hT : T < 9223372036854775808)
    (hL : Ledger eid T w.db) : Ledger eid T (s.CancelBooking now w id).1.db := by
  rcases cancelBooking_effect s now w id with
    h | ⟨b, bk, hb, hpend, hid, hev, hst, hbk, hn, he | he⟩
  · rw [h]; exact hL
  · exact (ledger_demote hL now id b bk hb hid hev (by rw [hst]; decide) he hbk hn).1
  · -- the booking is stored as Cancelled, then the event is credited
    let dbm : DB := { w.db with bookings := (s.CancelBooking now w id).1.db.bookings,
                                nextBookingID := (s.CancelBooking now w id).1.db.nextBookingID }
    obtain ⟨hLm, hpq⟩ := @ledger_demote eid T w.db dbm hL now id b bk hb hid hev
      (by rw [hst]; decide) rfl hbk hn
    obtain ⟨e, hfe, he0, heT⟩ := hL.event
    have hheld := (hL.rows b (findRow_mem Booking.ID id _ b hb)).1
    have hpm : 0 ≤ pendingQuantity eid (s.CancelBooking now w id).1.db.bookings :=
      pendingQuantity_nonneg eid _ (fun x hx => (hLm.rows x hx).1)
    have hpq1 : pendingQuantity eid (s.CancelBooking now w id).1.db.bookings =
        pendingQuantity eid w.db.bookings - heldBy eid b := hpq
    by_cases hbe : b.EventID = eid
    · have hq : heldBy eid b = b.Quantity := by simp [heldBy, hbe, hpend]
      have hget : (findRow Event.ID b.EventID w.db.events).getD {} = e := by
        rw [hbe, hfe]; rfl
      rw [hget] at he
      have hw : wrapInt (e.TotalTickets + b.Quantity) = e.TotalTickets + b.Quantity :=
        wrapInt_of_range (e.TotalTickets + b.Quantity) (by omega) (by omega)
      rw [hw] at he
      have heID : e.ID = eid := findRow_key Event.ID eid _ e hfe
      have hfind : findRow Event.ID eid (s.CancelBooking now w id).1.db.events =
          some { e with TotalTickets := e.TotalTickets + b.Quantity, UpdatedAt := now } := by
        rw [he]
        exact findRow_eventUpdate_key now w.db
          { e with TotalTickets := e.TotalTickets + b.Quantity } eid heID heid
      refine ⟨⟨{ e with TotalTickets := e.TotalTickets + b.Quantity, UpdatedAt := now },
        hfind, ?_, ?_⟩, hLm.rows, hLm.seq⟩
      · show 0 ≤ e.TotalTickets + b.Quantity
        omega
      · show e.TotalTickets + b.Quantity + _ ≤ T
        omega
    · have hq : heldBy eid b = 0 := heldBy_of_event eid b hbe
      have hne : ((findRow Event.ID b.EventID w.db.events).getD {}).ID ≠ eid := by
        cases hf : findRow Event.ID b.EventID w.db.events with
        | none => exact fun h => heid h.symm
        | some ev =>
          have := findRow_key Event.ID b.EventID _ ev hf
          simpa [this] using hbe
      have hfind := findRow_eventUpdate_ne now w.db
        { (findRow Event.ID b.EventID w.db.events).getD {} with
          TotalTickets := wrapInt
            (((findRow Event.ID b.EventID w.db.events).getD {}).TotalTickets + b.Quantity) }
        e eid hne hfe
      rw [← he] at hfind
      refine ⟨⟨e, hfind, he0, ?_⟩, hLm.rows, hLm.seq⟩
      omega

theorem ledger_createBooking {eid : Nat} {T : Int} (s : bookingService) (now : Time)
    (w : World) (userID eventID : Nat) (q : Int) (heid : eid ≠ 0)
    (hT : T < 9223372036854775808) (hq : 0 < q) (hL : Ledger eid T w.db) :
    Ledger eid T (s.CreateBooking now w userID eventID q).1.db := by
  rcases createBooking_effect s now w userID eventID q with
    h | ⟨ev, hev, _, hle, hbk, he, hn⟩
  · rw [h]; exact hL
  · obtain ⟨e, hfe, he0, heT⟩ := hL.event
    have hp0 : 0 ≤ pendingQuantity eid w.db.bookings :=
      pendingQuantity_nonneg eid _ (fun x hx => (hL.rows x hx).1)
    have hrows : ∀ x ∈ (s.CreateBooking now w userID eventID q).1.db.bookings,
        0 ≤ heldBy eid x ∧ (x.EventID = eid → x.ID ≠ 0) := by
      intro x hx
      rw [hbk] at hx
      rcases List.mem_append.mp hx with hx | hx
      · exact hL.rows x hx
      · simp only [List.mem_singleton] at hx
        subst hx
        refine ⟨?_, fun _ => hL.seq⟩
        unfold heldBy
        split
        · exact Int.le_of_lt hq
        · exact Int.le_refl 0
    have hseq : (s.CreateBooking now w userID eventID q).1.db.nextBookingID ≠ 0 := by
      rw [hn]; omega
    have hevID : ev.ID = eventID := findRow_key Event.ID eventID _ ev hev
    by_cases hee : eventID = eid
    · subst hee
      have hsame : ev = e := by rw [hev] at hfe; exact Option.some.inj hfe
      subst hsame
      have hw : wrapInt (ev.TotalTickets - q) = ev.TotalTickets - q :=
        wrapInt_of_range (ev.TotalTickets - q) (by omega) (by omega)
      rw [hw] at he
      have hfind : findRow Event.ID eventID (s.CreateBooking now w userID eventID q).1.db.events =
          some { ev with TotalTickets := ev.TotalTickets - q, UpdatedAt := now } := by
        rw [he]
        exact findRow_eventUpdate_key now w.db
          { ev with TotalTickets := ev.TotalTickets - q } eventID hevID heid
      refine ⟨⟨{ ev with TotalTickets := ev.TotalTickets - q, UpdatedAt := now },
        hfind, ?_, ?_⟩, hrows, hseq⟩
      · show 0 ≤ ev.TotalTickets - q
        omega
      · show ev.TotalTickets - q + _ ≤ T
        rw [hbk, pendingQuantity_append]
        simp only [pendingQuantity, heldBy, Booking.row, and_self, if_true]
        omega
    · have hne : ev.ID ≠ eid := by rw [hevID]; exact hee
      have hfind := findRow_eventUpdate_ne now w.db
        { ev with TotalTickets := wrapInt (ev.TotalTickets - q) } e eid hne hfe
      rw [← he] at hfind
      refine ⟨⟨e, hfind, he0, ?_⟩, hrows, hseq⟩
      rw [hbk, pendingQuantity_append]
      simp only [pendingQuantity, heldBy, Booking.row, hee, false_and, if_false]
      omega

theorem pendingQuantity_eq_zero (eid : Nat) (bs : List Booking)
    (h : ∀ b ∈ bs, b.EventID ≠ eid) : pendingQuantity eid bs = 0 := by
  induction bs with
  | nil => rfl
  | cons x xs ih =>
    have hx := heldBy_of_event eid x (h x (List.mem_cons_self _ _))
    have := ih (fun b hb => h b (List.mem_cons_of_mem _ hb))
    simp only [pendingQuantity, hx, this]
    rfl

/-- What `updateBookingStatus` leaves in the store, whatever status is requested, when the
store refuses the event lookup by booking. -/
theorem updateBookingStatus_refused (qs : QueueService) (now : Time) (db : DB) (id : Nat)
    (status : String) (href : qs.lookupRefused) :
    (qs.updateBookingStatus now db id status).1 = db ∨
    ∃ b bk : Booking, findRow Booking.ID id db.bookings = some b ∧
      bk.ID = b.ID ∧ bk.EventID = b.EventID ∧ bk.Status = "status" ∧
      (qs.updateBookingStatus now db id status).1 = (BookingRepository.Update now db bk).1 := by
  unfold QueueService.updateBookingStatus
  simp only [BookingRepository.FindById]
  cases hb : findRow Booking.ID id db.bookings with
  | none => left; rfl
  | some b =>
    by_cases hst : b.Status = "status"
    · left; simp [hst]
    · right
      obtain ⟨msg, hmsg⟩ := href db b.EventID
      refine ⟨b, { b with Status := "status",
                          User := (findRow User.ID b.UserID db.users).getD {},
                          Event := (findRow Event.ID b.EventID db.events).getD {} },
        rfl, rfl, rfl, rfl, ?_⟩
      by_cases hf : status = "FAILED"
      · simp [hst, hf, hmsg]
      · simp [hst, hf]

theorem ledger_checkTimeoutKey {eid : Nat} {T : Int} (qs : QueueService) (now : Time)
    (w : World) (key : String) (href : qs.lookupRefused) (hL : Ledger eid T w.db) :
    Ledger eid T (qs.checkTimeoutKey now w key).db := by
  have hfailed : ∀ id : Nat, Ledger eid T (qs.updateBookingStatus now w.db id "FAILED").1 := by
    intro id
    rcases updateBookingStatus_refused qs now w.db id "FAILED" href with
      h | ⟨b, bk, hb, hid, hev, hst, h⟩
    · rw [h]; exact hL
    · rw [h]
      exact (ledger_demote hL now id b bk hb hid hev (by rw [hst]; decide)
        (bookingUpdate_events now w.db bk) rfl rfl).1
  unfold QueueService.checkTimeoutKey
  split
  · exact hL
  · split
    · split
      · exact hfailed _
      · split
        · exact hfailed _
        · exact hL
    · exact hL

theorem ledger_timeoutCheck {eid : Nat} {T : Int} (qs : QueueService) (now : Time)
    (w : World) (href : qs.lookupRefused) (hL : Ledger eid T w.db) :
    Ledger eid T (qs.timeoutCheck now w).db := by
  have hfold : ∀ (keys : List String) (w1 : World), Ledger eid T w1.db →
      Ledger eid T (keys.foldl (fun w2 key => qs.checkTimeoutKey now w2 key) w1).db := by
    intro keys
    induction keys with
    | nil => intro w1 h; exact h
    | cons k ks ih =>
      intro w1 h
      exact ih _ (ledger_checkTimeoutKey qs now w1 k href h)
  unfold QueueService.timeoutCheck
  split
  · exact hL
  · split
    · exact hL
    · exact hfold _ w hL

theorem ledger_step {eid : Nat} {T : Int} (s : bookingService) (qs : QueueService)
    (w : World) (c : Time × Op) (heid : eid ≠ 0) (hT : T < 9223372036854775808)
    (hc : c.2.admitted = true) (hsw : c.2 = Op.sweep → qs.lookupRefused)
    (hL : Ledger eid T w.db) :
    Ledger eid T (step s qs w c).db := by
  obtain ⟨now, op⟩ := c
  cases op with
  | create userID eventID quantity =>
    have hq : 0 < quantity := by simpa [Op.admitted] using hc
    exact ledger_createBooking s now w userID eventID quantity heid hT hq hL
  | cancel id => exact ledger_cancelBooking s now w id heid hT hL
  | confirm id => exact ledger_confirmBooking s now w id hL
  | process job => exact ledger_processPayment qs now w job hL
  | sweep => exact ledger_timeoutCheck qs now w (hsw rfl) hL

theorem ledger_run {eid : Nat} {T : Int} (s : bookingService) (qs : QueueService)
    (calls : List (Time × Op)) (heid : eid ≠ 0) (hT : T < 9223372036854775808) :
    ∀ w : World, (∀ c ∈ calls, c.2.admitted = true) →
      (∀ c ∈ calls, c.2 = Op.sweep → qs.lookupRefused) → Ledger eid T w.db →
      Ledger eid T (run s qs w calls).db := by
  induction calls with
  | nil => intro w _ _ hL; exact hL
  | cons c cs ih =>
    intro w hc hsw hL
    have h1 := ledger_step s qs w c heid hT (hc c (List.mem_cons_self _ _))
      (hsw c (List.mem_cons_self _ _)) hL
    exact ih (step s qs w c) (fun d hd => hc d (List.mem_cons_of_mem _ hd))
      (fun d hd => hsw d (List.mem_cons_of_mem _ hd)) h1

/-! ## The remaining count stays within the total -/

/-- C5, as stated, fails: one `CreateBooking` with quantity `-5` on `demoEvent`, created with
ten tickets and no booking, leaves it with fifteen. -/
theorem remaining_exceeds_total :
    demoWorld.db.events.map (fun e => e.TotalTickets) = [10] ∧
    demoWorld.db.bookings.length = 0 ∧
    (run demoService demoQueue demoWorld [(5, .create 1 1 (-5))]).db.events.map
      (fun e => e.TotalTickets) = [15] ∧
    ¬ ((15 : Int) ≤ 10) := by
  refine ⟨?_, ?_, ?_, ?_⟩ <;> decide

/-- C5, amended: for an event with total `T ≥ 0` that no booking refers to yet, after every
sequence of `CreateBooking` calls with a quantity above zero, `CancelBooking`,
`ConfirmBooking`, jobs handled by the worker and sweeps of the timeout checker, run one
after the other, the event's remaining count `r` satisfies `0 ≤ r ≤ T`; the sweeps are those
in which the store refuses the event lookup by booking, as it does with the query of the
repository. -/
theorem remaining_within_total (s : bookingService) (qs : QueueService) (w0 : World)
    (eid : Nat) (e0 : Event) (T : Int) (calls : List (Time × Op))
    (hT0 : 0 ≤ T) (hT : T < 9223372036854775808) (heid : eid ≠ 0)
    (he : findRow Event.ID eid w0.db.events = some e0) (hTT : e0.TotalTickets = T)
    (hnew : ∀ b ∈ w0.db.bookings, b.EventID ≠ eid) (hseq : w0.db.nextBookingID ≠ 0)
    (hq : ∀ c ∈ calls, c.2.admitted = true)
    (hsw : ∀ c ∈ calls, c.2 = Op.sweep → qs.lookupRefused) :
    ∃ e, findRow Event.ID eid (run s qs w0 calls).db.events = some e ∧
      0 ≤ e.TotalTickets ∧ e.TotalTickets ≤ T := by
  have h0 : Ledger eid T w0.db := by
    refine ⟨⟨e0, he, by omega, ?_⟩, ?_, hseq⟩
    · rw [pendingQuantity_eq_zero eid _ hnew]; omega
    · intro b hb
      exact ⟨by rw [heldBy_of_event eid b (hnew b hb)], fun h => absurd h (hnew b hb)⟩
  have hL := ledger_run s qs calls heid hT w0 hq hsw h0
  obtain ⟨e, hfe, he0, heT⟩ := hL.event
  have hp : 0 ≤ pendingQuantity eid (run s qs w0 calls).db.bookings :=
    pendingQuantity_nonneg eid _ (fun x hx => (hL.rows x hx).1)
  exact ⟨e, hfe, he0, by omega⟩

/-- Witness of C5, amended: the run `demoCalls` on `demoWorld`. -/
theorem remaining_within_total_witness :
    ∃ e, findRow Event.ID 1 (run demoService demoQueue demoWorld demoCalls).db.events = some e ∧
      0 ≤ e.TotalTickets ∧ e.TotalTickets ≤ 10 :=
  remaining_within_total demoService demoQueue demoWorld 1 demoEvent 10 demoCalls
    (by decide) (by decide) (by decide) rfl rfl (by decide) (by decide) (by decide)
    (fun _ _ _ _ _ => ⟨_, rfl⟩)

/-! ## The settlement worker, job by job -/

theorem bookingUpdate_payments (now : Time) (db : DB) (bk : Booking) :
    (BookingRepository.Update now db bk).1.payments = db.payments := by
  unfold BookingRepository.Update BookingRepository.Create
  split <;> rfl

/-- The store the worker leaves after one job: the store `updateBookingStatus` leaves when
the payment is seen as Completed or Failed, the initial store otherwise. -/
theorem processPayment_db (qs : QueueService) (now : Time) (w : World) (job : PaymentJob) :
    (qs.processPayment now w job).1.db =
      match PaymentRepository.FindByBookingID w.db job.BookingID with
      | .error _ => w.db
      | .ok payment =>
        if payment.Status = PaymentStatusCompleted then
          (qs.updateBookingStatus now w.db job.BookingID BookingStatusConfirmed).1
        else if payment.Status = PaymentStatusFailed then
          (qs.updateBookingStatus now w.db job.BookingID BookingStatusCancelled).1
        else w.db := by
  have key : ∀ status : String,
      ((match qs.updateBookingStatus now w.db job.BookingID status with
        | (db1, Outcome.error e) => (({ w with db := db1 } : World), (Outcome.error e : Outcome Unit))
        | (db1, Outcome.crash e) => ({ w with db := db1 }, Outcome.crash e)
        | (db1, Outcome.ok _) =>
          if qs.redis = false then ({ w with db := db1 }, Outcome.error "Redis instance is nil")
          else if w.redis.client = false then
            ({ w with db := db1 }, Outcome.crash "nil pointer dereference")
          else ({ db := db1, redis := w.redis.Del (timeoutKey job.BookingID) },
                Outcome.ok ())).1.db =
        (qs.updateBookingStatus now w.db job.BookingID status).1) := by
    intro status
    split
    · rename_i heq; rw [heq]
    · rename_i heq; rw [heq]
    · rename_i heq; rw [heq]
      split
      · rfl
      · split <;> rfl
  unfold QueueService.processPayment
  cases hp : PaymentRepository.FindByBookingID w.db job.BookingID with
  | error e => rfl
  | ok payment =>
    simp only []
    by_cases h1 : payment.Status = PaymentStatusCompleted
    · rw [if_pos h1, if_pos h1]
      exact key BookingStatusConfirmed
    · by_cases h2 : payment.Status = PaymentStatusFailed
      · rw [if_neg h1, if_pos h2, if_neg h1, if_pos h2]
        exact key BookingStatusCancelled
      · rw [if_neg h1, if_neg h2, if_neg h1, if_neg h2]

/-- The worker never writes an event: whatever the job and the store, the events table after
`processPayment` is the one before. -/
theorem processPayment_events (qs : QueueService) (now : Time) (w : World) (job : PaymentJob) :
    (qs.processPayment now w job).1.db.events = w.db.events := by
  rcases processPayment_effect qs now w job with h | ⟨b, bk, _, _, _, _, h⟩
  · rw [h]
  · rw [h, bookingUpdate_events]

/-- The worker never writes a payment. -/
theorem processPayment_payments (qs : QueueService) (now : Time) (w : World)
    (job : PaymentJob) : (qs.processPayment now w job).1.db.payments = w.db.payments := by
  rcases processPayment_effect qs now w job with h | ⟨b, bk, _, _, _, _, h⟩
  · rw [h]
  · rw [h, bookingUpdate_payments]

/-- C11, on the code: `demoBooking` is Pending with quantity 3 and its event stands at 7;
when the worker handles its job while the payment is seen as Failed, the event still stands
at 7, not 10, whether or not the store answers the event lookup by booking: `processPayment`
asks for "CANCELLED" and `updateBookingStatus` releases tickets only for "FAILED". -/
theorem processPayment_failed_keeps_count :
    findRow Booking.ID 1 (settledWorld PaymentStatusFailed).db.bookings = some demoBooking ∧
    demoBooking.Status = BookingStatusPending ∧ demoBooking.Quantity = 3 ∧
    (settledWorld PaymentStatusFailed).db.payments.map (fun p => p.Status) =
      [PaymentStatusFailed] ∧
    (settledWorld PaymentStatusFailed).db.events.map (fun e => e.TotalTickets) = [7] ∧
    (answeringQueue.processPayment 7 (settledWorld PaymentStatusFailed) demoJob).1.db.events.map
      (fun e => e.TotalTickets) = [7] ∧
    (demoQueue.processPayment 7 (settledWorld PaymentStatusFailed) demoJob).1.db.events.map
      (fun e => e.TotalTickets) = [7] := by
  refine ⟨rfl, rfl, rfl, ?_, ?_, ?_, ?_⟩ <;> decide

/-- C13: when the worker handles a job whose payment is Pending, `processPayment` returns
without error and the world is the one it started from: booking, payment, events, timeout
keys and queue are unchanged and nothing is pushed. -/
theorem processPayment_pending_noop (qs : QueueService) (now : Time) (w : World)
    (job : PaymentJob) (p : Payment)
    (hp : findRow Payment.BookingID job.BookingID w.db.payments = some p)
    (hst : p.Status = PaymentStatusPending) :
    qs.processPayment now w job = (w, .ok ()) := by
  unfold QueueService.processPayment
  simp only [PaymentRepository.FindByBookingID, hp]
  have h1 : ¬ p.Status = PaymentStatusCompleted := by rw [hst]; decide
  have h2 : ¬ p.Status = PaymentStatusFailed := by rw [hst]; decide
  rw [if_neg h1, if_neg h2]

/-- Witness of C13: the job of `demoBooking` right after the booking was created. -/
theorem processPayment_pending_noop_witness :
    demoQueue.processPayment 7 bookedWorld demoJob = (bookedWorld, .ok ()) :=
  processPayment_pending_noop demoQueue 7 bookedWorld demoJob demoPayment rfl rfl

/-! ## Handling a job twice -/

theorem updateBookingStatus_absent (qs : QueueService) (now : Time) (db : DB) (id : Nat)
    (status : String) (hb : findRow Booking.ID id db.bookings = none) :
    (qs.updateBookingStatus now db id status).1 = db := by
  unfold QueueService.updateBookingStatus
  simp only [BookingRepository.FindById, hb]

theorem updateBookingStatus_noop (qs : QueueService) (now : Time) (db : DB) (id : Nat)
    (status : String) (b : Booking) (hb : findRow Booking.ID id db.bookings = some b)
    (hst : b.Status = "status") : (qs.updateBookingStatus now db id status).1 = db := by
  unfold QueueService.updateBookingStatus
  simp only [BookingRepository.FindById, hb]
  rw [if_pos hst]

/-- The bookings table `updateBookingStatus` leaves when it finds the booking with a status
other than "status": the row stored again with the status "status". -/
theorem updateBookingStatus_bookings (qs : QueueService) (now : Time) (db : DB) (id : Nat)
    (status : String) (b : Booking) (hb : findRow Booking.ID id db.bookings = some b)
    (hst : b.Status ≠ "status") :
    ∃ bk : Booking, bk.ID = b.ID ∧ bk.EventID = b.EventID ∧ bk.Quantity = b.Quantity ∧
      bk.Status = "status" ∧
      (qs.updateBookingStatus now db id status).1.bookings =
        (BookingRepository.Update now db bk).1.bookings := by
  refine ⟨{ b with Status := "status",
                   User := (findRow User.ID b.UserID db.users).getD {},
                   Event := (findRow Event.ID b.EventID db.events).getD {} },
    rfl, rfl, rfl, rfl, ?_⟩
  unfold QueueService.updateBookingStatus
  simp only [BookingRepository.FindById, hb]
  rw [if_neg hst]
  simp only []
  have hcong : ∀ d : DB, d.bookings = db.bookings → d.nextBookingID = db.nextBookingID →
      ∀ bk : Booking, (BookingRepository.Update now d bk).1.bookings =
        (BookingRepository.Update now db bk).1.bookings := by
    intro d h1 h2 bk
    unfold BookingRepository.Update BookingRepository.Create
    split <;> simp [h1, h2]
  apply hcong
  · split
    · split
      · exact eventUpdate_bookings now db _
      · rfl
    · rfl
  · split
    · split
      · exact eventUpdate_nextBookingID now db _
      · rfl
    · rfl

theorem updateBookingStatus_marks (qs : QueueService) (now : Time) (db : DB) (id : Nat)
    (status : String) (b : Booking) (hid : id ≠ 0)
    (hb : findRow Booking.ID id db.bookings = some b) :
    ∃ b1, findRow Booking.ID id (qs.updateBookingStatus now db id status).1.bookings = some b1 ∧
      b1.Status = "status" := by
  by_cases hst : b.Status = "status"
  · rw [updateBookingStatus_noop qs now db id status b hb hst]
    exact ⟨b, hb, hst⟩
  · obtain ⟨bk, hbk, _, _, hs, heq⟩ := updateBookingStatus_bookings qs now db id status b hb hst
    have hbid : b.ID = id := findRow_key Booking.ID id _ b hb
    have h0 : ¬ bk.ID = 0 := by rw [hbk, hbid]; exact hid
    rw [heq]
    unfold BookingRepository.Update
    rw [if_neg h0]
    refine ⟨Booking.row { bk with UpdatedAt := now }, ?_, hs⟩
    exact findRow_upsertRow_of_key Booking.ID id _ db.bookings (by
      show bk.ID = id
      rw [hbk, hbid])

theorem updateBookingStatus_zero (qs : QueueService) (now : Time) (db : DB)
    (status : String) (b : Booking) (hb : findRow Booking.ID 0 db.bookings = some b) :
    findRow Booking.ID 0 (qs.updateBookingStatus now db 0 status).1.bookings = some b := by
  by_cases hst : b.Status = "status"
  · rw [updateBookingStatus_noop qs now db 0 status b hb hst]
    exact hb
  · obtain ⟨bk, hbk, _, _, _, heq⟩ := updateBookingStatus_bookings qs now db 0 status b hb hst
    have hbid : b.ID = 0 := findRow_key Booking.ID 0 _ b hb
    have h0 : bk.ID = 0 := by rw [hbk, hbid]
    rw [heq]
    unfold BookingRepository.Update
    rw [if_pos h0]
    exact findRow_append_some Booking.ID 0 db.bookings _ b hb

/-- Two calls of `updateBookingStatus` for the same booking, one after the other, leave the
booking with the status the first call left. -/
theorem updateBookingStatus_twice (qs : QueueService) (now1 now2 : Time) (db : DB) (id : Nat)
    (st1 st2 : String) :
    (findRow Booking.ID id
      (qs.updateBookingStatus now2 (qs.updateBookingStatus now1 db id st1).1 id
        st2).1.bookings).map Booking.Status =
    (findRow Booking.ID id (qs.updateBookingStatus now1 db id st1).1.bookings).map
      Booking.Status := by
  cases hb : findRow Booking.ID id db.bookings with
  | none =>
    rw [updateBookingStatus_absent qs now1 db id st1 hb,
      updateBookingStatus_absent qs now2 db id st2 hb]
  | some b =>
    by_cases hid : id = 0
    · subst hid
      have h1 := updateBookingStatus_zero qs now1 db st1 b hb
      have h2 := updateBookingStatus_zero qs now2 _ st2 b h1
      rw [h2, h1]
    · obtain ⟨b1, h1, hs1⟩ := updateBookingStatus_marks qs now1 db id st1 b hid hb
      rw [updateBookingStatus_noop qs now2 _ id st2 b1 h1 hs1]

/-- C14: for every store, every job and every two instants, handling the job a second time
leaves the events table, the payments table and the status of the job's booking as the first
handling left them. -/
theorem processPayment_idempotent (qs : QueueService) (now1 now2 : Time) (w : World)
    (job : PaymentJob) :
    (qs.processPayment now2 (qs.processPayment now1 w job).1 job).1.db.events =
      (qs.processPayment now1 w job).1.db.events ∧
    (qs.processPayment now2 (qs.processPayment now1 w job).1 job).1.db.payments =
      (qs.processPayment now1 w job).1.db.payments ∧
    (findRow Booking.ID job.BookingID
      (qs.processPayment now2 (qs.processPayment now1 w job).1 job).1.db.bookings).map
        Booking.Status =
    (findRow Booking.ID job.BookingID (qs.processPayment now1 w job).1.db.bookings).map
      Booking.Status := by
  refine ⟨processPayment_events qs now2 _ job, processPayment_payments qs now2 _ job, ?_⟩
  have hpay : PaymentRepository.FindByBookingID (qs.processPayment now1 w job).1.db
      job.BookingID = PaymentRepository.FindByBookingID w.db job.BookingID := by
    unfold PaymentRepository.FindByBookingID
    rw [processPayment_payments]
  rw [processPayment_db qs now2 (qs.processPayment now1 w job).1 job, hpay]
  cases hp : PaymentRepository.FindByBookingID w.db job.BookingID with
  | error e => rfl
  | ok payment =>
    simp only []
    have h1 := processPayment_db qs now1 w job
    rw [hp] at h1
    simp only [] at h1
    by_cases hc : payment.Status = PaymentStatusCompleted
    · rw [if_pos hc] at h1 ⊢
      rw [h1]
      exact updateBookingStatus_twice qs now1 now2 w.db job.BookingID _ _
    · by_cases hf : payment.Status = PaymentStatusFailed
      · rw [if_neg hc, if_pos hf] at h1 ⊢
        rw [h1]
        exact updateBookingStatus_twice qs now1 now2 w.db job.BookingID _ _
      · rw [if_neg hc, if_neg hf]

/-! ## The timeout checker -/

/-- C15, on the code: `demoBooking` is Pending with quantity 3, its payment is Pending and its
timeout key expires at `demoExpiry`.  A tick at `demoExpiry`, once the key has expired, does
not list the key: the booking stays Pending and the event stays at 7.  A tick while the key
is live stores the booking with the status "status", not Cancelled, and the event goes to 10
only when the store answers the event lookup by booking. -/
theorem timeoutCheck_expired_marker :
    findRow Booking.ID 1 bookedWorld.db.bookings = some demoBooking ∧
    demoBooking.Status = BookingStatusPending ∧ demoBooking.Quantity = 3 ∧
    bookedWorld.db.payments.map (fun p => p.Status) = [PaymentStatusPending] ∧
    bookedWorld.redis.entries = [⟨timeoutKey 1, "pending", demoExpiry⟩] ∧
    bookedWorld.db.events.map (fun e => e.TotalTickets) = [7] ∧
    (answeringQueue.timeoutCheck demoExpiry bookedWorld).db.bookings.map (fun b => b.Status) =
      [BookingStatusPending] ∧
    (answeringQueue.timeoutCheck demoExpiry bookedWorld).db.events.map
      (fun e => e.TotalTickets) = [7] ∧
    (answeringQueue.timeoutCheck 7 bookedWorld).db.bookings.map (fun b => b.Status) =
      ["status"] ∧
    (demoQueue.timeoutCheck 7 bookedWorld).db.bookings.map (fun b => b.Status) = ["status"] ∧
    (demoQueue.timeoutCheck 7 bookedWorld).db.events.map (fun e => e.TotalTickets) = [7] := by
  refine ⟨rfl, rfl, rfl, ?_, ?_, ?_, ?_, ?_, ?_, ?_, ?_⟩ <;> decide

/-- C16, on the code: in `confirmedWorld` the booking is Confirmed, its payment is Completed
and its timeout key exists.  A tick at instant 7 compares the payment status with "PAID",
so it stores the booking with the status "status", and the event goes from 7 to 10 when the
store answers the event lookup by booking. -/
theorem timeoutCheck_completed_payment :
    confirmedWorld.db.bookings.map (fun b => b.Status) = [BookingStatusConfirmed] ∧
    confirmedWorld.db.payments.map (fun p => p.Status) = [PaymentStatusCompleted] ∧
    confirmedWorld.redis.Exists 7 (timeoutKey 1) = true ∧
    confirmedWorld.db.events.map (fun e => e.TotalTickets) = [7] ∧
    (demoQueue.timeoutCheck 7 confirmedWorld).db.bookings.map (fun b => b.Status) =
      ["status"] ∧
    (answeringQueue.timeoutCheck 7 confirmedWorld).db.bookings.map (fun b => b.Status) =
      ["status"] ∧
    (answeringQueue.timeoutCheck 7 confirmedWorld).db.events.map (fun e => e.TotalTickets) =
      [10] := by
  refine ⟨?_, ?_, ?_, ?_, ?_, ?_, ?_⟩ <;> decide

/-- C17, on the code: the timeout key of `demoBooking` is set at instant 5 with the expiry of
15 minutes that Redis applies.  A tick at instant 7, far less than 15 minutes later, already
changes the booking (from Pending to "status") and, when the event lookup answers, the event
(from 7 to 10); a tick after the 15 minutes finds no key and changes nothing. -/
theorem timeoutCheck_fresh_marker :
    bookedWorld.redis.entries = [⟨timeoutKey 1, "pending", 5 + PaymentTimeout⟩] ∧
    (7 : Time) < 5 + PaymentTimeout ∧
    bookedWorld.db.bookings.map (fun b => b.Status) = [BookingStatusPending] ∧
    bookedWorld.db.events.map (fun e => e.TotalTickets) = [7] ∧
    (answeringQueue.timeoutCheck 7 bookedWorld).db.bookings.map (fun b => b.Status) =
      ["status"] ∧
    (answeringQueue.timeoutCheck 7 bookedWorld).db.events.map (fun e => e.TotalTickets) =
      [10] ∧
    (answeringQueue.timeoutCheck (5 + PaymentTimeout + 60000000000) bookedWorld).db.bookings.map
      (fun b => b.Status) = [BookingStatusPending] ∧
    (answeringQueue.timeoutCheck (5 + PaymentTimeout + 60000000000) bookedWorld).db.events.map
      (fun e => e.TotalTickets) = [7] := by
  refine ⟨?_, ?_, ?_, ?_, ?_, ?_, ?_, ?_⟩ <;> decide

/-- C18, on the code: on the Confirmed booking of `confirmedWorld`, `updateBookingStatus` with
"CONFIRMED" stores the status "status", and with "FAILED" it also takes the event from 7
to 10 when the event lookup answers; on the Cancelled booking of `cancelledWorld` it stores
"status" and takes the event from 10 to 13. -/
theorem updateBookingStatus_terminal :
    confirmedWorld.db.bookings.map (fun b => b.Status) = [BookingStatusConfirmed] ∧
    confirmedWorld.db.events.map (fun e => e.TotalTickets) = [7] ∧
    (demoQueue.updateBookingStatus 7 confirmedWorld.db 1 BookingStatusConfirmed).1.bookings.map
      (fun b => b.Status) = ["status"] ∧
    (answeringQueue.updateBookingStatus 7 confirmedWorld.db 1 "FAILED").1.events.map
      (fun e => e.TotalTickets) = [10] ∧
    cancelledWorld.db.bookings.map (fun b => b.Status) = [BookingStatusCancelled] ∧
    cancelledWorld.db.events.map (fun e => e.TotalTickets) = [10] ∧
    (demoQueue.updateBookingStatus 7 cancelledWorld.db 1 BookingStatusCancelled).1.bookings.map
      (fun b => b.Status) = ["status"] ∧
    (answeringQueue.updateBookingStatus 7 cancelledWorld.db 1 "FAILED").1.events.map
      (fun e => e.TotalTickets) = [13] := by
  refine ⟨?_, ?_, ?_, ?_, ?_, ?_, ?_, ?_⟩ <;> decide

/-! ## Enqueueing a payment job -/

theorem lookup_rpushList_ne (name other : String) (v : PaymentJob)
    (ls : List (String × List PaymentJob)) (h : other ≠ name) :
    (rpushList name v ls).lookup other = ls.lookup other := by
  induction ls with
  | nil =>
    have hne : (other == name) = false := by simpa using h
    simp [rpushList, List.lookup, hne]
  | cons x xs ih =>
    obtain ⟨n, vs⟩ := x
    unfold rpushList
    by_cases hn : n = name
    · subst hn
      have hne : (other == n) = false := by simpa using h
      simp [List.lookup, hne]
    · rw [if_neg hn]
      simp only [List.lookup, ih]

theorem redis_exists_set (r : Redis) (now t : Time) (key value : String) (ttl : Int) :
    (r.Set now key value ttl).Exists t key = decide (t < now + ttl) := by
  simp only [Redis.Set, Redis.Exists, Redis.live, List.filter_append, List.any_append]
  have h1 : (List.filter (fun e => decide (t < e.expireAt))
      (List.filter (fun e => decide (e.key ≠ key)) r.entries)).any
      (fun e => decide (e.key = key)) = false := by
    simp [List.any_eq_false, List.mem_filter]
  rw [h1]
  by_cases ht : t < now + ttl
  · simp [List.filter, ht]
  · simp [List.filter, ht]

/-- C19: when `EnqueuePayment` returns without error for a job with booking id `n`, the list
"payment_queue" is the former list with the job appended at its tail, the other lists are
unchanged, the key "payment:timeout:" followed by the decimal form of `n` is set to
"pending" (any former entry of that key is replaced), and that key exists exactly until 15
minutes after the call. -/
theorem enqueuePayment_appends (s : QueueService) (now : Time) (r : Redis) (job : PaymentJob)
    (hok : (s.EnqueuePayment now r job).2 = .ok ()) :
    (s.EnqueuePayment now r job).1.list "payment_queue" = r.list "payment_queue" ++ [job] ∧
    (∀ name : String, name ≠ "payment_queue" →
      (s.EnqueuePayment now r job).1.list name = r.list name) ∧
    (s.EnqueuePayment now r job).1.entries =
      r.entries.filter (fun e => e.key ≠ "payment:timeout:" ++ Nat.repr job.BookingID) ++
        [⟨"payment:timeout:" ++ Nat.repr job.BookingID, "pending",
          now + 15 * 60 * 1000000000⟩] ∧
    ∀ t : Time, (s.EnqueuePayment now r job).1.Exists t
      ("payment:timeout:" ++ Nat.repr job.BookingID) = decide (t < now + 15 * 60 * 1000000000) := by
  unfold QueueService.EnqueuePayment at hok ⊢
  by_cases hr : s.redis = false
  · rw [if_pos hr] at hok
    cases hok
  · rw [if_neg hr] at hok ⊢
    by_cases hc : r.client = false
    · rw [if_pos hc] at hok
      cases hok
    · rw [if_neg hc] at hok ⊢
      cases hp : r.rpushErr with
      | some e1 =>
        rw [hp] at hok
        cases hok
      | none =>
      cases hs : r.setErr with
      | some e2 =>
        rw [hp, hs] at hok
        cases hok
      | none =>
      simp only []
      refine ⟨?_, ?_, rfl, ?_⟩
      · exact lookup_rpushList "payment_queue" job r.lists
      · intro name hname
        show (((r.RPush QueueName job).Set now (timeoutKey job.BookingID) "pending"
          PaymentTimeout).lists.lookup name).getD [] = (r.lists.lookup name).getD []
        simp only [Redis.Set, Redis.RPush]
        rw [lookup_rpushList_ne QueueName name job r.lists hname]
      · intro t
        exact redis_exists_set (r.RPush QueueName job) now t (timeoutKey job.BookingID)
          "pending" PaymentTimeout

/-- Witness of C19: the job of `demoBooking` pushed at instant 5 on an empty Redis. -/
theorem enqueuePayment_appends_witness :
    (demoQueue.EnqueuePayment 5 {} demoJob).1.list "payment_queue" =
      Redis.list {} "payment_queue" ++ [demoJob] ∧
    (∀ name : String, name ≠ "payment_queue" →
      (demoQueue.EnqueuePayment 5 {} demoJob).1.list name = Redis.list {} name) ∧
    (demoQueue.EnqueuePayment 5 {} demoJob).1.entries =
      (({} : Redis).entries.filter
        (fun e => e.key ≠ "payment:timeout:" ++ Nat.repr demoJob.BookingID)) ++
        [⟨"payment:timeout:" ++ Nat.repr demoJob.BookingID, "pending",
          5 + 15 * 60 * 1000000000⟩] ∧
    ∀ t : Time, (demoQueue.EnqueuePayment 5 {} demoJob).1.Exists t
      ("payment:timeout:" ++ Nat.repr demoJob.BookingID) =
        decide (t < 5 + 15 * 60 * 1000000000) :=
  enqueuePayment_appends demoQueue 5 {} demoJob rfl

/-! ## A failed enqueue -/

/-- C20, as stated, fails: with the Redis server refusing `RPUSH`, and likewise with the
Redis client nil, `CreateBooking` stores the Pending booking and its Pending payment, debits
the event and returns the enqueue error; no timeout key is set, and a tick of the timeout
checker, with Redis still away or back again, before or after the 15 minutes, leaves the
booking Pending. -/
theorem createBooking_orphaned :
    (demoService.CreateBooking 5 refusedWorld 1 1 3).2 =
      .error "dial tcp: connection refused" ∧
    strandedWorld.db.bookings.map (fun b => b.Status) = [BookingStatusPending] ∧
    strandedWorld.db.payments.map (fun p => p.Status) = [PaymentStatusPending] ∧
    strandedWorld.db.events.map (fun e => e.TotalTickets) = [7] ∧
    strandedWorld.redis.entries = [] ∧
    (demoQueue.timeoutCheck 7 strandedWorld).db.bookings.map (fun b => b.Status) =
      [BookingStatusPending] ∧
    (demoQueue.timeoutCheck 7 reconnectedWorld).db.bookings.map (fun b => b.Status) =
      [BookingStatusPending] ∧
    (demoQueue.timeoutCheck (demoExpiry + 60000000000) reconnectedWorld).db.bookings.map
      (fun b => b.Status) = [BookingStatusPending] ∧
    (demoService.CreateBooking 5 downWorld 1 1 3).2 = .error "Redis client is nil" ∧
    orphanWorld.db.bookings.map (fun b => b.Status) = [BookingStatusPending] ∧
    orphanWorld.db.payments.map (fun p => p.Status) = [PaymentStatusPending] ∧
    orphanWorld.db.events.map (fun e => e.TotalTickets) = [7] ∧
    orphanWorld.redis.entries = [] ∧
    (demoQueue.timeoutCheck 7 orphanWorld).db.bookings.map (fun b => b.Status) =
      [BookingStatusPending] ∧
    (demoQueue.timeoutCheck 7 recoveredWorld).db.bookings.map (fun b => b.Status) =
      [BookingStatusPending] ∧
    (demoQueue.timeoutCheck (demoExpiry + 60000000000) recoveredWorld).db.bookings.map
      (fun b => b.Status) = [BookingStatusPending] := by
  refine ⟨rfl, ?_, ?_, ?_, ?_, ?_, ?_, ?_, rfl, ?_, ?_, ?_, ?_, ?_, ?_, ?_⟩ <;> decide

theorem eventUpdate_nextPaymentID (now : Time) (db : DB) (ev : Event) :
    (EventRepository.Update now db ev).1.nextPaymentID = db.nextPaymentID := by
  unfold EventRepository.Update
  split <;> rfl

/-- With the Redis handle set and Redis taking the enqueue commands, the enqueue step
succeeds. -/
theorem enqueuePayment_ok (qs : QueueService) (now : Time) (r : Redis) (job : PaymentJob)
    (hr : qs.redis = true) (hready : r.ready = true) :
    (qs.EnqueuePayment now r job).2 = .ok () := by
  have hflags : r.client = true ∧ r.rpushErr = none ∧ r.setErr = none := by
    simpa [Redis.ready, Bool.and_eq_true, Option.isNone_iff_eq_none, and_assoc] using hready
  simp [QueueService.EnqueuePayment, hr, hflags.1, hflags.2.1, hflags.2.2]

/-- An enqueue step that does not succeed returns an error, and leaves Redis as it was or,
when `SET` was refused after `RPUSH`, with the job pushed. -/
theorem enqueuePayment_fails (qs : QueueService) (now : Time) (r : Redis)
    (hfail : ∀ job : PaymentJob, (qs.EnqueuePayment now r job).2 ≠ .ok ()) :
    ∃ (msg : String) (kept : Bool), ∀ job : PaymentJob,
      qs.EnqueuePayment now r job =
        (if kept then r else r.RPush QueueName job, .error msg) := by
  cases hr : qs.redis with
  | false =>
    exact ⟨"QueueService redis instance is nil", true,
      fun job => by simp [QueueService.EnqueuePayment, hr]⟩
  | true =>
    cases hc : r.client with
    | false =>
      exact ⟨"Redis client is nil", true,
        fun job => by simp [QueueService.EnqueuePayment, hr, hc]⟩
    | true =>
      cases hp : r.rpushErr with
      | some e1 =>
        exact ⟨e1, true, fun job => by simp [QueueService.EnqueuePayment, hr, hc, hp]⟩
      | none =>
        cases hs : r.setErr with
        | some e2 =>
          exact ⟨e2, false, fun job => by simp [QueueService.EnqueuePayment, hr, hc, hp, hs]⟩
        | none =>
          exfalso
          exact hfail {} (enqueuePayment_ok qs now r {} hr
            (by simp [Redis.ready, hc, hp, hs]))

/-- The keys that `KEYS` lists are keys of entries. -/
theorem mem_keys (r : Redis) (now : Time) (pre key : String)
    (h : key ∈ r.Keys now pre) : ∃ x ∈ r.entries, x.key = key := by
  unfold Redis.Keys Redis.live at h
  simp only [List.mem_map, List.mem_filter] at h
  obtain ⟨x, ⟨⟨hx, _⟩, _⟩, hk⟩ := h
  exact ⟨x, hx, hk⟩

theorem updateBookingStatus_other (qs : QueueService) (now : Time) (db : DB) (id1 id : Nat)
    (status : String) (x : Booking) (hne : id1 ≠ id)
    (hx : findRow Booking.ID id db.bookings = some x) :
    findRow Booking.ID id (qs.updateBookingStatus now db id1 status).1.bookings = some x := by
  cases hb : findRow Booking.ID id1 db.bookings with
  | none => rw [updateBookingStatus_absent qs now db id1 status hb]; exact hx
  | some b1 =>
    by_cases hst : b1.Status = "status"
    · rw [updateBookingStatus_noop qs now db id1 status b1 hb hst]; exact hx
    · obtain ⟨bk, hbk, _, _, _, heq⟩ :=
        updateBookingStatus_bookings qs now db id1 status b1 hb hst
      have hbid : b1.ID = id1 := findRow_key Booking.ID id1 _ b1 hb
      rw [heq]
      unfold BookingRepository.Update
      by_cases h0 : bk.ID = 0
      · rw [if_pos h0]
        exact findRow_append_some Booking.ID id db.bookings _ x hx
      · rw [if_neg h0]
        refine findRow_upsertRow_ne Booking.ID id _ x db.bookings ?_ hx
        show bk.ID ≠ id
        rw [hbk, hbid]
        exact hne

theorem checkTimeoutKey_other (qs : QueueService) (now : Time) (w : World) (key : String)
    (id : Nat) (x : Booking)
    (hk : ∀ n : Int, Atoi (TrimPrefix key "payment:timeout:") = some n → uintOfInt n ≠ id)
    (hx : findRow Booking.ID id w.db.bookings = some x) :
    findRow Booking.ID id (qs.checkTimeoutKey now w key).db.bookings = some x := by
  unfold QueueService.checkTimeoutKey
  cases ha : Atoi (TrimPrefix key "payment:timeout:") with
  | none => exact hx
  | some n =>
    have hne := hk n ha
    simp only []
    split
    · split
      · exact updateBookingStatus_other qs now w.db _ id "FAILED" x hne hx
      · split
        · exact updateBookingStatus_other qs now w.db _ id "FAILED" x hne hx
        · exact hx
    · exact hx

/-- A tick of the timeout checker leaves untouched every booking that none of the listed keys
names. -/
theorem timeoutCheck_other (qs : QueueService) (now : Time) (w : World) (id : Nat)
    (x : Booking)
    (hk : ∀ key ∈ w.redis.Keys now "payment:timeout:", ∀ n : Int,
      Atoi (TrimPrefix key "payment:timeout:") = some n → uintOfInt n ≠ id)
    (hx : findRow Booking.ID id w.db.bookings = some x) :
    findRow Booking.ID id (qs.timeoutCheck now w).db.bookings = some x := by
  have hfold : ∀ (keys : List String) (w1 : World),
      (∀ key ∈ keys, ∀ n : Int,
        Atoi (TrimPrefix key "payment:timeout:") = some n → uintOfInt n ≠ id) →
      findRow Booking.ID id w1.db.bookings = some x →
      findRow Booking.ID id
        (keys.foldl (fun w2 key => qs.checkTimeoutKey now w2 key) w1).db.bookings = some x := by
    intro keys
    induction keys with
    | nil => intro w1 _ h; exact h
    | cons k ks ih =>
      intro w1 hks h
      exact ih _ (fun key hkey => hks key (List.mem_cons_of_mem _ hkey))
        (checkTimeoutKey_other qs now w1 k id x (hks k (List.mem_cons_self _ _)) h)
  unfold QueueService.timeoutCheck
  split
  · exact hx
  · split
    · exact hx
    · exact hfold _ w hk hx

/-- C20, amended: when the enqueue step fails after the booking and its payment were stored,
because the Redis handle or client is nil or because the server refuses `RPUSH` or `SET`,
`CreateBooking` returns the enqueue error and leaves the booking and its payment stored as
Pending; the call sets no timeout key, so when no earlier key names the new booking, a tick
of the timeout checker at any instant, whatever has become of the Redis connection, leaves
that booking as it is, Pending. -/
theorem enqueue_failure_leaves_pending (s : bookingService) (ps : paymentService)
    (qs : QueueService) (now : Time) (w : World) (userID eventID : Nat) (q : Int)
    (u : User) (e : Event)
    (hps : s.paymentService = some ps) (hqs : s.queueService = some qs)
    (hfail : ∀ job : PaymentJob, (qs.EnqueuePayment now w.redis job).2 ≠ .ok ())
    (hu : findRow User.ID userID w.db.users = some u)
    (he : findRow Event.ID eventID w.db.events = some e)
    (hactive : e.Status = EventStatusActive) (hle : q ≤ e.TotalTickets)
    (hfuture : now ≤ e.StartDate)
    (hfresh : findRow Booking.ID w.db.nextBookingID w.db.bookings = none)
    (hnokey : ∀ x ∈ w.redis.entries, ∀ n : Int,
      Atoi (TrimPrefix x.key "payment:timeout:") = some n →
        uintOfInt n ≠ w.db.nextBookingID) :
    ∃ (msg : String) (b : Booking) (p : Payment),
      (s.CreateBooking now w userID eventID q).2 = .error msg ∧
      b.ID = w.db.nextBookingID ∧
      (s.CreateBooking now w userID eventID q).1.redis.entries = w.redis.entries ∧
      findRow Booking.ID b.ID (s.CreateBooking now w userID eventID q).1.db.bookings = some b ∧
      b.Status = BookingStatusPending ∧ b.Quantity = q ∧ b.EventID = eventID ∧
      (s.CreateBooking now w userID eventID q).1.db.payments = w.db.payments ++ [p] ∧
      p.BookingID = b.ID ∧ p.Status = PaymentStatusPending ∧
      (∀ (qs1 : QueueService) (t : Time),
        findRow Booking.ID b.ID
          (qs1.timeoutCheck t (s.CreateBooking now w userID eventID q).1).db.bookings =
            some b) ∧
      ∀ (qs1 : QueueService) (t : Time) (r1 : Redis),
        r1.entries = (s.CreateBooking now w userID eventID q).1.redis.entries →
        findRow Booking.ID b.ID
          (qs1.timeoutCheck t
            { db := (s.CreateBooking now w userID eventID q).1.db, redis := r1 }).db.bookings =
          some b := by
  have hlt : ¬ e.TotalTickets < q := by omega
  have hst : ¬ e.StartDate < now := Int.not_lt.mpr hfuture
  obtain ⟨msg, kept, hmsg⟩ := enqueuePayment_fails qs now w.redis hfail
  have hrun : s.CreateBooking now w userID eventID q =
      ({ db := (PaymentRepository.Create now
            (EventRepository.Update now
              (BookingRepository.Create now w.db
                { UserID := userID, EventID := eventID, Quantity := q,
                  TotalPrice := Float.ofInt q * e.TicketPrice,
                  Status := BookingStatusPending }).1
              { e with TotalTickets := wrapInt (e.TotalTickets - q) }).1
            { BookingID := w.db.nextBookingID,
              Amount := Float.ofInt q * e.TicketPrice,
              Status := PaymentStatusPending }).1,
         redis := if kept then w.redis
           else w.redis.RPush QueueName
             { BookingID := w.db.nextBookingID, Amount := Float.ofInt q * e.TicketPrice } },
       .error msg) := by
    simp only [bookingService.CreateBooking, UserRepository.FindById, hu,
      EventRepository.FindById, he, hactive, hlt, hst, hps, hqs, ne_eq, not_true_eq_false,
      if_false, paymentService.CreatePayment, hmsg]
    simp [BookingRepository.Create]
  rw [hrun]
  have hentries : (if kept then w.redis
      else w.redis.RPush QueueName
        { BookingID := w.db.nextBookingID,
          Amount := Float.ofInt q * e.TicketPrice }).entries = w.redis.entries := by
    cases kept <;> rfl
  have hfind : findRow Booking.ID w.db.nextBookingID
      (w.db.bookings ++
        [({ ID := w.db.nextBookingID, UserID := userID, EventID := eventID, Quantity := q,
            TotalPrice := Float.ofInt q * e.TicketPrice, Status := BookingStatusPending,
            CreatedAt := now, UpdatedAt := now } : Booking)]) =
      some { ID := w.db.nextBookingID, UserID := userID, EventID := eventID, Quantity := q,
             TotalPrice := Float.ofInt q * e.TicketPrice, Status := BookingStatusPending,
             CreatedAt := now, UpdatedAt := now } := by
    rw [findRow_append_none Booking.ID w.db.nextBookingID w.db.bookings _ hfresh]
    simp
  have hbookings : (PaymentRepository.Create now
            (EventRepository.Update now
              (BookingRepository.Create now w.db
                { UserID := userID, EventID := eventID, Quantity := q,
                  TotalPrice := Float.ofInt q * e.TicketPrice,
                  Status := BookingStatusPending }).1
              { e with TotalTickets := wrapInt (e.TotalTickets - q) }).1
            { BookingID := w.db.nextBookingID,
              Amount := Float.ofInt q * e.TicketPrice,
              Status := PaymentStatusPending }).1.bookings =
      w.db.bookings ++
        [({ ID := w.db.nextBookingID, UserID := userID, EventID := eventID, Quantity := q,
            TotalPrice := Float.ofInt q * e.TicketPrice, Status := BookingStatusPending,
            CreatedAt := now, UpdatedAt := now } : Booking)] := by
    simp [PaymentRepository.Create, eventUpdate_bookings, BookingRepository.Create,
      Booking.row]
  have hsweep : ∀ (qs1 : QueueService) (t : Time) (r1 : Redis),
      r1.entries = w.redis.entries →
      findRow Booking.ID w.db.nextBookingID
        (qs1.timeoutCheck t
          { db := (PaymentRepository.Create now
              (EventRepository.Update now
                (BookingRepository.Create now w.db
                  { UserID := userID, EventID := eventID, Quantity := q,
                    TotalPrice := Float.ofInt q * e.TicketPrice,
                    Status := BookingStatusPending }).1
                { e with TotalTickets := wrapInt (e.TotalTickets - q) }).1
              { BookingID := w.db.nextBookingID,
                Amount := Float.ofInt q * e.TicketPrice,
                Status := PaymentStatusPending }).1,
            redis := r1 }).db.bookings =
        some { ID := w.db.nextBookingID, UserID := userID, EventID := eventID, Quantity := q,
               TotalPrice := Float.ofInt q * e.TicketPrice, Status := BookingStatusPending,
               CreatedAt := now, UpdatedAt := now } := by
    intro qs1 t r1 hr1
    refine timeoutCheck_other qs1 t _ w.db.nextBookingID _ ?_ ?_
    · intro key hkey n hn
      obtain ⟨x, hx, hxk⟩ := mem_keys r1 t "payment:timeout:" key hkey
      rw [hr1] at hx
      rw [← hxk] at hn
      exact hnokey x hx n hn
    · show findRow Booking.ID w.db.nextBookingID _ = _
      rw [hbookings]
      exact hfind
  refine ⟨msg,
    { ID := w.db.nextBookingID, UserID := userID, EventID := eventID, Quantity := q,
      TotalPrice := Float.ofInt q * e.TicketPrice, Status := BookingStatusPending,
      CreatedAt := now, UpdatedAt := now },
    { ID := w.db.nextPaymentID, BookingID := w.db.nextBookingID,
      Amount := Float.ofInt q * e.TicketPrice, Status := PaymentStatusPending,
      CreatedAt := now, UpdatedAt := now },
    rfl, rfl, hentries, ?_, rfl, rfl, rfl, ?_, rfl, rfl, ?_, ?_⟩
  · show findRow Booking.ID w.db.nextBookingID _ = _
    rw [hbookings]
    exact hfind
  · simp [PaymentRepository.Create, eventUpdate_payments, eventUpdate_nextPaymentID,
      BookingRepository.Create]
  · intro qs1 t
    exact hsweep qs1 t _ hentries
  · intro qs1 t r1 hr1
    exact hsweep qs1 t r1 (hr1.trans hentries)

/-- Witness of C20, amended: three tickets of `demoEvent` while the Redis server refuses
`RPUSH`. -/
theorem enqueue_failure_leaves_pending_witness :
    ∃ (msg : String) (b : Booking) (p : Payment),
      (demoService.CreateBooking 5 refusedWorld 1 1 3).2 = .error msg ∧
      b.ID = 1 ∧
      (demoService.CreateBooking 5 refusedWorld 1 1 3).1.redis.entries = [] ∧
      findRow Booking.ID b.ID (demoService.CreateBooking 5 refusedWorld 1 1 3).1.db.bookings =
        some b ∧
      b.Status = BookingStatusPending ∧ b.Quantity = 3 ∧ b.EventID = 1 ∧
      (demoService.CreateBooking 5 refusedWorld 1 1 3).1.db.payments =
        refusedWorld.db.payments ++ [p] ∧
      p.BookingID = b.ID ∧ p.Status = PaymentStatusPending ∧
      (∀ (qs1 : QueueService) (t : Time),
        findRow Booking.ID b.ID
          (qs1.timeoutCheck t (demoService.CreateBooking 5 refusedWorld 1 1 3).1).db.bookings =
            some b) ∧
      ∀ (qs1 : QueueService) (t : Time) (r1 : Redis),
        r1.entries = (demoService.CreateBooking 5 refusedWorld 1 1 3).1.redis.entries →
        findRow Booking.ID b.ID
          (qs1.timeoutCheck t
            { db := (demoService.CreateBooking 5 refusedWorld 1 1 3).1.db,
              redis := r1 }).db.bookings = some b :=
  enqueue_failure_leaves_pending demoService {} demoQueue 5 refusedWorld 1 1 3 demoUser
    demoEvent rfl rfl (fun _ h => by simp [QueueService.EnqueuePayment, refusedWorld, demoQueue] at h)
    rfl rfl rfl (by decide) (by decide) rfl (fun x hx => by simp [refusedWorld] at hx)

/-! ## The booking handlers -/

/-- C22, counterexample: a request for eleven tickets of an event with ten left is refused by
`CreateBooking` with the domain error "not enough tickets available", and so are a request
for an unknown event and one for an event that has started; the endpoint answers each of
them with status 500, not with a 4xx status. -/
theorem createBooking_domain_error_500 :
    (demoService.CreateBooking 5 demoWorld 1 1 11).2 =
      .error "not enough tickets available" ∧
    (BookingHandler.CreateBooking ⟨demoService⟩ 5 demoWorld
        (some { EventID := 1, Quantity := 11 }) (some "test@example.com")).2 =
      .ok { status := 500 } ∧
    (demoService.CreateBooking 5 demoWorld 1 9 1).2 = .error "record not found" ∧
    (BookingHandler.CreateBooking ⟨demoService⟩ 5 demoWorld
        (some { EventID := 9, Quantity := 1 }) (some "test@example.com")).2 =
      .ok { status := 500 } ∧
    (demoService.CreateBooking 5000 demoWorld 1 1 1).2 = .error "event has already started" ∧
    (BookingHandler.CreateBooking ⟨demoService⟩ 5000 demoWorld
        (some { EventID := 1, Quantity := 1 }) (some "test@example.com")).2 =
      .ok { status := 500 } :=
  ⟨rfl, rfl, rfl, rfl, rfl, rfl⟩

/-- C22, amended: the booking-creation endpoint answers 400 when the body does not parse or
fails validation, 401 when the token carries no email claim, and 500 whenever `CreateBooking`
returns an error, whichever error it is: domain errors and infrastructure errors get the
same status. -/
theorem createBooking_error_status (h : BookingHandler) (now : Time) (w : World)
    (req : CreateBookingRequest) (email : String) (u : User) (msg : String)
    (hv : req.valid = true) (hu : UserRepository.FindByEmail w.db email = some u)
    (he : (h.bookingService.CreateBooking now w u.ID req.EventID req.Quantity).2 =
      .error msg) :
    (h.CreateBooking now w (some req) (some email)).2 = .ok { status := 500 } ∧
    (h.CreateBooking now w (some req) none).2 = .ok { status := 401 } ∧
    (h.CreateBooking now w none (some email)).2 = .ok { status := 400 } ∧
    ∀ bad : CreateBookingRequest, bad.valid = false →
      (h.CreateBooking now w (some bad) (some email)).2 = .ok { status := 400 } := by
  refine ⟨?_, ?_, rfl, ?_⟩
  · unfold BookingHandler.CreateBooking
    simp only [hv, Bool.true_eq_false, if_false, hu]
    revert he
    cases h.bookingService.CreateBooking now w u.ID req.EventID req.Quantity with
    | mk w1 out =>
      cases out with
      | ok b => intro he; cases he
      | error e => intro _; rfl
      | crash e => intro he; cases he
  · unfold BookingHandler.CreateBooking
    simp only [hv, Bool.true_eq_false, if_false]
  · intro bad hbad
    unfold BookingHandler.CreateBooking
    simp only [hbad, if_true]

/-- Witness of C22, amended: a valid request for an event that has started. -/
theorem createBooking_error_status_witness :
    (BookingHandler.CreateBooking ⟨demoService⟩ 5000 demoWorld
        (some { EventID := 1, Quantity := 1 }) (some "test@example.com")).2 =
      .ok { status := 500 } ∧
    (BookingHandler.CreateBooking ⟨demoService⟩ 5000 demoWorld
        (some { EventID := 1, Quantity := 1 }) none).2 = .ok { status := 401 } ∧
    (BookingHandler.CreateBooking ⟨demoService⟩ 5000 demoWorld none
        (some "test@example.com")).2 = .ok { status := 400 } ∧
    ∀ bad : CreateBookingRequest, bad.valid = false →
      (BookingHandler.CreateBooking ⟨demoService⟩ 5000 demoWorld (some bad)
        (some "test@example.com")).2 = .ok { status := 400 } :=
  createBooking_error_status ⟨demoService⟩ 5000 demoWorld { EventID := 1, Quantity := 1 }
    "test@example.com" demoUser "event has already started" (by decide) rfl rfl

/-- C23: the handlers of `PUT /bookings/:id/cancel` and `PUT /bookings/:id/confirm` answer
200 exactly when the path segment parses as an unsigned 32-bit decimal integer and the
service call on that id returns a booking, and 400 exactly when the segment does not parse
or the service call returns an error (a service call that panics returns neither, and
there is no answer); when the segment does not parse the answer is 400 with the world
untouched whatever the booking service is, so the service is not called. -/
theorem cancel_confirm_handler_status (h : BookingHandler) (now : Time) (w : World)
    (idParam : String) :
    ((∃ r, (h.CancelBooking now w idParam).2 = .ok r ∧ r.status = 200) ↔
      ∃ id b, ParseUint idParam 32 = some id ∧
        (h.bookingService.CancelBooking now w id).2 = .ok b) ∧
    ((∃ r, (h.CancelBooking now w idParam).2 = .ok r ∧ r.status = 400) ↔
      ParseUint idParam 32 = none ∨ ∃ id msg, ParseUint idParam 32 = some id ∧
        (h.bookingService.CancelBooking now w id).2 = .error msg) ∧
    ((∃ r, (h.ConfirmBooking now w idParam).2 = .ok r ∧ r.status = 200) ↔
      ∃ id b, ParseUint idParam 32 = some id ∧
        (h.bookingService.ConfirmBooking now w id).2 = .ok b) ∧
    ((∃ r, (h.ConfirmBooking now w idParam).2 = .ok r ∧ r.status = 400) ↔
      ParseUint idParam 32 = none ∨ ∃ id msg, ParseUint idParam 32 = some id ∧
        (h.bookingService.ConfirmBooking now w id).2 = .error msg) ∧
    (ParseUint idParam 32 = none → ∀ h2 : BookingHandler,
      h2.CancelBooking now w idParam = (w, .ok { status := 400 }) ∧
      h2.ConfirmBooking now w idParam = (w, .ok { status := 400 })) := by
  refine ⟨?_, ?_, ?_, ?_, ?_⟩
  · unfold BookingHandler.CancelBooking
    cases hp : ParseUint idParam 32 with
    | none => simp
    | some id =>
      cases hs : h.bookingService.CancelBooking now w id with
      | mk w1 out => cases out <;> simp [hs]
  · unfold BookingHandler.CancelBooking
    cases hp : ParseUint idParam 32 with
    | none => simp
    | some id =>
      cases hs : h.bookingService.CancelBooking now w id with
      | mk w1 out => cases out <;> simp [hs]
  · unfold BookingHandler.ConfirmBooking
    cases hp : ParseUint idParam 32 with
    | none => simp
    | some id =>
      cases hs : h.bookingService.ConfirmBooking now w id with
      | mk w1 out => cases out <;> simp [hs]
  · unfold BookingHandler.ConfirmBooking
    cases hp : ParseUint idParam 32 with
    | none => simp
    | some id =>
      cases hs : h.bookingService.ConfirmBooking now w id with
      | mk w1 out => cases out <;> simp [hs]
  · intro hp h2
    simp [BookingHandler.CancelBooking, BookingHandler.ConfirmBooking, hp]

/-- Witness of C23: on a world with the Pending booking 1 the segment `1` gives 200 on both
routes; the segments `abc`, `-1` and `4294967296` do not parse and give 400; the segment `7`
names no booking and gives 400. -/
theorem cancel_confirm_handler_status_witness :
    (∃ r, (BookingHandler.CancelBooking ⟨demoService⟩ 6 bookedWorld "1").2 = .ok r ∧
      r.status = 200) ∧
    (∃ r, (BookingHandler.ConfirmBooking ⟨demoService⟩ 6 bookedWorld "1").2 = .ok r ∧
      r.status = 200) ∧
    (∃ r, (BookingHandler.CancelBooking ⟨demoService⟩ 6 bookedWorld "7").2 = .ok r ∧
      r.status = 400) ∧
    (∃ r, (BookingHandler.CancelBooking ⟨demoService⟩ 6 bookedWorld "abc").2 = .ok r ∧
      r.status = 400) ∧
    (∃ r, (BookingHandler.ConfirmBooking ⟨demoService⟩ 6 bookedWorld "-1").2 = .ok r ∧
      r.status = 400) ∧
    (∃ r, (BookingHandler.ConfirmBooking ⟨demoService⟩ 6 bookedWorld "4294967296").2 = .ok r ∧
      r.status = 400) :=
  ⟨(cancel_confirm_handler_status ⟨demoService⟩ 6 bookedWorld "1").1.mpr
      ⟨1, _, by decide, rfl⟩,
    (cancel_confirm_handler_status ⟨demoService⟩ 6 bookedWorld "1").2.2.1.mpr
      ⟨1, _, by decide, rfl⟩,
    (cancel_confirm_handler_status ⟨demoService⟩ 6 bookedWorld "7").2.1.mpr
      (Or.inr ⟨7, "record not found", by decide, rfl⟩),
    (cancel_confirm_handler_status ⟨demoService⟩ 6 bookedWorld "abc").2.1.mpr
      (Or.inl (by decide)),
    (cancel_confirm_handler_status ⟨demoService⟩ 6 bookedWorld "-1").2.2.2.1.mpr
      (Or.inl (by decide)),
    (cancel_confirm_handler_status ⟨demoService⟩ 6 bookedWorld "4294967296").2.2.2.1.mpr
      (Or.inl (by decide))⟩

/-! ## The constructor of the booking service -/

/-- C27 (code bug): `NewBookingService` sets neither the payment service nor the queue
service.  On the request for three tickets of `demoEvent`, which `CreateBooking` of a fully
wired service answers with the booking, `CreateBooking` of the constructed service stores
the booking, debits the event and then dereferences the nil payment service: it panics, no
payment is created and no booking is returned. -/
theorem newBookingService_createBooking_panics :
    NewBookingService.paymentService.isNone = true ∧
    NewBookingService.queueService.isNone = true ∧
    (demoService.CreateBooking 5 demoWorld 1 1 3).2 = .ok demoBooking ∧
    (NewBookingService.CreateBooking 5 demoWorld 1 1 3).2 =
      .crash "nil pointer dereference" ∧
    (NewBookingService.CreateBooking 5 demoWorld 1 1 3).1.db.bookings.map
      (fun b => (b.ID, b.Quantity, b.Status)) = [(1, 3, BookingStatusPending)] ∧
    (NewBookingService.CreateBooking 5 demoWorld 1 1 3).1.db.events.map
      (fun e => e.TotalTickets) = [7] ∧
    (NewBookingService.CreateBooking 5 demoWorld 1 1 3).1.db.payments.length = 0 := by
  refine ⟨rfl, rfl, rfl, rfl, ?_, ?_, ?_⟩ <;> decide

/-! ## The payment service -/

/-- Saving a stored payment again leaves every stored payment with the status it had. -/
theorem updatePayment_keeps_status (now : Time) (db : DB) (q x : Payment)
    (hq : findRow Payment.ID q.ID db.payments = some q)
    (hx : findRow Payment.ID x.ID db.payments = some x) :
    (findRow Payment.ID x.ID (PaymentRepository.UpdatePayment now db q).1.payments).map
      Payment.Status = some x.Status := by
  unfold PaymentRepository.UpdatePayment
  by_cases h0 : q.ID = 0
  · rw [if_pos h0]
    unfold PaymentRepository.Create
    simp only
    rw [findRow_append_some Payment.ID x.ID db.payments _ x hx]
    rfl
  · rw [if_neg h0]
    simp only
    by_cases hqx : q.ID = x.ID
    · rw [hqx] at hq
      have hqe : q = x := Option.some.inj (hq.symm.trans hx)
      subst hqe
      rw [findRow_upsertRow_of_key Payment.ID q.ID { q with UpdatedAt := now } db.payments rfl]
      rfl
    · rw [findRow_upsertRow_ne Payment.ID x.ID { q with UpdatedAt := now } x db.payments hqx hx]
      rfl

/-- After `ConfirmPayment` a stored payment is Completed when the call named it, and has the
status it had otherwise. -/
theorem confirmPayment_status (ps : paymentService) (now : Time) (db : DB) (arg x : Payment)
    (hx : findRow Payment.ID x.ID db.payments = some x) :
    (findRow Payment.ID x.ID (ps.ConfirmPayment now db arg).1.payments).map Payment.Status =
      some (if arg.ID = x.ID ∧ x.ID ≠ 0 then PaymentStatusCompleted else x.Status) := by
  unfold paymentService.ConfirmPayment PaymentRepository.FindById
  cases hf : findRow Payment.ID arg.ID db.payments with
  | none =>
    have hne : ¬ (arg.ID = x.ID ∧ x.ID ≠ 0) := by
      rintro ⟨h1, _⟩
      rw [h1, hx] at hf
      cases hf
    simp only [if_neg hne, hx, Option.map_some']
  | some q =>
    have hqk : q.ID = arg.ID := findRow_key Payment.ID arg.ID db.payments q hf
    simp only
    unfold PaymentRepository.UpdatePayment
    by_cases h0 : q.ID = 0
    · have hne : ¬ (arg.ID = x.ID ∧ x.ID ≠ 0) := by
        rintro ⟨h1, h2⟩
        exact h2 (by rw [← h1, ← hqk]; exact h0)
      rw [if_neg hne]
      simp only [h0, if_true]
      unfold PaymentRepository.Create
      simp only
      rw [findRow_append_some Payment.ID x.ID db.payments _ x hx]
      rfl
    · simp only [h0, if_false]
      by_cases hqx : q.ID = x.ID
      · have hyes : arg.ID = x.ID ∧ x.ID ≠ 0 := ⟨hqk ▸ hqx, fun h => h0 (hqx.trans h)⟩
        rw [if_pos hyes]
        have key := findRow_upsertRow_of_key Payment.ID x.ID
          ({ q with Status := PaymentStatusCompleted, UpdatedAt := now } : Payment)
          db.payments hqx
        rw [key]
        rfl
      · have hne : ¬ (arg.ID = x.ID ∧ x.ID ≠ 0) := by
          rintro ⟨h1, _⟩
          exact hqx (hqk.trans h1)
        rw [if_neg hne]
        have key := findRow_upsertRow_ne Payment.ID x.ID
          ({ q with Status := PaymentStatusCompleted, UpdatedAt := now } : Payment) x
          db.payments hqx hx
        rw [key]
        rfl

/-- After `CancelPayment` every stored payment has the status it had, in a store whose
payments have distinct keys. -/
theorem cancelPayment_status (ps : paymentService) (now : Time) (db : DB) (arg x : Payment)
    (hkeys : ∀ y ∈ db.payments, findRow Payment.ID y.ID db.payments = some y)
    (hx : findRow Payment.ID x.ID db.payments = some x) :
    (findRow Payment.ID x.ID (ps.CancelPayment now db arg).1.payments).map Payment.Status =
      some x.Status := by
  unfold paymentService.CancelPayment PaymentRepository.FindByBookingID
  cases hf : findRow Payment.BookingID arg.BookingID db.payments with
  | none => simp only [hx, Option.map_some']
  | some q =>
    simp only
    exact updatePayment_keeps_status now db q x
      (hkeys q (findRow_mem Payment.BookingID arg.BookingID db.payments q hf)) hx

/-- C24, counterexample: the payment of `demoBooking` is stored as Failed; `ConfirmPayment`
called with its key returns without error and the stored payment is Completed. -/
theorem confirmPayment_failed_to_completed :
    (settledWorld PaymentStatusFailed).db.payments.map (fun p => (p.ID, p.Status)) =
      [(1, PaymentStatusFailed)] ∧
    (paymentService.ConfirmPayment {} 9 (settledWorld PaymentStatusFailed).db { ID := 1 }).2 =
      .ok () ∧
    (paymentService.ConfirmPayment {} 9 (settledWorld PaymentStatusFailed).db
      { ID := 1 }).1.payments.map (fun p => (p.ID, p.Status)) =
      [(1, PaymentStatusCompleted)] := by
  refine ⟨?_, rfl, ?_⟩ <;> decide

/-- C24, amended: Completed is final and Failed is not.  In a store whose payments have
distinct keys, `CancelPayment` leaves the stored status of every payment as it was, and
`ConfirmPayment` leaves a Completed payment Completed; but `ConfirmPayment` has no guard on
the current status: called with the key of a stored payment it returns without error and
stores that payment as Completed, whether it was Pending, Failed or Completed. -/
theorem payment_completed_final (ps : paymentService) (now : Time) (db : DB)
    (p arg : Payment)
    (hkeys : ∀ y ∈ db.payments, findRow Payment.ID y.ID db.payments = some y)
    (hp : p ∈ db.payments) (hid : p.ID ≠ 0) :
    (findRow Payment.ID p.ID (ps.CancelPayment now db arg).1.payments).map Payment.Status =
      some p.Status ∧
    (p.Status = PaymentStatusCompleted →
      (findRow Payment.ID p.ID (ps.ConfirmPayment now db arg).1.payments).map Payment.Status =
        some PaymentStatusCompleted) ∧
    (arg.ID = p.ID →
      (ps.ConfirmPayment now db arg).2 = .ok () ∧
      (findRow Payment.ID p.ID (ps.ConfirmPayment now db arg).1.payments).map Payment.Status =
        some PaymentStatusCompleted) := by
  have hx := hkeys p hp
  refine ⟨cancelPayment_status ps now db arg p hkeys hx, ?_, ?_⟩
  · intro hst
    rw [confirmPayment_status ps now db arg p hx]
    split
    · rfl
    · rw [hst]
  · intro harg
    constructor
    · unfold paymentService.ConfirmPayment PaymentRepository.FindById
      rw [harg, hx]
    · rw [confirmPayment_status ps now db arg p hx, if_pos ⟨harg, hid⟩]

/-- Witness of C24, amended: the Failed payment of `demoBooking`. -/
theorem payment_completed_final_witness :
    (findRow Payment.ID 1 (paymentService.CancelPayment {} 9 (settledWorld PaymentStatusFailed).db
      { ID := 1, BookingID := 1 }).1.payments).map Payment.Status = some PaymentStatusFailed ∧
    (PaymentStatusFailed = PaymentStatusCompleted →
      (findRow Payment.ID 1 (paymentService.ConfirmPayment {} 9
        (settledWorld PaymentStatusFailed).db { ID := 1, BookingID := 1 }).1.payments).map
          Payment.Status = some PaymentStatusCompleted) ∧
    ((1 : Nat) = 1 →
      (paymentService.ConfirmPayment {} 9 (settledWorld PaymentStatusFailed).db
        { ID := 1, BookingID := 1 }).2 = .ok () ∧
      (findRow Payment.ID 1 (paymentService.ConfirmPayment {} 9
        (settledWorld PaymentStatusFailed).db { ID := 1, BookingID := 1 }).1.payments).map
          Payment.Status = some PaymentStatusCompleted) :=
  payment_completed_final {} 9 (settledWorld PaymentStatusFailed).db
    { demoPayment with Status := PaymentStatusFailed } { ID := 1, BookingID := 1 }
    (by intro y hy; rw [List.mem_singleton.mp hy]; rfl) (List.mem_singleton.mpr rfl)
    (by decide)

/-- C29: `CancelPayment` looks the payment up by the `BookingID` of its argument and by
nothing else of it; when the lookup fails it returns "payment not found" and the store is as
it was; when the lookup finds a payment it saves that very record and returns without
error; and, in a store whose payments have distinct keys, every stored payment has
afterwards the status it had. -/
theorem cancelPayment_keeps_status (ps : paymentService) (now : Time) (db : DB)
    (arg : Payment)
    (hkeys : ∀ y ∈ db.payments, findRow Payment.ID y.ID db.payments = some y) :
    (∀ x ∈ db.payments,
      (findRow Payment.ID x.ID (ps.CancelPayment now db arg).1.payments).map Payment.Status =
        some x.Status) ∧
    (∀ other : Payment, other.BookingID = arg.BookingID →
      ps.CancelPayment now db other = ps.CancelPayment now db arg) ∧
    (findRow Payment.BookingID arg.BookingID db.payments = none →
      ps.CancelPayment now db arg = (db, .error "payment not found")) ∧
    (∀ q, findRow Payment.BookingID arg.BookingID db.payments = some q →
      ps.CancelPayment now db arg = ((PaymentRepository.UpdatePayment now db q).1, .ok ()) ∧
      (q.ID ≠ 0 → findRow Payment.ID q.ID (ps.CancelPayment now db arg).1.payments =
        some { q with UpdatedAt := now })) := by
  refine ⟨?_, ?_, ?_, ?_⟩
  · intro x hx
    exact cancelPayment_status ps now db arg x hkeys (hkeys x hx)
  · intro other ho
    unfold paymentService.CancelPayment
    rw [ho]
  · intro hf
    unfold paymentService.CancelPayment PaymentRepository.FindByBookingID
    rw [hf]
  · intro q hf
    have heq : ps.CancelPayment now db arg =
        ((PaymentRepository.UpdatePayment now db q).1, .ok ()) := by
      unfold paymentService.CancelPayment PaymentRepository.FindByBookingID
      rw [hf]
    refine ⟨heq, ?_⟩
    intro h0
    rw [heq]
    unfold PaymentRepository.UpdatePayment
    rw [if_neg h0]
    exact findRow_upsertRow_of_key Payment.ID q.ID { q with UpdatedAt := now } db.payments rfl

/-- Witness of C29: the Pending payment of `demoBooking`, cancelled with an argument that
carries another key and the status Failed. -/
theorem cancelPayment_keeps_status_witness :
    (∀ x ∈ bookedWorld.db.payments,
      (findRow Payment.ID x.ID (paymentService.CancelPayment {} 9 bookedWorld.db
        { ID := 7, BookingID := 1, Status := PaymentStatusFailed }).1.payments).map
          Payment.Status = some x.Status) ∧
    (∀ other : Payment, other.BookingID = 1 →
      paymentService.CancelPayment {} 9 bookedWorld.db other =
        paymentService.CancelPayment {} 9 bookedWorld.db
          { ID := 7, BookingID := 1, Status := PaymentStatusFailed }) ∧
    (findRow Payment.BookingID 1 bookedWorld.db.payments = none →
      paymentService.CancelPayment {} 9 bookedWorld.db
          { ID := 7, BookingID := 1, Status := PaymentStatusFailed } =
        (bookedWorld.db, .error "payment not found")) ∧
    (∀ q, findRow Payment.BookingID 1 bookedWorld.db.payments = some q →
      paymentService.CancelPayment {} 9 bookedWorld.db
          { ID := 7, BookingID := 1, Status := PaymentStatusFailed } =
        ((PaymentRepository.UpdatePayment 9 bookedWorld.db q).1, .ok ()) ∧
      (q.ID ≠ 0 → findRow Payment.ID q.ID (paymentService.CancelPayment {} 9 bookedWorld.db
          { ID := 7, BookingID := 1, Status := PaymentStatusFailed }).1.payments =
        some { q with UpdatedAt := 9 })) :=
  cancelPayment_keeps_status {} 9 bookedWorld.db
    { ID := 7, BookingID := 1, Status := PaymentStatusFailed }
    (by intro y hy; rw [List.mem_singleton.mp hy]; rfl)

/-! ## The pagination middleware -/

/-- C28, counterexample: for the page `9223372036854775807` and the limit `10` the stored
offset is `-20`, not `(Page - 1) × Limit`: the product overflows `int`. -/
theorem pagination_offset_wraps :
    PaginationMiddleware "GET" "9223372036854775807" "10" =
      some { Page := 9223372036854775807, Limit := 10, Offset := -20 } ∧
    ((9223372036854775807 : Int) - 1) * 10 ≠ -20 := by
  constructor <;> decide

/-- C28, amended: on a GET request the middleware stores a pagination with `Page ≥ 1` and
`1 ≤ Limit ≤ 100`; a missing, non-numeric or below-1 `page` gives page 1, any other gives
its value; a missing, non-numeric, below-1 or above-100 `limit` gives limit 10, any other
gives its value; `Offset` is `(Page - 1) × Limit` computed in `int`, which is the exact
product whenever that is below `2^63` and wraps around otherwise. -/
theorem pagination_bounds (page limit : String) :
    ∃ p, PaginationMiddleware "GET" page limit = some p ∧
      1 ≤ p.Page ∧ 1 ≤ p.Limit ∧ p.Limit ≤ 100 ∧
      p.Offset = wrapInt ((p.Page - 1) * p.Limit) ∧
      ((p.Page - 1) * p.Limit < 9223372036854775808 → p.Offset = (p.Page - 1) * p.Limit) ∧
      (page = "" ∨ Atoi page = none → p.Page = 1) ∧
      (∀ v, Atoi page = some v → p.Page = if v < 1 then 1 else v) ∧
      (limit = "" ∨ Atoi limit = none → p.Limit = 10) ∧
      (∀ v, Atoi limit = some v → p.Limit = if v < 1 ∨ 100 < v then 10 else v) := by
  have hempty : Atoi "" = none := by decide
  have hone : Atoi "1" = some 1 := by decide
  have hten : Atoi "10" = some 10 := by decide
  unfold PaginationMiddleware
  simp only [ne_eq, not_true_eq_false, if_false]
  refine ⟨_, rfl, ?_, ?_, ?_, rfl, ?_, ?_, ?_, ?_, ?_⟩
  · simp only
    cases Atoi (Query page "1") with
    | none => decide
    | some v => simp only; split <;> omega
  · simp only
    cases Atoi (Query limit "10") with
    | none => decide
    | some v => simp only; split <;> omega
  · simp only
    cases Atoi (Query limit "10") with
    | none => decide
    | some v => simp only; split <;> omega
  · simp only
    intro hlt
    apply wrapInt_of_range _ _ hlt
    have h1 : (0 : Int) ≤ (match Atoi (Query page "1") with
        | none => 1
        | some p => if p < 1 then 1 else p) - 1 := by
      cases Atoi (Query page "1") with
      | none => decide
      | some v => simp only; split <;> omega
    have h2 : (0 : Int) ≤ (match Atoi (Query limit "10") with
        | none => 10
        | some l => if l < 1 ∨ 100 < l then 10 else l) := by
      cases Atoi (Query limit "10") with
      | none => decide
      | some v => simp only; split <;> omega
    have := Int.mul_nonneg h1 h2
    omega
  · simp only
    rintro (h | h)
    · simp [Query, h, hone]
    · by_cases he : page = ""
      · simp [Query, he, hone]
      · simp [Query, he, h]
  · simp only
    intro v hv
    have he : page ≠ "" := by
      intro he
      rw [he, hempty] at hv
      cases hv
    simp [Query, he, hv]
  · simp only
    rintro (h | h)
    · simp [Query, h, hten]
    · by_cases he : limit = ""
      · simp [Query, he, hten]
      · simp [Query, he, h]
  · simp only
    intro v hv
    have he : limit ≠ "" := by
      intro he
      rw [he, hempty] at hv
      cases hv
    simp [Query, he, hv]

/-- Witness of C28, amended: page 3 with limit 20. -/
theorem pagination_bounds_witness :
    ∃ p, PaginationMiddleware "GET" "3" "20" = some p ∧
      1 ≤ p.Page ∧ 1 ≤ p.Limit ∧ p.Limit ≤ 100 ∧
      p.Offset = wrapInt ((p.Page - 1) * p.Limit) ∧
      ((p.Page - 1) * p.Limit < 9223372036854775808 → p.Offset = (p.Page - 1) * p.Limit) ∧
      ("3" = "" ∨ Atoi "3" = none → p.Page = 1) ∧
      (∀ v, Atoi "3" = some v → p.Page = if v < 1 then 1 else v) ∧
      ("20" = "" ∨ Atoi "20" = none → p.Limit = 10) ∧
      (∀ v, Atoi "20" = some v → p.Limit = if v < 1 ∨ 100 < v then 10 else v) :=
  pagination_bounds "3" "20"


/-! ## The creation of an event -/

/-- C30, counterexample: an event with five tickets and no dates is created at instant 100;
`CreateBooking` for six of its tickets at instant 101 fails with "not enough tickets
available", and for an unknown user with "record not found", not with "event has already
started". -/
theorem createEvent_booking_other_error :
    launchedWorld.db.events.map (fun e => (e.ID, e.StartDate, e.TotalTickets, e.Status)) =
      [(1, 1000, 10, EventStatusActive), (2, 100, 5, EventStatusActive)] ∧
    (demoService.CreateBooking 101 launchedWorld 1 2 6).2 =
      .error "not enough tickets available" ∧
    (demoService.CreateBooking 101 launchedWorld 9 2 1).2 = .error "record not found" := by
  refine ⟨?_, rfl, rfl⟩
  decide

/-- What `CreateEvent` does with an event that carries no start date. -/
theorem createEvent_eq (es : eventService) (t : Time) (db : DB) (event : Event)
    (hs : event.StartDate = 0) :
    es.CreateEvent t db event =
      ({ db with
          events := db.events ++
            [{ event with
                ID := if event.ID = 0 then db.nextEventID else event.ID
                StartDate := t
                EndDate := if event.EndDate = 0 then t + 30 * 24 * 3600000000000
                  else event.EndDate
                Status := if event.Status = "" then "ACTIVE" else event.Status
                CreatedAt := if event.CreatedAt = 0 then t else event.CreatedAt
                UpdatedAt := if event.UpdatedAt = 0 then t else event.UpdatedAt }]
          nextEventID := db.nextEventID + 1 },
        .ok { event with
                ID := if event.ID = 0 then db.nextEventID else event.ID
                StartDate := t
                EndDate := if event.EndDate = 0 then t + 30 * 24 * 3600000000000
                  else event.EndDate
                Status := if event.Status = "" then "ACTIVE" else event.Status
                CreatedAt := if event.CreatedAt = 0 then t else event.CreatedAt
                UpdatedAt := if event.UpdatedAt = 0 then t else event.UpdatedAt }) := by
  unfold eventService.CreateEvent EventRepository.Create
  simp only [hs, if_true]
  split <;> rfl

/-- A call of `CreateBooking` for an event that has started returns an error and writes
nothing; the error is that of the first check that fails. -/
theorem createBooking_started (s : bookingService) (later : Time) (w : World)
    (userID eventID : Nat) (q : Int) (e : Event)
    (hfind : findRow Event.ID eventID w.db.events = some e) (hlater : e.StartDate < later) :
    ∃ msg, s.CreateBooking later w userID eventID q = (w, .error msg) ∧
      ((∃ u, findRow User.ID userID w.db.users = some u) →
        e.Status = EventStatusActive → q ≤ e.TotalTickets →
        msg = "event has already started") := by
  unfold bookingService.CreateBooking
  simp only [EventRepository.FindById, hfind, UserRepository.FindById]
  cases hu : findRow User.ID userID w.db.users with
  | none =>
    refine ⟨"record not found", rfl, ?_⟩
    rintro ⟨u, hu2⟩
    cases hu2
  | some u =>
    by_cases hst : e.Status = EventStatusActive
    · by_cases hlt : e.TotalTickets < q
      · refine ⟨"not enough tickets available", by simp [hst, hlt], ?_⟩
        intro _ _ hq
        omega
      · exact ⟨"event has already started", by simp [hst, hlt, hlater], fun _ _ _ => rfl⟩
    · exact ⟨"event is not active", by simp [hst], fun _ h _ => absurd h hst⟩

/-- C30, amended: `CreateEvent` called at clock time `t` with an event whose start date is
zero stores it with start date `t` and, when its end date is zero too, with the end date
thirty days after `t`.  Every `CreateBooking` for the stored event at a later clock time
returns an error and leaves the world as it was; the error is "event has already started"
when the user exists, the event is Active and the quantity is within its ticket count, and
the error of the earlier check that fails otherwise. -/
theorem createEvent_zero_start (es : eventService) (t : Time) (db : DB) (event : Event)
    (hs : event.StartDate = 0)
    (hfresh : findRow Event.ID (if event.ID = 0 then db.nextEventID else event.ID) db.events =
      none) :
    ∃ e, (es.CreateEvent t db event).2 = .ok e ∧
      findRow Event.ID e.ID (es.CreateEvent t db event).1.events = some e ∧
      e.StartDate = t ∧
      (event.EndDate = 0 → e.EndDate = t + 30 * 24 * 3600000000000) ∧
      e.TotalTickets = event.TotalTickets ∧
      (event.Status = "" → e.Status = EventStatusActive) ∧
      ∀ (s : bookingService) (later : Time) (w : World) (userID : Nat) (q : Int),
        findRow Event.ID e.ID w.db.events = some e → t < later →
        ∃ msg, s.CreateBooking later w userID e.ID q = (w, .error msg) ∧
          ((∃ u, findRow User.ID userID w.db.users = some u) →
            e.Status = EventStatusActive → q ≤ e.TotalTickets →
            msg = "event has already started") := by
  rw [createEvent_eq es t db event hs]
  refine ⟨_, rfl, ?_, rfl, ?_, rfl, ?_, ?_⟩
  · simp only
    rw [findRow_append_none Event.ID _ db.events _ hfresh]
    simp
  · intro hend
    simp only [hend, if_true]
  · intro hst
    simp only [hst, if_true]
  · intro s later w userID q hfind hlater
    exact createBooking_started s later w userID _ q _ hfind hlater

/-- Witness of C30, amended: the event created at instant 100 on `demoWorld`. -/
theorem createEvent_zero_start_witness :
    ∃ e, (eventService.CreateEvent {} 100 demoWorld.db
        { Name := "Launch", TotalTickets := 5 }).2 = .ok e ∧
      findRow Event.ID e.ID launchedWorld.db.events = some e ∧
      e.StartDate = 100 ∧
      ((0 : Time) = 0 → e.EndDate = 100 + 30 * 24 * 3600000000000) ∧
      e.TotalTickets = 5 ∧
      ("" = "" → e.Status = EventStatusActive) ∧
      ∀ (s : bookingService) (later : Time) (w : World) (userID : Nat) (q : Int),
        findRow Event.ID e.ID w.db.events = some e → 100 < later →
        ∃ msg, s.CreateBooking later w userID e.ID q = (w, .error msg) ∧
          ((∃ u, findRow User.ID userID w.db.users = some u) →
            e.Status = EventStatusActive → q ≤ e.TotalTickets →
            msg = "event has already started") :=
  createEvent_zero_start {} 100 demoWorld.db { Name := "Launch", TotalTickets := 5 } rfl rfl


/-! ## The timeout key -/

/-- The decimal digit characters, as `Nat.digitChar` gives them. -/
theorem digitChar_spec (k : Nat) (h : k < 10) :
    (Nat.digitChar k).isDigit = true ∧ (Nat.digitChar k).toNat - 48 = k := by
  interval_cases k <;> exact ⟨by decide, by decide⟩

/-- The digits that `Nat.toDigitsCore` puts in front of its accumulator are decimal digits
that spell the number. -/
theorem toDigitsCore_spec : ∀ (fuel n : Nat) (ds : List Char), n < fuel →
    ∃ pre : List Char, Nat.toDigitsCore 10 fuel n ds = pre ++ ds ∧ pre ≠ [] ∧
      pre.all Char.isDigit = true ∧
      ∀ a : Nat, pre.foldl (fun acc c => 10 * acc + (c.toNat - 48)) a =
        a * 10 ^ pre.length + n := by
  intro fuel
  induction fuel with
  | zero => intro n ds h; omega
  | succ fuel ih =>
    intro n ds h
    have hd := digitChar_spec (n % 10) (Nat.mod_lt _ (by decide))
    unfold Nat.toDigitsCore
    by_cases h0 : n / 10 = 0
    · simp only [h0, if_true]
      refine ⟨[Nat.digitChar (n % 10)], rfl, by simp, by simp [hd.1], ?_⟩
      intro a
      simp only [List.foldl_cons, List.foldl_nil, hd.2, List.length_singleton, pow_one]
      omega
    · simp only [h0, if_false]
      obtain ⟨pre, hpre, hne, hall, hval⟩ :=
        ih (n / 10) (Nat.digitChar (n % 10) :: ds) (by omega)
      refine ⟨pre ++ [Nat.digitChar (n % 10)], by rw [hpre]; simp, by simp, ?_, ?_⟩
      · simp only [List.all_append, hall, List.all_cons, hd.1, List.all_nil, Bool.and_self]
      · intro a
        rw [List.foldl_append, hval]
        simp only [List.foldl_cons, List.foldl_nil, hd.2, List.length_append,
          List.length_singleton, pow_succ]
        have := Nat.div_add_mod n 10
        calc 10 * (a * 10 ^ pre.length + n / 10) + n % 10
            = a * (10 ^ pre.length * 10) + (10 * (n / 10) + n % 10) := by ring
          _ = a * (10 ^ pre.length * 10) + n := by rw [this]

/-- The decimal representation of a natural number: digits only, which spell the number. -/
theorem toString_digits (n : Nat) :
    (toString n).toList ≠ [] ∧ (toString n).toList.all Char.isDigit = true ∧
    (toString n).toList.foldl (fun acc c => 10 * acc + (c.toNat - 48)) 0 = n := by
  obtain ⟨pre, hpre, hne, hall, hval⟩ := toDigitsCore_spec (n + 1) n [] (by omega)
  have hs : (toString n).toList = pre := by
    show (Nat.repr n).toList = pre
    unfold Nat.repr Nat.toDigits
    rw [hpre]
    simp [List.asString]
  rw [hs]
  refine ⟨hne, hall, ?_⟩
  rw [hval]
  simp

/-- The call `Atoi` on a string of decimal digits: the number they spell, when it fits `int`. -/
theorem atoi_digits (s : String) (hne : s.toList ≠ [])
    (hall : s.toList.all Char.isDigit = true) :
    Atoi s =
      if 9223372036854775807 <
          ((s.toList.foldl (fun acc c => 10 * acc + (c.toNat - 48)) 0 : Nat) : Int)
      then none
      else some ((s.toList.foldl (fun acc c => 10 * acc + (c.toNat - 48)) 0 : Nat) : Int) := by
  unfold Atoi
  split
  · rename_i rest heq
    rw [heq] at hall
    simp at hall
  · rename_i rest heq
    rw [heq] at hall
    simp at hall
  · have hemp : s.toList.isEmpty = false := by
      cases hl : s.toList with
      | nil => exact absurd hl hne
      | cons c tl => rfl
    simp only [hemp, hall, Bool.not_true, Bool.or_self, Bool.false_eq_true, if_false]
    have hlow : ¬ (((s.toList.foldl (fun acc c => 10 * acc + (c.toNat - 48)) 0 : Nat) : Int) <
        -9223372036854775808) := by omega
    simp only [hlow, false_or]

/-- Stripping the prefix from a timeout key leaves the decimal representation of the id. -/
theorem trimPrefix_timeoutKey (n : Nat) :
    TrimPrefix (timeoutKey n) "payment:timeout:" = toString n := by
  unfold TrimPrefix timeoutKey
  have hl : ("payment:timeout:" ++ toString n).toList =
      "payment:timeout:".toList ++ (toString n).toList := String.data_append _ _
  rw [hl]
  have hp : "payment:timeout:".toList.isPrefixOf
      ("payment:timeout:".toList ++ (toString n).toList) = true := by
    rw [List.isPrefixOf_iff_prefix]
    exact List.prefix_append _ _
  rw [if_pos hp]
  have hd : ("payment:timeout:".toList ++ (toString n).toList).drop "payment:timeout:".length =
      (toString n).toList := List.drop_left _ _
  rw [hd]
  rfl

/-- What the timeout checker parses from the timeout key of booking `n`. -/
theorem atoi_timeoutKey (n : Nat) :
    Atoi (TrimPrefix (timeoutKey n) "payment:timeout:") =
      if n < 9223372036854775808 then some (n : Int) else none := by
  rw [trimPrefix_timeoutKey]
  obtain ⟨hne, hall, hval⟩ := toString_digits n
  rw [atoi_digits _ hne hall, hval]
  split
  · rw [if_neg (by omega)]
  · rw [if_pos (by omega)]

/-- C25, counterexample: the id `9223372036854775808` is a value of the 64-bit unsigned id
type; the suffix of its timeout key does not parse, since `Atoi` parses an `int`, so the
checker skips the key. -/
theorem timeoutKey_parse_fails :
    (9223372036854775808 : Nat) < 18446744073709551616 ∧
    timeoutKey 9223372036854775808 = "payment:timeout:9223372036854775808" ∧
    Atoi (TrimPrefix (timeoutKey 9223372036854775808) "payment:timeout:") = none ∧
    ∀ (qs : QueueService) (now : Time) (w : World),
      qs.checkTimeoutKey now w (timeoutKey 9223372036854775808) = w := by
  refine ⟨by decide, by decide, by decide, ?_⟩
  intro qs now w
  have h : Atoi (TrimPrefix (timeoutKey 9223372036854775808) "payment:timeout:") = none := by
    decide
  unfold QueueService.checkTimeoutKey
  rw [h]

/-- C25, amended: for every booking id `n` below `2^63`, stripping the prefix
`payment:timeout:` from the timeout key of `n`, parsing the rest with `Atoi` and converting
the result to the unsigned type yields `n`; for an id from `2^63` on the parse fails. -/
theorem timeoutKey_round_trip (n : Nat) :
    (n < 9223372036854775808 →
      ∃ v : Int, Atoi (TrimPrefix (timeoutKey n) "payment:timeout:") = some v ∧
        uintOfInt v = n) ∧
    (9223372036854775808 ≤ n →
      Atoi (TrimPrefix (timeoutKey n) "payment:timeout:") = none) := by
  constructor
  · intro h
    refine ⟨(n : Int), ?_, ?_⟩
    · rw [atoi_timeoutKey, if_pos h]
    · unfold uintOfInt
      omega
  · intro h
    rw [atoi_timeoutKey, if_neg (by omega)]

/-- Witness of C25, amended: the booking ids 42 and `2^63 - 1`. -/
theorem timeoutKey_round_trip_witness :
    (∃ v : Int, Atoi (TrimPrefix (timeoutKey 42) "payment:timeout:") = some v ∧
      uintOfInt v = 42) ∧
    (∃ v : Int, Atoi (TrimPrefix (timeoutKey 9223372036854775807) "payment:timeout:") = some v ∧
      uintOfInt v = 9223372036854775807) :=
  ⟨(timeoutKey_round_trip 42).1 (by decide),
    (timeoutKey_round_trip 9223372036854775807).1 (by decide)⟩

/-! ## One sweep of the timeout checker, key by key -/

/-- C26, counterexample: in `unpaidWorld` the booking is Pending, its timeout key is live
and the payment lookup for it fails.  The sweep does not skip the key: it calls
`updateBookingStatus` with "FAILED", the booking is stored with another status and, when the
store answers the event lookup by booking, the event goes from 7 to 10. -/
theorem timeoutCheck_missing_payment :
    unpaidWorld.redis.Keys 7 "payment:timeout:" = [timeoutKey 1] ∧
    PaymentRepository.FindByBookingID unpaidWorld.db 1 = .error "record not found" ∧
    unpaidWorld.db.bookings.map (fun b => b.Status) = [BookingStatusPending] ∧
    unpaidWorld.db.events.map (fun e => e.TotalTickets) = [7] ∧
    (demoQueue.timeoutCheck 7 unpaidWorld).db.bookings.map (fun b => b.Status) = ["status"] ∧
    (answeringQueue.timeoutCheck 7 unpaidWorld).db.bookings.map (fun b => b.Status) =
      ["status"] ∧
    (answeringQueue.timeoutCheck 7 unpaidWorld).db.events.map (fun e => e.TotalTickets) =
      [10] := by
  refine ⟨?_, rfl, ?_, ?_, ?_, ?_, ?_⟩ <;> decide

/-- C26, amended: in a sweep over a list of keys, a key whose suffix is not a decimal
integer, and a key whose booking is not in the store, so that the booking update fails,
change no state, and the keys after it are handled as if the key were not in the list.  A
key whose payment lookup fails is not skipped: the checker asks for the booking to be
marked failed. -/
theorem timeoutCheck_key_isolated (qs : QueueService) (now : Time) (w : World)
    (front back : List String) (key : String)
    (hk : Atoi (TrimPrefix key "payment:timeout:") = none ∨
      ∃ n, Atoi (TrimPrefix key "payment:timeout:") = some n ∧
        findRow Booking.ID (uintOfInt n)
          (front.foldl (fun w1 k => qs.checkTimeoutKey now w1 k) w).db.bookings = none) :
    qs.checkTimeoutKey now (front.foldl (fun w1 k => qs.checkTimeoutKey now w1 k) w) key =
      front.foldl (fun w1 k => qs.checkTimeoutKey now w1 k) w ∧
    (front ++ key :: back).foldl (fun w1 k => qs.checkTimeoutKey now w1 k) w =
      (front ++ back).foldl (fun w1 k => qs.checkTimeoutKey now w1 k) w := by
  have hone : qs.checkTimeoutKey now
      (front.foldl (fun w1 k => qs.checkTimeoutKey now w1 k) w) key =
      front.foldl (fun w1 k => qs.checkTimeoutKey now w1 k) w := by
    generalize front.foldl (fun w1 k => qs.checkTimeoutKey now w1 k) w = w0 at hk
    unfold QueueService.checkTimeoutKey
    rcases hk with hk | ⟨n, hk, hb⟩
    · rw [hk]
    · rw [hk]
      simp only [updateBookingStatus_absent qs now w0.db (uintOfInt n) "FAILED" hb]
      split
      · split
        · rfl
        · split <;> rfl
      · rfl
  refine ⟨hone, ?_⟩
  rw [List.foldl_append, List.foldl_cons, hone, List.foldl_append]

/-- Witness of C26, amended: a sweep of `bookedWorld` over a key with the suffix `abc`, the
key of booking 1 and the key of a booking 7 that is not in the store. -/
theorem timeoutCheck_key_isolated_witness :
    (demoQueue.checkTimeoutKey 7 bookedWorld "payment:timeout:abc" = bookedWorld ∧
      ["payment:timeout:abc", timeoutKey 1].foldl
          (fun w1 k => demoQueue.checkTimeoutKey 7 w1 k) bookedWorld =
        [timeoutKey 1].foldl (fun w1 k => demoQueue.checkTimeoutKey 7 w1 k) bookedWorld) ∧
    (demoQueue.checkTimeoutKey 7 bookedWorld (timeoutKey 7) = bookedWorld ∧
      [timeoutKey 7, timeoutKey 1].foldl
          (fun w1 k => demoQueue.checkTimeoutKey 7 w1 k) bookedWorld =
        [timeoutKey 1].foldl (fun w1 k => demoQueue.checkTimeoutKey 7 w1 k) bookedWorld) :=
  ⟨timeoutCheck_key_isolated demoQueue 7 bookedWorld [] [timeoutKey 1] "payment:timeout:abc"
      (Or.inl (by decide)),
    timeoutCheck_key_isolated demoQueue 7 bookedWorld [] [timeoutKey 1] (timeoutKey 7)
      (Or.inr ⟨7, by decide, rfl⟩)⟩

/-! ## Calls one after the other, and calls that overlap -/

/-- The method `CreateBooking` is its reads and checks followed, when they pass, by its
writes for the event that was read. -/
theorem createBooking_split (s : bookingService) (now : Time) (w : World)
    (userID eventID : Nat) (q : Int) :
    s.CreateBooking now w userID eventID q =
      match s.CreateBooking_read now w userID eventID q with
      | .error msg => (w, .error msg)
      | .ok event => s.CreateBooking_write now w userID eventID q event := by
  unfold bookingService.CreateBooking bookingService.CreateBooking_read
    bookingService.CreateBooking_write
  cases UserRepository.FindById w.db userID with
  | error msg => rfl
  | ok usr =>
    cases EventRepository.FindById w.db eventID with
    | error msg => rfl
    | ok ev =>
      by_cases h1 : ev.Status = EventStatusActive
      · by_cases h2 : ev.TotalTickets < q
        · simp [h1, h2]
        · by_cases h3 : ev.StartDate < now
          · simp [h1, h2, h3]
          · simp [h1, h2, h3]
      · simp [h1]

/-- A call of `CreateBooking` does not change whether Redis takes the enqueue commands. -/
theorem createBooking_ready (s : bookingService) (now : Time) (w : World)
    (userID eventID : Nat) (q : Int) :
    (s.CreateBooking now w userID eventID q).1.redis.ready = w.redis.ready := by
  unfold bookingService.CreateBooking
  cases UserRepository.FindById w.db userID with
  | error msg => rfl
  | ok usr =>
    simp only
    cases EventRepository.FindById w.db eventID with
    | error msg => rfl
    | ok ev =>
      simp only
      split
      · rfl
      · split
        · rfl
        · split
          · rfl
          · cases hps : s.paymentService with
            | none => rfl
            | some ps =>
              simp only [paymentService.CreatePayment]
              cases hqs : s.queueService with
              | none => rfl
              | some qs =>
                cases hr : qs.redis <;> cases hc : w.redis.client <;>
                  cases hp : w.redis.rpushErr <;> cases hs : w.redis.setErr <;>
                  simp [QueueService.EnqueuePayment, hr, hc, hp, hs, Redis.ready, Redis.RPush,
                    Redis.Set]

/-- A booking service that lacks a payment service or a queue service, or whose Redis does
not take the enqueue commands, never returns a booking from `CreateBooking`. -/
theorem createBooking_never_ok (s : bookingService) (now : Time) (w : World)
    (userID eventID : Nat) (q : Int)
    (h : s.paymentService = none ∨ s.queueService = none ∨
      (∃ qs, s.queueService = some qs ∧ qs.redis = false) ∨ w.redis.ready = false) :
    (s.CreateBooking now w userID eventID q).2.booked q = 0 := by
  unfold bookingService.CreateBooking
  cases UserRepository.FindById w.db userID with
  | error msg => rfl
  | ok usr =>
    simp only
    cases EventRepository.FindById w.db eventID with
    | error msg => rfl
    | ok ev =>
      simp only
      split
      · rfl
      · split
        · rfl
        · split
          · rfl
          · cases hps : s.paymentService with
            | none => rfl
            | some ps =>
              simp only [paymentService.CreatePayment]
              cases hqs : s.queueService with
              | none => rfl
              | some qs =>
                simp only [QueueService.EnqueuePayment]
                cases hr : qs.redis with
                | false => simp [Outcome.booked]
                | true =>
                  cases hc : w.redis.client with
                  | false => simp [Outcome.booked]
                  | true =>
                    cases hp : w.redis.rpushErr with
                    | some e1 => simp [Outcome.booked]
                    | none =>
                      cases hs : w.redis.setErr with
                      | some e2 => simp [Outcome.booked]
                      | none =>
                        exfalso
                        rcases h with h | h | ⟨qs1, h, h1⟩ | h
                        · rw [hps] at h; cases h
                        · rw [hqs] at h; cases h
                        · rw [hqs] at h
                          cases h
                          rw [hr] at h1
                          cases h1
                        · simp [Redis.ready, hc, hp, hs] at h

/-- With such a booking service, calls one after the other book nothing. -/
theorem bookedQuantity_never (s : bookingService) (eventID : Nat)
    (calls : List (Time × Nat × Int)) : ∀ w : World,
    (s.paymentService = none ∨ s.queueService = none ∨
      (∃ qs, s.queueService = some qs ∧ qs.redis = false) ∨ w.redis.ready = false) →
    bookedQuantity s eventID w calls = 0 := by
  induction calls with
  | nil => intro w _; rfl
  | cons c rest ih =>
    intro w h
    have hc := createBooking_never_ok s c.1 w c.2.1 eventID c.2.2 h
    unfold bookedQuantity
    rw [hc, Int.zero_add]
    apply ih
    rcases h with h | h | h | h
    · exact Or.inl h
    · exact Or.inr (Or.inl h)
    · exact Or.inr (Or.inr (Or.inl h))
    · exact Or.inr (Or.inr (Or.inr ((createBooking_ready s c.1 w c.2.1 eventID c.2.2).trans h)))

/-- With a fully wired booking service and Redis taking the enqueue commands, a call of
`CreateBooking` either returns an error and leaves the world as it was, or returns a booking
for a quantity within the count of the event and debits the event by it. -/
theorem createBooking_wired (s : bookingService) (ps : paymentService) (qs : QueueService)
    (now : Time) (w : World) (userID eventID : Nat) (q : Int) (e : Event)
    (hps : s.paymentService = some ps) (hqs : s.queueService = some qs)
    (hr : qs.redis = true) (hready : w.redis.ready = true)
    (he : findRow Event.ID eventID w.db.events = some e) (hid : eventID ≠ 0) :
    ((s.CreateBooking now w userID eventID q).1 = w ∧
      (s.CreateBooking now w userID eventID q).2.booked q = 0) ∨
    ((s.CreateBooking now w userID eventID q).2.booked q = q ∧ q ≤ e.TotalTickets ∧
      ∃ e1, findRow Event.ID eventID (s.CreateBooking now w userID eventID q).1.db.events =
        some e1 ∧ e1.TotalTickets = wrapInt (e.TotalTickets - q)) := by
  have hk : e.ID = eventID := findRow_key Event.ID eventID _ e he
  have hflags : w.redis.client = true ∧ w.redis.rpushErr = none ∧ w.redis.setErr = none := by
    simpa [Redis.ready, Bool.and_eq_true, Option.isNone_iff_eq_none, and_assoc] using hready
  obtain ⟨hc, hp, hs⟩ := hflags
  unfold bookingService.CreateBooking
  simp only [UserRepository.FindById, EventRepository.FindById, he]
  cases hu : findRow User.ID userID w.db.users with
  | none => left; exact ⟨rfl, rfl⟩
  | some usr =>
    by_cases h1 : e.Status = EventStatusActive
    · by_cases h2 : e.TotalTickets < q
      · left; simp [h1, h2, Outcome.booked]
      · by_cases h3 : e.StartDate < now
        · left; simp [h1, h2, h3, Outcome.booked]
        · right
          simp only [h1, h2, h3, ne_eq, not_true_eq_false, if_false, hps, hqs,
            paymentService.CreatePayment, QueueService.EnqueuePayment, hr, hc, hp, hs,
            Bool.true_eq_false]
          refine ⟨rfl, by omega,
            ⟨{ e with TotalTickets := wrapInt (e.TotalTickets - q), UpdatedAt := now,
                      Status := EventStatusActive }, ?_, rfl⟩⟩
          simp only [PaymentRepository.Create]
          exact findRow_eventUpdate_key now _
            { e with TotalTickets := wrapInt (e.TotalTickets - q),
                     Status := EventStatusActive } eventID hk hid
    · left; simp [h1, Outcome.booked]

/-- With a fully wired booking service and Redis taking the enqueue commands, calls one
after the other for one event book at most the count of the event, or nothing when that
count is negative. -/
theorem bookedQuantity_wired (s : bookingService) (ps : paymentService) (qs : QueueService)
    (eventID : Nat) (hps : s.paymentService = some ps) (hqs : s.queueService = some qs)
    (hr : qs.redis = true) (hid : eventID ≠ 0) (calls : List (Time × Nat × Int)) :
    ∀ (w : World) (e : Event), w.redis.ready = true →
      findRow Event.ID eventID w.db.events = some e →
      bookedQuantity s eventID w calls ≤ max e.TotalTickets 0 := by
  induction calls with
  | nil =>
    intro w e _ _
    unfold bookedQuantity
    omega
  | cons c rest ih =>
    intro w e hc he
    unfold bookedQuantity
    have hc1 : (s.CreateBooking c.1 w c.2.1 eventID c.2.2).1.redis.ready = true :=
      (createBooking_ready s c.1 w c.2.1 eventID c.2.2).trans hc
    rcases createBooking_wired s ps qs c.1 w c.2.1 eventID c.2.2 e hps hqs hr hc he hid with
      ⟨hw, hb⟩ | ⟨hb, hq, e1, he1, ht⟩
    · rw [hb, hw, Int.zero_add]
      exact ih w e hc he
    · have hrest := ih _ e1 hc1 he1
      rw [hb]
      rw [ht] at hrest
      unfold wrapInt at hrest
      omega

/-- C21, counterexample: two callers ask for six tickets each of `demoEvent`, which has ten.
Both read the event in `demoWorld` before either writes; both pass the checks; the first
makes its writes and returns its booking, the second makes its writes, with the event it
read, and returns its booking too: twelve tickets of ten are booked, and the event is left
at four.  Had the second call run after the first, it would have been refused. -/
theorem createBooking_overlap_oversells :
    demoEvent.TotalTickets = 10 ∧
    (demoService.CreateBooking_read 5 demoWorld 1 1 6).toOption.map (fun e => e.TotalTickets) =
      some 10 ∧
    (demoService.CreateBooking_read 6 demoWorld 1 1 6).toOption.map (fun e => e.TotalTickets) =
      some 10 ∧
    (demoService.CreateBooking_write 5 demoWorld 1 1 6 demoEvent).2.booked 6 = 6 ∧
    (demoService.CreateBooking_write 6 firstWriterWorld 1 1 6 demoEvent).2.booked 6 = 6 ∧
    secondWriterWorld.db.bookings.map (fun b => (b.ID, b.EventID, b.Quantity, b.Status)) =
      [(1, 1, 6, BookingStatusPending), (2, 1, 6, BookingStatusPending)] ∧
    secondWriterWorld.db.events.map (fun e => e.TotalTickets) = [4] ∧
    (demoService.CreateBooking 5 demoWorld 1 1 6).1.db.events.map (fun e => e.TotalTickets) =
      firstWriterWorld.db.events.map (fun e => e.TotalTickets) ∧
    (demoService.CreateBooking 6 firstWriterWorld 1 1 6).2 =
      .error "not enough tickets available" := by
  refine ⟨rfl, ?_, ?_, ?_, ?_, ?_, ?_, ?_, rfl⟩ <;> decide

/-- C21, amended: for calls of `CreateBooking` against one event that run one after the
other, each returning before the next starts, the quantities of the calls that return a
booking never sum to more than the count the event had at the start.  Calls that overlap are
not serialised: the method reads the event, checks and then writes, with nothing that makes
the three one step. -/
theorem sequential_no_oversell (s : bookingService) (eventID : Nat) (w : World)
    (calls : List (Time × Nat × Int)) (e : Event)
    (he : findRow Event.ID eventID w.db.events = some e) (hid : eventID ≠ 0)
    (hR : 0 ≤ e.TotalTickets) :
    bookedQuantity s eventID w calls ≤ e.TotalTickets := by
  cases hps : s.paymentService with
  | none => rw [bookedQuantity_never s eventID calls w (Or.inl hps)]; exact hR
  | some ps =>
    cases hqs : s.queueService with
    | none => rw [bookedQuantity_never s eventID calls w (Or.inr (Or.inl hqs))]; exact hR
    | some qs =>
      cases hr : qs.redis with
      | false =>
        rw [bookedQuantity_never s eventID calls w (Or.inr (Or.inr (Or.inl ⟨qs, hqs, hr⟩)))]
        exact hR
      | true =>
        cases hc : w.redis.ready with
        | false =>
          rw [bookedQuantity_never s eventID calls w (Or.inr (Or.inr (Or.inr hc)))]
          exact hR
        | true =>
          have h := bookedQuantity_wired s ps qs eventID hps hqs hr hid calls w e hc he
          omega

/-- Witness of C21, amended: three calls, one after the other, for six, six and four
tickets of `demoEvent`. -/
theorem sequential_no_oversell_witness :
    bookedQuantity demoService 1 demoWorld [(5, 1, 6), (6, 1, 6), (7, 1, 4)] ≤
      demoEvent.TotalTickets :=
  sequential_no_oversell demoService 1 demoWorld [(5, 1, 6), (6, 1, 6), (7, 1, 4)] demoEvent
    rfl (by decide) (by decide)

/-! ## The booking service as the program builds it -/

/-- C1 (code bug): the program builds its booking service with `NewBookingService` and with
nothing else, and on that service `CreateBooking` never returns a booking.  Whatever the
request, it either returns an error with the world as it was, or it panics on the nil
payment service, after the booking was stored and the event debited, with no payment
created, no job pushed and no timeout key set.  So it is for the request for all ten tickets
of `demoEvent`, an Active event that starts later, by an existing user: the booking is stored
as Pending, the event is left at zero, and the call panics. -/
theorem createBooking_constructed_panics :
    (∀ (now : Time) (w : World) (userID eventID : Nat) (q : Int),
      (∃ msg, NewBookingService.CreateBooking now w userID eventID q = (w, .error msg)) ∨
      ((NewBookingService.CreateBooking now w userID eventID q).2 =
          .crash "nil pointer dereference" ∧
        (NewBookingService.CreateBooking now w userID eventID q).1.db.payments =
          w.db.payments ∧
        (NewBookingService.CreateBooking now w userID eventID q).1.redis = w.redis)) ∧
    findRow User.ID 1 demoWorld.db.users = some demoUser ∧
    findRow Event.ID 1 demoWorld.db.events = some demoEvent ∧
    demoEvent.Status = EventStatusActive ∧ (5 : Time) < demoEvent.StartDate ∧
    demoEvent.TotalTickets = 10 ∧
    (NewBookingService.CreateBooking 5 demoWorld 1 1 10).2 =
      .crash "nil pointer dereference" ∧
    (NewBookingService.CreateBooking 5 demoWorld 1 1 10).1.db.bookings.map
      (fun b => (b.ID, b.Quantity, b.Status)) = [(1, 10, BookingStatusPending)] ∧
    (NewBookingService.CreateBooking 5 demoWorld 1 1 10).1.db.events.map
      (fun e => e.TotalTickets) = [0] ∧
    (NewBookingService.CreateBooking 5 demoWorld 1 1 10).1.db.payments.length = 0 ∧
    ((NewBookingService.CreateBooking 5 demoWorld 1 1 10).1.redis.list QueueName).length = 0 ∧
    (NewBookingService.CreateBooking 5 demoWorld 1 1 10).1.redis.entries = [] := by
  refine ⟨?_, rfl, rfl, rfl, by decide, rfl, rfl, by decide, by decide, by decide, by decide,
    by decide⟩
  intro now w userID eventID q
  unfold bookingService.CreateBooking NewBookingService
  cases UserRepository.FindById w.db userID with
  | error msg => exact Or.inl ⟨msg, rfl⟩
  | ok usr =>
    cases EventRepository.FindById w.db eventID with
    | error msg => exact Or.inl ⟨msg, rfl⟩
    | ok ev =>
      by_cases h1 : ev.Status = EventStatusActive
      · by_cases h2 : ev.TotalTickets < q
        · left; simp [h1, h2]
        · by_cases h3 : ev.StartDate < now
          · left; simp [h1, h2, h3]
          · right
            simp [h1, h2, h3, eventUpdate_payments, BookingRepository.Create]
      · left; simp [h1]

/-- C9 (code bug): on the service that `NewBookingService` builds, `ConfirmBooking` never
leaves a payment Completed: whatever the booking id, it either returns an error with the
world as it was, or it panics on the nil payment service after the booking was stored as
Confirmed, with the payments as they were.  So it is for `demoBooking`, Pending with a
Pending payment: the booking is stored as Confirmed, its payment stays Pending, and the call
panics. -/
theorem confirmBooking_constructed_panics :
    (∀ (now : Time) (w : World) (id : Nat),
      (∃ msg, NewBookingService.ConfirmBooking now w id = (w, .error msg)) ∨
      ((NewBookingService.ConfirmBooking now w id).2 = .crash "nil pointer dereference" ∧
        (NewBookingService.ConfirmBooking now w id).1.db.payments = w.db.payments)) ∧
    bookedWorld.db.bookings.map (fun b => (b.ID, b.Status)) = [(1, BookingStatusPending)] ∧
    bookedWorld.db.payments.map (fun p => (p.BookingID, p.Status)) =
      [(1, PaymentStatusPending)] ∧
    (NewBookingService.ConfirmBooking 6 bookedWorld 1).2 = .crash "nil pointer dereference" ∧
    (NewBookingService.ConfirmBooking 6 bookedWorld 1).1.db.bookings.map
      (fun b => (b.ID, b.Status)) = [(1, BookingStatusConfirmed)] ∧
    (NewBookingService.ConfirmBooking 6 bookedWorld 1).1.db.payments.map
      (fun p => (p.BookingID, p.Status)) = [(1, PaymentStatusPending)] ∧
    (NewBookingService.ConfirmBooking 6 bookedWorld 1).1.db.events.map
      (fun e => e.TotalTickets) = [7] := by
  refine ⟨?_, by decide, by decide, rfl, by decide, by decide, by decide⟩
  intro now w id
  unfold bookingService.ConfirmBooking NewBookingService
  cases BookingRepository.FindById w.db id with
  | error msg => exact Or.inl ⟨msg, rfl⟩
  | ok b =>
    by_cases h1 : b.Status = BookingStatusPending
    · right
      simp [h1, bookingUpdate_payments]
    · left; simp [h1]

end TicketBox
